import Mathlib

/-!
# Velleman K8055 protocol layer: a shallow embedding of `libk8055.cpp`

The library keeps its state in file-level globals: a table `k8055d` of four
`k8055_dev` records, the pointer `CurrDev` into that table, the handle
`connected_device`, and the `Done` flag of `init_usb`.  Here they are the
fields of `State`, and every library function is a function on `State`.

The HID transport (`hid_read`, `hid_write`, `hid_enumerate`, `hid_open_path`)
is external: what a transport call returns is an argument of the function that
makes the call, and every call made is appended to `State.calls`.

`CurrDev` is a null pointer until the first `OpenDevice` or `SetCurrentDevice`
sets it; a function that dereferences it while it is null has no defined
behaviour and returns `none`.

Bytes (`unsigned char`) are natural numbers below 256, `int` and `long` values
are integers, and a conversion to `unsigned char` is an explicit `% 256`.  The
`float` and `double` arithmetic of `SetCounterDebounceTime` is computed exactly,
on fractions, with the IEEE 754 rounding made explicit (section "Binary
floating point").
-/

namespace K8055

/-! ## Constants -/

def PACKET_LEN : Nat := 8
def K8055_IPID : Nat := 0x5500
def VELLEMAN_VENDOR_ID : Nat := 0x10cf
def K8055_MAX_DEV : Nat := 4
def K8055_ERROR : Int := -1
def DIGITAL_INP_OFFSET : Nat := 0
def DIGITAL_OUT_OFFSET : Nat := 1
def ANALOG_1_OFFSET : Nat := 2
def ANALOG_2_OFFSET : Nat := 3
def COUNTER_1_OFFSET : Nat := 4
def COUNTER_2_OFFSET : Nat := 6
def CMD_SET_ANALOG_DIGITAL : Nat := 5

/-! ## Machine arithmetic -/

/-- Conversion of an `int` or `long` to `unsigned char`. -/
def toUChar (x : Int) : Nat := (x % 256).toNat

/-- The 32-bit pattern of `~x` for an `int` whose pattern is `x`. -/
def not32 (x : Nat) : Nat := 0xFFFFFFFF - x % 2 ^ 32

/-- Read of `buf[i]`; the buffers have nine bytes and every index used is below nine. -/
def byteAt (buf : List Nat) (i : Nat) : Nat := buf.getD i 0

/-- The value of `*((short int*)(&buf[off]))`: the two bytes at `off` and `off + 1` read as a
signed 16-bit integer, low byte first (the library is built for Windows, which is
little-endian). -/
def readShort (buf : List Nat) (off : Nat) : Int :=
  let u := byteAt buf off + 256 * byteAt buf (off + 1)
  if u % 65536 < 32768 then ((u % 65536 : Nat) : Int) else ((u % 65536 : Nat) : Int) - 65536

/-- The effect of `memcpy(dst, src, n)` on `dst`. -/
def memcpy (dst src : List Nat) (n : Nat) : List Nat :=
  src.take n ++ dst.drop n

/-! ## Data model -/

/-- One node of the list `hid_enumerate` returns. -/
structure hid_device_info where
  path : Nat
  vendor_id : Nat
  product_id : Nat
deriving DecidableEq

/-- One call made on the HID transport. A handle is `none` for a null pointer. -/
inductive HidCall where
  | hid_init
  | hid_enumerate
  | hid_open_path (path : Nat)
  | hid_set_nonblocking (h : Option Nat)
  | hid_read (h : Option Nat)
  | hid_write (h : Option Nat) (report : List Nat)
  | hid_close (h : Option Nat)
deriving DecidableEq

/-- The record `struct k8055_dev`. -/
structure k8055_dev where
  data_in : List Nat
  data_out : List Nat
  device_handle : Option Nat
  DevNo : Int
deriving DecidableEq

/-- The globals of the library, and the transport calls made so far. -/
structure State where
  k8055d : Fin 4 → k8055_dev
  CurrDev : Option (Fin 4)
  connected_device : Option Nat
  Done : Bool
  calls : List HidCall

/-- A `k8055_dev` as static initialisation leaves it: all bytes zero, null handle, `DevNo` 0. -/
def k8055_dev.zero : k8055_dev :=
  { data_in := List.replicate 9 0, data_out := List.replicate 9 0,
    device_handle := none, DevNo := 0 }

/-- The globals at program start. -/
def State.initial : State :=
  { k8055d := fun _ => k8055_dev.zero, CurrDev := none, connected_device := none,
    Done := false, calls := [] }

/-- Replace the record in slot `i`. -/
def State.setDev (s : State) (i : Fin 4) (d : k8055_dev) : State :=
  { s with k8055d := fun j => if j = i then d else s.k8055d j }

/-- Append a transport call to the log. -/
def State.log (s : State) (c : HidCall) : State :=
  { s with calls := s.calls ++ [c] }

/-- Result of `hid_read(handle, vPacket, 8)`: the returned count (negative on error) and the
bytes the transport stored at the start of `vPacket`. -/
structure HidRead where
  read_status : Int
  bytes : List Nat

/-! ## Transport layer -/

/-- Body of `init_usb`. -/
def init_usb (s : State) : State :=
  if s.Done then s else { s.log HidCall.hid_init with Done := true }

/-- Body of `ReadK8055Data`; `rd` is what the one `hid_read` call returns. -/
def ReadK8055Data (s : State) (rd : HidRead) : Option (State × Int) :=
  match s.CurrDev with
  | none => none
  | some i =>
    let d := s.k8055d i
    if d.DevNo = -1 then some (s, K8055_ERROR)
    else
      let vPacket := memcpy (List.replicate 9 0) rd.bytes (min rd.bytes.length 8)
      let s1 := s.log (HidCall.hid_read d.device_handle)
      if rd.read_status = PACKET_LEN then
        let d1 := { d with data_in := memcpy d.data_in vPacket PACKET_LEN }
        let s2 := s1.setDev i d1
        if (byteAt d1.data_in 1 : Int) = d1.DevNo + 1 then some (s2, 0)
        else if (byteAt d1.data_in 1 : Int) = d1.DevNo + 10 then some (s2, 0)
        else some (s2, K8055_ERROR)
      else if rd.read_status = 0 then some (s1, 0)
      else some (s1, K8055_ERROR)

/-- The nine bytes `WriteK8055Data` assembles in `vPacket` from `cmd` and `data_out`. -/
def vPacket (cmd : Nat) (data_out : List Nat) : List Nat :=
  ((((((((((List.replicate 9 0).set 0 1).set 1 cmd).set 2 (byteAt data_out 1)).set 3
    (byteAt data_out 2)).set 4 (byteAt data_out 3)).set 5 (byteAt data_out 4)).set 6
    (byteAt data_out 5)).set 7 (byteAt data_out 6)).set 8 (byteAt data_out 7))

/-- Body of `WriteK8055Data`; `res` is what the one `hid_write` call returns. -/
def WriteK8055Data (s : State) (cmd : Nat) (res : Int) : Option (State × Int) :=
  match s.CurrDev with
  | none => none
  | some i =>
    let d := s.k8055d i
    if d.DevNo = -1 then some (s, K8055_ERROR)
    else
      let d1 := { d with data_out := d.data_out.set 0 cmd }
      let s1 := (s.setDev i d1).log (HidCall.hid_write s.connected_device (vPacket cmd d1.data_out))
      if res ≠ PACKET_LEN + 1 then some (s1, K8055_ERROR) else some (s1, 0)

/-! ## Device table -/

/-- The loop of `OpenDevice` over the enumerated devices: the first node whose `product_id`
equals `0x5500 + BoardAddress` (`VBoardIsCorrect` returns `TRUE` for every node). -/
def findBoard (BoardAddress : Int) : List hid_device_info → Option hid_device_info
  | [] => none
  | cur_dev :: next =>
    if (cur_dev.product_id : Int) = 0x5500 + BoardAddress then some cur_dev
    else findBoard BoardAddress next

/-- Body of `OpenDevice`; `devices` is the list `hid_enumerate` returns and `hid_open_path`
gives the handle (or null) the transport returns for a path. -/
def OpenDevice (s : State) (BoardAddress : Int) (devices : List hid_device_info)
    (hid_open_path : Nat → Option Nat) : State × Int :=
  let s0 := init_usb s
  if h : 0 ≤ BoardAddress ∧ BoardAddress < (K8055_MAX_DEV : Int) then
    let i : Fin 4 := ⟨BoardAddress.toNat, by simp only [K8055_MAX_DEV] at h; omega⟩
    let s1 := { s0 with CurrDev := some i }
    let s2 := s1.setDev i { s1.k8055d i with DevNo := -1 }
    let s3 := s2.log HidCall.hid_enumerate
    match findBoard BoardAddress devices with
    | some cur_dev =>
      let handle := hid_open_path cur_dev.path
      let s4 := s3.log (HidCall.hid_open_path cur_dev.path)
      let s5 := s4.setDev i { s4.k8055d i with device_handle := handle, DevNo := BoardAddress }
      let s6 := { s5 with connected_device := handle }
      (s6.log (HidCall.hid_set_nonblocking handle), 0)
    | none => (s3, K8055_ERROR)
  else (s0, K8055_ERROR)

/-- Body of `CloseDevice`. -/
def CloseDevice (s : State) : Option (State × Int) :=
  match s.CurrDev with
  | none => none
  | some i =>
    let d := s.k8055d i
    if d.DevNo = -1 then some (s, 0)
    else
      let s1 := s.log (HidCall.hid_close d.device_handle)
      some (s1.setDev i { d with DevNo := -1, device_handle := none }, 0)

/-- Body of `SetCurrentDevice`.  The globals `data_in` and `data_out` it also sets are read
nowhere in the library and are left out. -/
def SetCurrentDevice (s : State) (deviceno : Int) : State × Int :=
  if h : 0 ≤ deviceno ∧ deviceno < (K8055_MAX_DEV : Int) then
    let i : Fin 4 := ⟨deviceno.toNat, by simp only [K8055_MAX_DEV] at h; omega⟩
    if (s.k8055d i).DevNo ≠ 0 then ({ s with CurrDev := some i }, deviceno)
    else (s, K8055_ERROR)
  else (s, K8055_ERROR)

/-- Body of `SearchDevices`. -/
def SearchDevices (s : State) : State × Int :=
  (init_usb s, 0)

/-! ## Analog channels -/

/-- Store `v` in `CurrDev->data_out[k]`. -/
def State.setOut (s : State) (i : Fin 4) (k v : Nat) : State :=
  s.setDev i { s.k8055d i with data_out := (s.k8055d i).data_out.set k v }

/-- Body of `ReadAnalogChannel`. -/
def ReadAnalogChannel (s : State) (Channel : Int) (rd : HidRead) : Option (State × Int) :=
  if Channel = 1 ∨ Channel = 2 then
    match ReadK8055Data s rd with
    | none => none
    | some (s1, r) =>
      if r = 0 then
        match s1.CurrDev with
        | none => none
        | some i =>
          if Channel = 2 then some (s1, (byteAt (s1.k8055d i).data_in ANALOG_2_OFFSET : Int))
          else some (s1, (byteAt (s1.k8055d i).data_in ANALOG_1_OFFSET : Int))
      else some (s1, K8055_ERROR)
  else some (s, K8055_ERROR)

/-- Body of `ReadAllAnalog`; the third component is what is stored through `data1` and
`data2`, `none` when nothing is stored. -/
def ReadAllAnalog (s : State) (rd : HidRead) : Option (State × Int × Option (Int × Int)) :=
  match ReadK8055Data s rd with
  | none => none
  | some (s1, r) =>
    if r = 0 then
      match s1.CurrDev with
      | none => none
      | some i =>
        some (s1, 0, some ((byteAt (s1.k8055d i).data_in ANALOG_1_OFFSET : Int),
          (byteAt (s1.k8055d i).data_in ANALOG_2_OFFSET : Int)))
    else some (s1, K8055_ERROR, none)

/-- Body of `OutputAnalogChannel`. -/
def OutputAnalogChannel (s : State) (Channel data : Int) (res : Int) : Option (State × Int) :=
  if Channel = 1 ∨ Channel = 2 then
    match s.CurrDev with
    | none => none
    | some i =>
      if Channel = 2 then
        WriteK8055Data (s.setOut i ANALOG_2_OFFSET (toUChar data)) CMD_SET_ANALOG_DIGITAL res
      else
        WriteK8055Data (s.setOut i ANALOG_1_OFFSET (toUChar data)) CMD_SET_ANALOG_DIGITAL res
  else some (s, K8055_ERROR)

/-- Body of `OutputAllAnalog`. -/
def OutputAllAnalog (s : State) (data1 data2 : Int) (res : Int) : Option (State × Int) :=
  match s.CurrDev with
  | none => none
  | some i =>
    WriteK8055Data ((s.setOut i 2 (toUChar data1)).setOut i 3 (toUChar data2))
      CMD_SET_ANALOG_DIGITAL res

/-- Body of `ClearAllAnalog`. -/
def ClearAllAnalog (s : State) (res : Int) : Option (State × Int) :=
  OutputAllAnalog s 0 0 res

/-- Body of `ClearAnalogChannel`. -/
def ClearAnalogChannel (s : State) (Channel : Int) (res : Int) : Option (State × Int) :=
  if Channel = 1 ∨ Channel = 2 then
    if Channel = 2 then OutputAnalogChannel s 2 0 res
    else OutputAnalogChannel s 1 0 res
  else some (s, K8055_ERROR)

/-- Body of `SetAnalogChannel`. -/
def SetAnalogChannel (s : State) (Channel : Int) (res : Int) : Option (State × Int) :=
  if Channel = 1 ∨ Channel = 2 then
    if Channel = 2 then OutputAnalogChannel s 2 0xff res
    else OutputAnalogChannel s 1 0xff res
  else some (s, K8055_ERROR)

/-- Body of `SetAllAnalog`. -/
def SetAllAnalog (s : State) (res : Int) : Option (State × Int) :=
  OutputAllAnalog s 0xff 0xff res

/-! ## Digital channels -/

/-- Body of `WriteAllDigital`. -/
def WriteAllDigital (s : State) (data : Int) (res : Int) : Option (State × Int) :=
  match s.CurrDev with
  | none => none
  | some i => WriteK8055Data (s.setOut i 1 (toUChar data)) CMD_SET_ANALOG_DIGITAL res

/-- Body of `ClearDigitalChannel`. The expression `data_out[1] & ~(1 << (Channel - 1))` is
computed on 32-bit `int` patterns and stored in the `unsigned char data`. -/
def ClearDigitalChannel (s : State) (Channel : Int) (res : Int) : Option (State × Int) :=
  if 0 < Channel ∧ Channel < 9 then
    match s.CurrDev with
    | none => none
    | some i =>
      let data : Nat :=
        (byteAt (s.k8055d i).data_out 1 &&& not32 (1 <<< (Channel - 1).toNat)) % 256
      WriteAllDigital s (data : Int) res
  else some (s, K8055_ERROR)

/-- Body of `ClearAllDigital`. -/
def ClearAllDigital (s : State) (res : Int) : Option (State × Int) :=
  WriteAllDigital s 0x00 res

/-- Body of `SetDigitalChannel`. -/
def SetDigitalChannel (s : State) (Channel : Int) (res : Int) : Option (State × Int) :=
  if 0 < Channel ∧ Channel < 9 then
    match s.CurrDev with
    | none => none
    | some i =>
      let data : Nat := (byteAt (s.k8055d i).data_out 1 ||| (1 <<< (Channel - 1).toNat)) % 256
      WriteAllDigital s (data : Int) res
  else some (s, K8055_ERROR)

/-- Body of `SetAllDigital`. -/
def SetAllDigital (s : State) (res : Int) : Option (State × Int) :=
  WriteAllDigital s 0xff res

/-- The expression both `ReadAllDigital` and `ReadAllValues` compute from `data_in[0]`. -/
def decodeDigital (b0 : Nat) : Nat :=
  ((b0 >>> 4) &&& 0x03) ||| ((b0 <<< 2) &&& 0x04) ||| ((b0 >>> 3) &&& 0x18)

/-- Body of `ReadAllDigital`. -/
def ReadAllDigital (s : State) (rd : HidRead) : Option (State × Int) :=
  match ReadK8055Data s rd with
  | none => none
  | some (s1, r) =>
    if r = 0 then
      match s1.CurrDev with
      | none => none
      | some i => some (s1, (decodeDigital (byteAt (s1.k8055d i).data_in 0) : Int))
    else some (s1, K8055_ERROR)

/-- Body of `ReadDigitalChannel`. -/
def ReadDigitalChannel (s : State) (Channel : Int) (rd : HidRead) : Option (State × Int) :=
  if 0 < Channel ∧ Channel < 6 then
    match ReadAllDigital s rd with
    | none => none
    | some (s1, rval) =>
      if rval = K8055_ERROR then some (s1, K8055_ERROR)
      else if 0 < (rval.toNat &&& (1 <<< (Channel - 1).toNat)) then some (s1, 1)
      else some (s1, 0)
  else some (s, K8055_ERROR)

/-- Body of `ReadAllValues`; the third component is what is stored through `data1` .. `data5`,
`none` when nothing is stored. -/
def ReadAllValues (s : State) (rd : HidRead) :
    Option (State × Int × Option (Int × Int × Int × Int × Int)) :=
  match ReadK8055Data s rd with
  | none => none
  | some (s1, r) =>
    if r = 0 then
      match s1.CurrDev with
      | none => none
      | some i =>
        let data_in := (s1.k8055d i).data_in
        some (s1, 0, some ((decodeDigital (byteAt data_in 0) : Int),
          (byteAt data_in ANALOG_1_OFFSET : Int), (byteAt data_in ANALOG_2_OFFSET : Int),
          readShort data_in COUNTER_1_OFFSET, readShort data_in COUNTER_2_OFFSET))
    else some (s1, K8055_ERROR, none)

/-- Body of `SetAllValues`. -/
def SetAllValues (s : State) (DigitalData AdData1 AdData2 : Int) (res : Int) :
    Option (State × Int) :=
  match s.CurrDev with
  | none => none
  | some i =>
    WriteK8055Data (((s.setOut i 1 (toUChar DigitalData)).setOut i 2 (toUChar AdData1)).setOut i 3
      (toUChar AdData2)) CMD_SET_ANALOG_DIGITAL res

/-! ## Counters -/

/-- Body of `ResetCounter`. -/
def ResetCounter (s : State) (CounterNo : Int) (res : Int) : Option (State × Int) :=
  if CounterNo = 1 ∨ CounterNo = 2 then
    match s.CurrDev with
    | none => none
    | some i =>
      let s1 := s.setOut i 0 ((0x02 + toUChar CounterNo) % 256)
      let s2 := s1.setOut i (3 + CounterNo).toNat 0x00
      WriteK8055Data s2 (byteAt (s2.k8055d i).data_out 0) res
  else some (s, K8055_ERROR)

/-- Body of `ReadCounter`. -/
def ReadCounter (s : State) (CounterNo : Int) (rd : HidRead) : Option (State × Int) :=
  if CounterNo = 1 ∨ CounterNo = 2 then
    match ReadK8055Data s rd with
    | none => none
    | some (s1, r) =>
      if r = 0 then
        match s1.CurrDev with
        | none => none
        | some i =>
          if CounterNo = 2 then some (s1, readShort (s1.k8055d i).data_in COUNTER_2_OFFSET)
          else some (s1, readShort (s1.k8055d i).data_in COUNTER_1_OFFSET)
      else some (s1, K8055_ERROR)
  else some (s, K8055_ERROR)

/-! ## Binary floating point

`SetCounterDebounceTime` computes in `float` and `double`.  Both are IEEE 754 binary formats
(24 and 53 significand bits), and every operation returns the representable number nearest to
the exact result, ties to the even significand.  A value is kept here as an exact non-negative
fraction, and an operation is the exact operation on fractions followed by `roundNE`.  The
exponent range is not bounded: the values that occur below (0, and numbers between 2 and
65536) are far from the overflow and underflow thresholds of both formats.
-/

/-- The value `k n`; the `match` makes an evaluator reduce `n` to a numeral once, before `k`
uses it. -/
def seqNat {α : Type} (n : Nat) (k : Nat → α) : α :=
  match n with
  | 0 => k 0
  | m + 1 => k (Nat.succ m)

/-- One step of a binary search for the top bit of `n`. -/
def log2Step (k : Nat) (cont : Nat → Nat → Nat) (acc n : Nat) : Nat :=
  seqNat n fun n => bif Nat.ble (2 ^ k) n then cont (acc + k) (n / 2 ^ k) else cont acc n

/-- The position of the top bit of `n`, that is `Nat.log2 n`: a binary search finds it for
`n < 2 ^ 256`, and its result is used only after it has been checked. -/
def log2 (n : Nat) : Nat :=
  seqNat n fun n =>
  bif Nat.beq n 0 then 0
  else
    seqNat (log2Step 128 (log2Step 64 (log2Step 32 (log2Step 16 (log2Step 8 (log2Step 4
      (log2Step 2 (log2Step 1 fun acc _ => acc))))))) 0 n) fun e =>
    bif Nat.ble (2 ^ e) n && Nat.blt n (2 ^ (e + 1)) then e else Nat.log2 n

/-- One step of Newton's iteration for the integer square root of `n`, from above. -/
def newtonStep (n : Nat) (cont : Nat → Nat) (x : Nat) : Nat :=
  seqNat x fun x => seqNat ((x + n / x) / 2) fun y => bif Nat.blt y x then cont y else x

/-- The integer square root of `n`, that is `Nat.sqrt n`: ten Newton steps find it for the
numbers that occur, and their result is used only after it has been checked. -/
def isqrt (n : Nat) : Nat :=
  seqNat n fun n =>
  seqNat (newtonStep n (newtonStep n (newtonStep n (newtonStep n (newtonStep n (newtonStep n
    (newtonStep n (newtonStep n (newtonStep n (newtonStep n fun x => x)))))))))
    (2 ^ (log2 n / 2 + 1))) fun r =>
  bif Nat.ble (r * r) n && Nat.blt n ((r + 1) * (r + 1)) then r else Nat.sqrt n

/-- The non-negative rational `num / den`, not in lowest terms. -/
structure Frac where
  num : Nat
  den : Nat
deriving DecidableEq

/-- Exact sum. -/
def Frac.add (x y : Frac) : Frac := ⟨x.num * y.den + y.num * x.den, x.den * y.den⟩

/-- Exact quotient. -/
def Frac.div (x y : Frac) : Frac := ⟨x.num * y.den, x.den * y.num⟩

/-- The comparison `x > y`. -/
def Frac.gt (x y : Frac) : Bool := Nat.blt (y.num * x.den) (x.num * y.den)

/-- Conversion to an integer type: the fraction is discarded. -/
def Frac.trunc (x : Frac) : Nat := x.num / x.den

/-- The integer nearest to `num / den`, the even one of the two when it is halfway. -/
def nearestEven (num den : Nat) : Nat :=
  seqNat (num / den) fun q => seqNat (2 * (num % den)) fun r2 =>
  bif Nat.blt r2 den then q
  else bif Nat.blt den r2 then q + 1
  else bif Nat.beq (q % 2) 0 then q else q + 1

/-- The scaling that brings `num / den` into `[2 ^ (p - 1), 2 ^ p)`: `k up down` is called
with `2 ^ (p - 1) ≤ (num / den) * 2 ^ up / 2 ^ down < 2 ^ p`.  For `num / den ≥ 1` the
exponent is the top bit `e` of its integer part; below 1 it is `-c` for the least `c` with
`den / num ≤ 2 ^ c`. -/
def normShift (p num den : Nat) (k : Nat → Nat → Frac) : Frac :=
  bif Nat.ble den num then
    seqNat (log2 (num / den)) fun e =>
      bif Nat.ble e (p - 1) then k (p - 1 - e) 0 else k 0 (e - (p - 1))
  else
    seqNat (log2 ((den - 1) / num) + 1) fun c => k (p - 1 + c) 0

/-- Rounding to the nearest binary floating-point number with `p` significand bits, ties to
even: `x` is scaled by a power of two into `[2 ^ (p - 1), 2 ^ p)`, rounded to an integer, and
scaled back. -/
def roundNE (p : Nat) (x : Frac) : Frac :=
  match x with
  | ⟨num, den⟩ =>
    seqNat num fun num => seqNat den fun den =>
    bif Nat.beq num 0 then ⟨0, 1⟩
    else normShift p num den fun up down =>
      seqNat (nearestEven (num * 2 ^ up) (den * 2 ^ down)) fun m => ⟨m * 2 ^ down, 2 ^ up⟩

/-- The scaling that brings the square root of `num / den` into `[2 ^ (p - 1), 2 ^ p)`:
`k up down` is called with `2 ^ (p - 1) ≤ sqrt (num / den) * 2 ^ up / 2 ^ down < 2 ^ p`. -/
def sqrtShift (p num den : Nat) (k : Nat → Nat → Frac) : Frac :=
  bif Nat.ble den num then
    seqNat (log2 (num / den) / 2) fun e =>
      bif Nat.ble e (p - 1) then k (p - 1 - e) 0 else k 0 (e - (p - 1))
  else
    seqNat ((log2 ((den - 1) / num) + 2) / 2) fun c => k (p - 1 + c) 0

/-- The integer nearest to the square root of `num / den`, the even one of the two when it is
halfway: the integer square root `q`, or `q + 1` when `(q + 1/2) ^ 2 < num / den`. -/
def nearestEvenSqrt (num den : Nat) : Nat :=
  seqNat (isqrt (num / den)) fun q =>
  seqNat ((2 * q + 1) * (2 * q + 1) * den) fun mid =>
  seqNat (4 * num) fun n4 =>
  bif Nat.blt n4 mid then q
  else bif Nat.blt mid n4 then q + 1
  else bif Nat.beq (q % 2) 0 then q else q + 1

/-- The correctly rounded square root (`sqrtf` for `p = 24`): the floating-point number with
`p` significand bits nearest to the square root of `x`. -/
def roundSqrt (p : Nat) (x : Frac) : Frac :=
  match x with
  | ⟨num, den⟩ =>
    seqNat num fun num => seqNat den fun den =>
    bif Nat.beq num 0 then ⟨0, 1⟩
    else sqrtShift p num den fun up down =>
      seqNat (nearestEvenSqrt (num * 4 ^ up) (den * 4 ^ down)) fun m => ⟨m * 2 ^ down, 2 ^ up⟩

/-- The `double` constant `0.115`, bit pattern `0x3FBD70A3D70A3D71`. -/
def double_0_115 : Frac := ⟨0x1D70A3D70A3D71, 2 ^ 56⟩

/-- The `double` constant `0.49999999`, bit pattern `0x3FDFFFFFF543388F`. -/
def double_0_49999999 : Frac := ⟨0x1FFFFFF543388F, 2 ^ 54⟩

/-- The `float value` of `SetCounterDebounceTime` when it is converted to `unsigned char`, for
a `DebounceTime` that is not negative and not above 7450:
`value = sqrtf(DebounceTime / 0.115)` divides in `double`, converts the quotient to `float`
and takes the `float` square root; `value > ((int)value + 0.49999999)` adds and compares in
`double`; `value += 1` adds in `float`. -/
def debounceValue (DebounceTime : Nat) : Frac :=
  match roundSqrt 24 (roundNE 24 (roundNE 53 (Frac.div ⟨DebounceTime, 1⟩ double_0_115))) with
  | ⟨vn, vd⟩ =>
    seqNat vn fun vn => seqNat vd fun vd =>
    bif Frac.gt ⟨vn, vd⟩ (roundNE 53 (Frac.add ⟨vn / vd, 1⟩ double_0_49999999)) then
      roundNE 24 (Frac.add ⟨vn, vd⟩ ⟨1, 1⟩)
    else ⟨vn, vd⟩

/-- The byte `SetCounterDebounceTime` stores for `DebounceTime`.  For a negative
`DebounceTime` the argument of `sqrtf` is negative, `value` is a NaN, the comparison is false,
and the conversion of a NaN to `unsigned char` is not defined by the language: the byte it
yields is the argument `undef`. -/
def debounceByte (DebounceTime : Int) (undef : Nat) : Nat :=
  if (if DebounceTime > 7450 then 7450 else DebounceTime) < 0 then undef % 256
  else (debounceValue (if DebounceTime > 7450 then 7450 else DebounceTime).toNat).trunc % 256

/-- Body of `SetCounterDebounceTime`. -/
def SetCounterDebounceTime (s : State) (CounterNo DebounceTime : Int) (undef : Nat) (res : Int) :
    Option (State × Int) :=
  if CounterNo = 1 ∨ CounterNo = 2 then
    match s.CurrDev with
    | none => none
    | some i =>
      let s1 := s.setOut i 0 (toUChar CounterNo)
      let s2 := s1.setOut i (5 + CounterNo).toNat (debounceByte DebounceTime undef)
      WriteK8055Data s2 (byteAt (s2.k8055d i).data_out 0) res
  else some (s, K8055_ERROR)

/-- The reference conversion of the specification, in integer arithmetic: with
`v = sqrt (ms / 0.115)` and `k` the integer part of `v`, the result is `k + 1` when
`v > k + 0.49999999` and `k` otherwise.  Here `ms / 0.115 = 200 * ms / 23`, and
`v > k + 0.49999999` is compared after squaring and clearing denominators. -/
def refByte (ms : Nat) : Nat :=
  seqNat (isqrt (200 * ms / 23)) fun k =>
  bif Nat.blt (23 * (100000000 * k + 49999999) ^ 2) (200 * ms * 10 ^ 16) then k + 1 else k

/-- What is checked for each duration `ms`: no wrap-around in the conversion to
`unsigned char`, agreement with the reference, and no decrease to the next duration. -/
def tableOK (ms : Nat) : Bool :=
  seqNat (refByte ms) fun r =>
  Nat.beq (debounceValue ms).trunc r && Nat.ble r 255 && Nat.ble r (refByte (ms + 1))

/-- The conjunction of `f lo`, ..., `f (lo + n - 1)`. -/
def checkFrom (f : Nat → Bool) (lo : Nat) : Nat → Bool
  | 0 => true
  | n + 1 => f (lo + n) && checkFrom f lo n

/-! ## The output operations as data -/

/-- The output operations of the library, with their arguments. -/
inductive OutputOp where
  | WriteAllDigital (data : Int)
  | ClearDigitalChannel (Channel : Int)
  | ClearAllDigital
  | SetDigitalChannel (Channel : Int)
  | SetAllDigital
  | OutputAnalogChannel (Channel data : Int)
  | OutputAllAnalog (data1 data2 : Int)
  | ClearAllAnalog
  | ClearAnalogChannel (Channel : Int)
  | SetAnalogChannel (Channel : Int)
  | SetAllAnalog
  | SetAllValues (DigitalData AdData1 AdData2 : Int)
  | ResetCounter (CounterNo : Int)
  | SetCounterDebounceTime (CounterNo DebounceTime : Int) (undef : Nat)

/-- Call of the library function an `OutputOp` names; `res` is what `hid_write` returns. -/
def OutputOp.run (s : State) (res : Int) : OutputOp → Option (State × Int)
  | .WriteAllDigital data => K8055.WriteAllDigital s data res
  | .ClearDigitalChannel Channel => K8055.ClearDigitalChannel s Channel res
  | .ClearAllDigital => K8055.ClearAllDigital s res
  | .SetDigitalChannel Channel => K8055.SetDigitalChannel s Channel res
  | .SetAllDigital => K8055.SetAllDigital s res
  | .OutputAnalogChannel Channel data => K8055.OutputAnalogChannel s Channel data res
  | .OutputAllAnalog data1 data2 => K8055.OutputAllAnalog s data1 data2 res
  | .ClearAllAnalog => K8055.ClearAllAnalog s res
  | .ClearAnalogChannel Channel => K8055.ClearAnalogChannel s Channel res
  | .SetAnalogChannel Channel => K8055.SetAnalogChannel s Channel res
  | .SetAllAnalog => K8055.SetAllAnalog s res
  | .SetAllValues DigitalData AdData1 AdData2 =>
    K8055.SetAllValues s DigitalData AdData1 AdData2 res
  | .ResetCounter CounterNo => K8055.ResetCounter s CounterNo res
  | .SetCounterDebounceTime CounterNo DebounceTime undef =>
    K8055.SetCounterDebounceTime s CounterNo DebounceTime undef res

/-- The command code the specification names for an operation: 5 for the digital and analog
output operations, `2 + n` for `ResetCounter(n)`, `n` for `SetCounterDebounceTime(n, ms)`. -/
def OutputOp.command : OutputOp → Int
  | .ResetCounter CounterNo => 2 + CounterNo
  | .SetCounterDebounceTime CounterNo _ _ => CounterNo
  | _ => 5

/-- The channel or counter index of the operation is in its valid range. -/
def OutputOp.valid : OutputOp → Prop
  | .ClearDigitalChannel Channel => 0 < Channel ∧ Channel < 9
  | .SetDigitalChannel Channel => 0 < Channel ∧ Channel < 9
  | .OutputAnalogChannel Channel _ => Channel = 1 ∨ Channel = 2
  | .ClearAnalogChannel Channel => Channel = 1 ∨ Channel = 2
  | .SetAnalogChannel Channel => Channel = 1 ∨ Channel = 2
  | .ResetCounter CounterNo => CounterNo = 1 ∨ CounterNo = 2
  | .SetCounterDebounceTime CounterNo _ _ => CounterNo = 1 ∨ CounterNo = 2
  | _ => True

/-! ## Example states -/

/-- An enumeration with one board at address 1. -/
def exDevices : List hid_device_info :=
  [{ path := 7, vendor_id := 0x10cf, product_id := 0x5501 }]

/-- A transport that opens every path, with handle `100 + path`. -/
def exOpenPath (path : Nat) : Option Nat := some (100 + path)

/-- The state after `OpenDevice(1)` at program start. -/
def exOpen : State := (OpenDevice State.initial 1 exDevices exOpenPath).1

/-- A read of eight bytes: wire byte 0 is `0b00010001`, the status byte is 2. -/
def exRead : HidRead := { read_status := 8, bytes := [0x11, 2, 30, 40, 0x34, 0x12, 0xff, 0xff] }

/-- The state in which `ReadK8055Data` leaves `exOpen` on the read `exRead`. -/
def exAfterRead : State :=
  match ReadK8055Data exOpen exRead with
  | some (s1, _) => s1
  | none => exOpen

/-- A read of eight bytes whose status byte 9 is neither 2 nor 11. -/
def exBadRead : HidRead := { read_status := 8, bytes := [0xf0, 9, 1, 2, 3, 4, 5, 6] }

/-- The state in which `ReadK8055Data` leaves `exAfterRead` on the read `exBadRead`. -/
def exAfterBadRead : State :=
  match ReadK8055Data exAfterRead exBadRead with
  | some (s1, _) => s1
  | none => exAfterRead

/-- A read that delivers no bytes. -/
def exNoData : HidRead := { read_status := 0, bytes := [] }

/-- The state after `SetAllValues(0xff, 0x80, 0x40)` on `exOpen`, the write returning 9. -/
def exAfterSetAll : State :=
  match SetAllValues exOpen 0xff 0x80 0x40 9 with
  | some (s1, _) => s1
  | none => exOpen

/-- The state after `SetCounterDebounceTime(1, 1000)` on `exOpen`, the write returning 9. -/
def exAfterDebounce : State :=
  match SetCounterDebounceTime exOpen 1 1000 0 9 with
  | some (s1, _) => s1
  | none => exOpen

/-- The state after `SetDigitalChannel(3)` on `exOpen`, the write returning 9. -/
def exAfterSet3 : State :=
  match SetDigitalChannel exOpen 3 9 with
  | some (s1, _) => s1
  | none => exOpen

/-- The reports handed to `hid_write` so far, oldest first. -/
def State.reports (s : State) : List (List Nat) :=
  s.calls.filterMap fun c =>
    match c with
    | HidCall.hid_write _ report => some report
    | _ => none

/-- A transport that opens every path, with handle `200 + path`. -/
def exOpenPath2 (path : Nat) : Option Nat := some (200 + path)

/-- An enumeration in which a device of another vendor carries the product id of address 1,
ahead of the Velleman board. -/
def exDevicesMixed : List hid_device_info :=
  [{ path := 3, vendor_id := 0x1234, product_id := 0x5501 },
   { path := 7, vendor_id := 0x10cf, product_id := 0x5501 }]

/-- An enumeration with no Velleman device: another vendor's device with product id
`0x5501`. -/
def exDevicesOther : List hid_device_info :=
  [{ path := 3, vendor_id := 0x1234, product_id := 0x5501 }]

/-- An enumeration with boards at addresses 0, 1 and 2. -/
def exDevices012 : List hid_device_info :=
  [{ path := 5, vendor_id := 0x10cf, product_id := 0x5500 },
   { path := 7, vendor_id := 0x10cf, product_id := 0x5501 },
   { path := 8, vendor_id := 0x10cf, product_id := 0x5502 }]

/-- The state after `CloseDevice` on `s`; `s` itself if `CurrDev` is null. -/
def exClose (s : State) : State :=
  match CloseDevice s with
  | some (s1, _) => s1
  | none => s

/-- The state after `OpenDevice(0)` at program start. -/
def exOpen0 : State := (OpenDevice State.initial 0 exDevices012 exOpenPath).1

/-- Board 1 opened and closed, then board 2 opened: `CurrDev` is slot 2, slot 1 is closed. -/
def exClosed1Open2 : State :=
  (OpenDevice (exClose (OpenDevice State.initial 1 exDevices012 exOpenPath).1) 2 exDevices012
    exOpenPath).1

/-- Board 1 reopened after `SetAllValues(0xff, 0x80, 0x40)` and `CloseDevice`. -/
def exReopened : State := (OpenDevice (exClose exAfterSetAll) 1 exDevices exOpenPath).1

/-- Boards 1 and 2 opened in that order (handles 107 and 108), then `SetCurrentDevice(1)`. -/
def exTwoBoards : State :=
  (SetCurrentDevice (OpenDevice (OpenDevice State.initial 1 exDevices012 exOpenPath).1 2
    exDevices012 exOpenPath).1 1).1

/-- Boards 1 and 2 opened in that order, board 2 closed by `CloseDevice`, then
`SetCurrentDevice(1)`. -/
def exBoard2Closed : State :=
  (SetCurrentDevice (exClose (OpenDevice (OpenDevice State.initial 1 exDevices012
    exOpenPath).1 2 exDevices012 exOpenPath).1) 1).1

/-- The state after `WriteAllDigital(0xAA)` on `exOpen`, the write returning 3 (a short
write). -/
def exAfterFailedWrite : State :=
  match WriteAllDigital exOpen 0xAA 3 with
  | some (s1, _) => s1
  | none => exOpen

/-- The state after `CloseDevice`, `WriteAllDigital(0xAA)` on the closed session and a second
`OpenDevice(1)`, starting from `exOpen`. -/
def exAfterClosedWrite : State :=
  match WriteAllDigital (exClose exOpen) 0xAA 9 with
  | some (s1, _) => (OpenDevice s1 1 exDevices exOpenPath).1
  | none => exOpen

/-- The indices `k`, `1 ≤ k ≤ 7`, of the bytes `data_out[k]` the body of the operation assigns
before it calls `WriteK8055Data` (which assigns `data_out[0]` only): `data_out[1]` for the
digital operations, `data_out[ANALOG_1_OFFSET]` or `data_out[ANALOG_2_OFFSET]` for the
operations on one analog channel, `data_out[2]` and `data_out[3]` for those on both,
`data_out[1]`, `[2]` and `[3]` for `SetAllValues`, `data_out[3 + CounterNo]` for `ResetCounter`
and `data_out[5 + CounterNo]` for `SetCounterDebounceTime`. -/
def OutputOp.assigns : OutputOp → Nat → Prop
  | .WriteAllDigital _, k => k = 1
  | .ClearDigitalChannel _, k => k = 1
  | .ClearAllDigital, k => k = 1
  | .SetDigitalChannel _, k => k = 1
  | .SetAllDigital, k => k = 1
  | .OutputAnalogChannel Channel _, k =>
    k = (if Channel = 2 then ANALOG_2_OFFSET else ANALOG_1_OFFSET)
  | .OutputAllAnalog _ _, k => k = 2 ∨ k = 3
  | .ClearAllAnalog, k => k = 2 ∨ k = 3
  | .ClearAnalogChannel Channel, k =>
    k = (if Channel = 2 then ANALOG_2_OFFSET else ANALOG_1_OFFSET)
  | .SetAnalogChannel Channel, k =>
    k = (if Channel = 2 then ANALOG_2_OFFSET else ANALOG_1_OFFSET)
  | .SetAllAnalog, k => k = 2 ∨ k = 3
  | .SetAllValues _ _ _, k => k = 1 ∨ k = 2 ∨ k = 3
  | .ResetCounter CounterNo, k => k = (3 + CounterNo).toNat
  | .SetCounterDebounceTime CounterNo _ _, k => k = (5 + CounterNo).toNat

/-! ## Theorems -/

/-- A read that returns leaves `CurrDev` where it was. -/
theorem ReadK8055Data_CurrDev (s s1 : State) (rd : HidRead) (r : Int)
    (h : ReadK8055Data s rd = some (s1, r)) : s1.CurrDev = s.CurrDev := by
  cases hc : s.CurrDev with
  | none => simp [ReadK8055Data, hc] at h
  | some i =>
    simp only [ReadK8055Data, hc] at h
    split_ifs at h <;> simp only [Option.some.injEq, Prod.mk.injEq] at h <;>
      (obtain ⟨h1, _⟩ := h; subst h1; simp [State.setDev, State.log, hc])

/-- C1: when the read succeeds, `ReadAllDigital` returns
`((b0>>4)&0x03) | ((b0<<2)&0x04) | ((b0>>3)&0x18)` for `b0` byte 0 of the input buffer as the
read leaves it; for `b0 = 0b00010001` that value is `0b00000101`. -/
theorem C1_ReadAllDigital_formula (s s1 : State) (rd : HidRead) (i : Fin 4)
    (hcur : s.CurrDev = some i) (hread : ReadK8055Data s rd = some (s1, 0)) :
    ReadAllDigital s rd = some (s1,
      ((((byteAt (s1.k8055d i).data_in 0 >>> 4) &&& 0x03)
        ||| ((byteAt (s1.k8055d i).data_in 0 <<< 2) &&& 0x04)
        ||| ((byteAt (s1.k8055d i).data_in 0 >>> 3) &&& 0x18) : Nat) : Int))
    ∧ (byteAt (s1.k8055d i).data_in 0 = 0b00010001 →
        ReadAllDigital s rd = some (s1, 0b00000101)) := by
  have hc1 : s1.CurrDev = some i := (ReadK8055Data_CurrDev s s1 rd 0 hread).trans hcur
  refine ⟨?_, ?_⟩
  · simp [ReadAllDigital, hread, hc1, decodeDigital]
  · intro hb
    simp only [ReadAllDigital, hread, hc1, decodeDigital, hb]
    rfl

/-- Witness for C1: the board open at address 1 reads wire byte `0b00010001`. -/
theorem C1_ReadAllDigital_formula_witness :
    exOpen.CurrDev = some 1 ∧ ReadK8055Data exOpen exRead = some (exAfterRead, 0) ∧
      byteAt (exAfterRead.k8055d 1).data_in 0 = 0b00010001 ∧
      ReadAllDigital exOpen exRead = some (exAfterRead, 0b00000101) :=
  ⟨rfl, rfl, rfl, (C1_ReadAllDigital_formula exOpen exAfterRead exRead 1 rfl rfl).2 rfl⟩

/-- C2: on the board open at address 1, a successful read whose counter 2 bytes are
`0xff, 0xff` (the count 65535) makes `ReadCounter(2)` return -1, the error value, and not a
value in [0, 65535]; counter 1 bytes `0x34, 0x12` give 0x1234. -/
theorem C2_ReadCounter_signed :
    ReadK8055Data exOpen exRead = some (exAfterRead, 0) ∧
      byteAt (exAfterRead.k8055d 1).data_in 6 = 0xff ∧
      byteAt (exAfterRead.k8055d 1).data_in 7 = 0xff ∧
      ReadCounter exOpen 2 exRead = some (exAfterRead, -1) ∧
      ReadCounter exOpen 2 exRead = some (exAfterRead, K8055_ERROR) ∧
      ReadCounter exOpen 1 exRead = some (exAfterRead, 0x1234) :=
  ⟨rfl, rfl, rfl, rfl, rfl, rfl⟩

/-- C3: on the board open at address 1 whose input buffer holds an accepted report, a read
of eight bytes with status byte 9 returns the error value and leaves the rejected bytes in the
input buffer; the next read, which delivers no bytes, succeeds and `ReadAllDigital` decodes the
rejected byte `0xf0`. -/
theorem C3_rejected_report_is_stored :
    (exAfterRead.k8055d 1).DevNo = 1 ∧
      (exAfterRead.k8055d 1).data_in = [0x11, 2, 30, 40, 0x34, 0x12, 0xff, 0xff, 0] ∧
      ReadK8055Data exAfterRead exBadRead = some (exAfterBadRead, K8055_ERROR) ∧
      (exAfterBadRead.k8055d 1).data_in = [0xf0, 9, 1, 2, 3, 4, 5, 6, 0] ∧
      (ReadAllDigital exAfterBadRead exNoData).map Prod.snd = some 27 :=
  ⟨rfl, rfl, rfl, rfl, rfl⟩

/-- Byte 1 of the input buffer after the copy is byte 1 of what the transport delivered. -/
theorem byteAt_one_after_copy (data_in bytes : List Nat) :
    byteAt (memcpy data_in (memcpy (List.replicate 9 0) bytes (min bytes.length 8)) PACKET_LEN) 1
      = byteAt bytes 1 := by
  rcases bytes with _ | ⟨a, _ | ⟨b, rest⟩⟩
  · simp [byteAt, memcpy, PACKET_LEN, List.replicate]
  · simp [byteAt, memcpy, PACKET_LEN, List.replicate]
  · obtain ⟨m, hm⟩ : ∃ m, min (a :: b :: rest).length 8 = m + 2 :=
      ⟨min rest.length 6, by simp only [List.length_cons]; omega⟩
    rw [memcpy, memcpy, hm]
    simp [byteAt, PACKET_LEN, List.take_succ_cons]

/-- C4: on an open session with board address `a`, `ReadK8055Data` returns 0 exactly when
the transport delivers no byte, or eight bytes whose byte 1 is `a + 1` or `a + 10`; with no
byte delivered the input buffer is unchanged, and when eight bytes are accepted the first eight
bytes of the input buffer are the received bytes. -/
theorem C4_ReadK8055Data_success_iff (s : State) (i : Fin 4) (rd : HidRead)
    (hcur : s.CurrDev = some i) (hopen : (s.k8055d i).DevNo ≠ -1) :
    ∃ s1 r, ReadK8055Data s rd = some (s1, r) ∧ (r = 0 ∨ r = K8055_ERROR) ∧
      (r = 0 ↔ (rd.read_status = 0 ∨ (rd.read_status = 8 ∧
        ((byteAt rd.bytes 1 : Int) = (s.k8055d i).DevNo + 1 ∨
          (byteAt rd.bytes 1 : Int) = (s.k8055d i).DevNo + 10)))) ∧
      (rd.read_status = 0 → (s1.k8055d i).data_in = (s.k8055d i).data_in) ∧
      (rd.read_status = 8 → r = 0 → rd.bytes.length = 8 →
        (s1.k8055d i).data_in.take 8 = rd.bytes ∧
          (s1.k8055d i).data_in.drop 8 = (s.k8055d i).data_in.drop 8) := by
  simp only [ReadK8055Data, hcur, if_neg hopen, byteAt_one_after_copy]
  by_cases h8 : rd.read_status = 8
  · simp only [h8, PACKET_LEN, Nat.cast_ofNat, if_true]
    by_cases h1 : (byteAt rd.bytes 1 : Int) = (s.k8055d i).DevNo + 1
    · refine ⟨_, 0, by rw [if_pos h1], Or.inl rfl, by simp [h1], by simp, ?_⟩
      intro _ _ hlen
      simp [State.setDev, State.log, memcpy, hlen]
    · by_cases h10 : (byteAt rd.bytes 1 : Int) = (s.k8055d i).DevNo + 10
      · refine ⟨_, 0, by rw [if_neg h1, if_pos h10], Or.inl rfl, by simp [h10], by simp, ?_⟩
        intro _ _ hlen
        simp [State.setDev, State.log, memcpy, hlen]
      · refine ⟨_, K8055_ERROR, by rw [if_neg h1, if_neg h10], Or.inr rfl, ?_, by simp, ?_⟩
        · simp [K8055_ERROR, h1, h10]
        · intro _ h0
          simp [K8055_ERROR] at h0
  · have h8' : ¬ rd.read_status = (PACKET_LEN : Int) := by simpa [PACKET_LEN] using h8
    simp only [if_neg h8']
    by_cases h0 : rd.read_status = 0
    · refine ⟨_, 0, by rw [if_pos h0], Or.inl rfl, by simp [h0], ?_, ?_⟩
      · intro _
        simp [State.log]
      · intro h; exact absurd h h8
    · refine ⟨_, K8055_ERROR, by rw [if_neg h0], Or.inr rfl, by simp [K8055_ERROR, h0, h8], ?_, ?_⟩
      · intro h; exact absurd h h0
      · intro h; exact absurd h h8

/-- Witness for C4: the board open at address 1 accepts the report `exRead`. -/
theorem C4_ReadK8055Data_success_iff_witness :
    exOpen.CurrDev = some 1 ∧ (exOpen.k8055d 1).DevNo ≠ -1 ∧
      ∃ s1 r, ReadK8055Data exOpen exRead = some (s1, r) ∧ (r = 0 ∨ r = K8055_ERROR) ∧
        (r = 0 ↔ (exRead.read_status = 0 ∨ (exRead.read_status = 8 ∧
          ((byteAt exRead.bytes 1 : Int) = (exOpen.k8055d 1).DevNo + 1 ∨
            (byteAt exRead.bytes 1 : Int) = (exOpen.k8055d 1).DevNo + 10)))) ∧
        (exRead.read_status = 0 → (s1.k8055d 1).data_in = (exOpen.k8055d 1).data_in) ∧
        (exRead.read_status = 8 → r = 0 → exRead.bytes.length = 8 →
          (s1.k8055d 1).data_in.take 8 = exRead.bytes ∧
            (s1.k8055d 1).data_in.drop 8 = (exOpen.k8055d 1).data_in.drop 8) :=
  ⟨rfl, by decide, C4_ReadK8055Data_success_iff exOpen 1 exRead rfl (by decide)⟩

/-! ### The debounce conversion -/

theorem seqNat_eq {α : Type} (n : Nat) (k : Nat → α) : seqNat n k = k n := by
  cases n <;> rfl

/-- The checked binary search is `Nat.log2`. -/
theorem log2_eq (n : Nat) : log2 n = Nat.log2 n := by
  unfold log2
  simp only [seqNat_eq]
  cases h0 : Nat.beq n 0
  · simp only [cond_false]
    generalize log2Step 128 _ 0 n = e
    cases h : (Nat.ble (2 ^ e) n && Nat.blt n (2 ^ (e + 1)))
    · rfl
    · simp only [cond_true]
      simp only [Bool.and_eq_true, Nat.ble_eq, Nat.blt_eq] at h
      rw [Nat.log2_eq_log_two]
      symm
      rw [Nat.log_eq_iff]
      · exact h
      · right
        refine ⟨by norm_num, ?_⟩
        rintro rfl
        simp at h0
  · have hn : n = 0 := Nat.eq_of_beq_eq_true h0
    subst hn
    rw [Nat.log2_eq_log_two, Nat.log_zero_right]
    rfl

/-- The checked Newton iteration is `Nat.sqrt`. -/
theorem isqrt_eq (n : Nat) : isqrt n = Nat.sqrt n := by
  unfold isqrt
  simp only [seqNat_eq]
  generalize newtonStep n _ _ = r
  cases h : (Nat.ble (r * r) n && Nat.blt n ((r + 1) * (r + 1)))
  · rfl
  · simp only [cond_true]
    simp only [Bool.and_eq_true, Nat.ble_eq, Nat.blt_eq] at h
    exact Nat.eq_sqrt.2 h

/-- The `double` nearest to 0.115 and to 0.49999999 are the two constants. -/
theorem double_constants :
    roundNE 53 ⟨115, 1000⟩ = double_0_115 ∧
      roundNE 53 ⟨49999999, 100000000⟩ = double_0_49999999 := by
  decide!

/-- Known values: `sqrtf(2.0f)` is `0x3FB504F3`, and the `float` nearest to 1/3 is
`0x3EAAAAAB`. -/
theorem float_examples :
    roundSqrt 24 ⟨2, 1⟩ = ⟨0xB504F3, 2 ^ 23⟩ ∧ roundNE 24 ⟨1, 3⟩ = ⟨0xAAAAAB, 2 ^ 25⟩ := by
  decide!

/-! ### The rounding functions meet their specification -/

/-- `nearestEven num den` is an integer nearest to `num / den`, and the even one on a tie. -/
theorem nearestEven_spec (num den : Nat) (hd : 0 < den) :
    2 * nearestEven num den * den ≤ 2 * num + den ∧
      2 * num ≤ 2 * nearestEven num den * den + den ∧
      ((2 * nearestEven num den * den = 2 * num + den ∨
        2 * num = 2 * nearestEven num den * den + den) → nearestEven num den % 2 = 0) ∧
      num / den ≤ nearestEven num den ∧ nearestEven num den ≤ num / den + 1 := by
  have hdm := Nat.div_add_mod num den
  have hr := Nat.mod_lt num hd
  have e1 : 2 * (num / den) * den = 2 * (den * (num / den)) := by ring
  have e2 : 2 * (num / den + 1) * den = 2 * (den * (num / den)) + 2 * den := by ring
  generalize den * (num / den) = a at hdm e1 e2
  simp only [nearestEven, seqNat_eq]
  by_cases h1 : 2 * (num % den) < den
  · have : Nat.blt (2 * (num % den)) den = true := by simpa using h1
    rw [this]
    simp only [cond_true]
    rw [e1]
    omega
  · have : Nat.blt (2 * (num % den)) den = false := by
      rw [Bool.eq_false_iff]; intro h; exact h1 (by simpa using h)
    rw [this]
    simp only [cond_false]
    by_cases h2 : den < 2 * (num % den)
    · have : Nat.blt den (2 * (num % den)) = true := by simpa using h2
      rw [this]
      simp only [cond_true]
      rw [e2]
      omega
    · have : Nat.blt den (2 * (num % den)) = false := by
        rw [Bool.eq_false_iff]; intro h; exact h2 (by simpa using h)
      rw [this]
      simp only [cond_false]
      by_cases h3 : num / den % 2 = 0
      · have : Nat.beq (num / den % 2) 0 = true := by simp [h3]
        rw [this]
        simp only [cond_true]
        rw [e1]
        omega
      · have : Nat.beq (num / den % 2) 0 = false := by
          rw [Bool.eq_false_iff]; intro h; exact h3 (Nat.eq_of_beq_eq_true h)
        rw [this]
        simp only [cond_false]
        rw [e2]
        omega

/-- `normShift` calls its continuation with a scaling that brings `num / den` into
`[2 ^ (p - 1), 2 ^ p)`. -/
theorem normShift_spec (p num den : Nat) (k : Nat → Nat → Frac) (hp : 0 < p) (hn : 0 < num)
    (hd : 0 < den) :
    ∃ up down, normShift p num den k = k up down ∧
      2 ^ (p - 1) * (den * 2 ^ down) ≤ num * 2 ^ up ∧
      num * 2 ^ up < 2 ^ p * (den * 2 ^ down) := by
  simp only [normShift, seqNat_eq, log2_eq]
  have hpp : 2 ^ p = 2 * 2 ^ (p - 1) := by
    rw [← pow_succ']; congr 1; omega
  by_cases h1 : den ≤ num
  · have : Nat.ble den num = true := by simpa using h1
    rw [this]
    simp only [cond_true]
    have hq : num / den ≠ 0 := by
      have := Nat.div_pos h1 hd
      omega
    have l1 : 2 ^ (num / den).log2 * den ≤ num :=
      (Nat.le_div_iff_mul_le hd).1 (Nat.log2_self_le hq)
    have l2 : num < 2 ^ ((num / den).log2 + 1) * den :=
      (Nat.div_lt_iff_lt_mul hd).1 Nat.lt_log2_self
    generalize (num / den).log2 = e at l1 l2
    by_cases h2 : e ≤ p - 1
    · have : Nat.ble e (p - 1) = true := by simpa using h2
      rw [this]
      simp only [cond_true]
      refine ⟨p - 1 - e, 0, rfl, ?_, ?_⟩
      · have e3 : 2 ^ (p - 1) = 2 ^ e * 2 ^ (p - 1 - e) := by
          rw [← pow_add]; congr 1; omega
        rw [e3]
        calc 2 ^ e * 2 ^ (p - 1 - e) * (den * 2 ^ 0) = (2 ^ e * den) * 2 ^ (p - 1 - e) := by ring
          _ ≤ num * 2 ^ (p - 1 - e) := Nat.mul_le_mul_right _ l1
      · have e3 : 2 ^ p = 2 ^ (e + 1) * 2 ^ (p - 1 - e) := by
          rw [← pow_add]; congr 1; omega
        rw [e3]
        calc num * 2 ^ (p - 1 - e) < (2 ^ (e + 1) * den) * 2 ^ (p - 1 - e) :=
              Nat.mul_lt_mul_of_pos_right l2 (by positivity)
          _ = 2 ^ (e + 1) * 2 ^ (p - 1 - e) * (den * 2 ^ 0) := by ring
    · have : Nat.ble e (p - 1) = false := by
        rw [Bool.eq_false_iff]; intro h; exact h2 (by simpa using h)
      rw [this]
      simp only [cond_false]
      refine ⟨0, e - (p - 1), rfl, ?_, ?_⟩
      · have e3 : 2 ^ e = 2 ^ (p - 1) * 2 ^ (e - (p - 1)) := by
          rw [← pow_add]; congr 1; omega
        calc 2 ^ (p - 1) * (den * 2 ^ (e - (p - 1))) = 2 ^ e * den := by rw [e3]; ring
          _ ≤ num := l1
          _ = num * 2 ^ 0 := by simp
      · have e3 : 2 ^ (e + 1) = 2 ^ p * 2 ^ (e - (p - 1)) := by
          rw [← pow_add]; congr 1; omega
        calc num * 2 ^ 0 = num := by simp
          _ < 2 ^ (e + 1) * den := l2
          _ = 2 ^ p * (den * 2 ^ (e - (p - 1))) := by rw [e3]; ring
  · have : Nat.ble den num = false := by
      rw [Bool.eq_false_iff]; intro h; exact h1 (by simpa using h)
    rw [this]
    simp only [cond_false]
    have hq : (den - 1) / num ≠ 0 := by
      have := Nat.div_pos (show num ≤ den - 1 by omega) hn
      omega
    have l1 : 2 ^ ((den - 1) / num).log2 * num ≤ den - 1 :=
      (Nat.le_div_iff_mul_le hn).1 (Nat.log2_self_le hq)
    have l2 : den - 1 < 2 ^ (((den - 1) / num).log2 + 1) * num :=
      (Nat.div_lt_iff_lt_mul hn).1 Nat.lt_log2_self
    generalize ((den - 1) / num).log2 = c at l1 l2
    refine ⟨p - 1 + (c + 1), 0, rfl, ?_, ?_⟩
    · calc 2 ^ (p - 1) * (den * 2 ^ 0) = 2 ^ (p - 1) * den := by simp
        _ ≤ 2 ^ (p - 1) * (2 ^ (c + 1) * num) := Nat.mul_le_mul_left _ (by omega)
        _ = num * 2 ^ (p - 1 + (c + 1)) := by rw [pow_add]; ring
    · have l3 : 2 ^ c * num < den := by omega
      calc num * 2 ^ (p - 1 + (c + 1)) = 2 * 2 ^ (p - 1) * (2 ^ c * num) := by
            rw [pow_add, pow_succ]; ring
        _ < 2 * 2 ^ (p - 1) * den := Nat.mul_lt_mul_of_pos_left l3 (by positivity)
        _ = 2 ^ p * (den * 2 ^ 0) := by rw [hpp]; simp

/-- `roundNE p` of a positive fraction `num / den`: some power of two scales the fraction
into `[2 ^ (p - 1), 2 ^ p)`, the result is `m` scaled back, where the integer `m` is nearest
to the scaled fraction, and even when two integers are equally near. -/
theorem roundNE_spec (p num den : Nat) (hp : 0 < p) (hn : 0 < num) (hd : 0 < den) :
    ∃ m up down, roundNE p ⟨num, den⟩ = ⟨m * 2 ^ down, 2 ^ up⟩ ∧
      2 ^ (p - 1) * (den * 2 ^ down) ≤ num * 2 ^ up ∧
      num * 2 ^ up < 2 ^ p * (den * 2 ^ down) ∧
      2 * m * (den * 2 ^ down) ≤ 2 * (num * 2 ^ up) + den * 2 ^ down ∧
      2 * (num * 2 ^ up) ≤ 2 * m * (den * 2 ^ down) + den * 2 ^ down ∧
      ((2 * m * (den * 2 ^ down) = 2 * (num * 2 ^ up) + den * 2 ^ down ∨
        2 * (num * 2 ^ up) = 2 * m * (den * 2 ^ down) + den * 2 ^ down) → m % 2 = 0) ∧
      2 ^ (p - 1) ≤ m ∧ m ≤ 2 ^ p := by
  have h0 : Nat.beq num 0 = false := by
    rw [Bool.eq_false_iff]; intro h; exact absurd (Nat.eq_of_beq_eq_true h) (by omega)
  obtain ⟨up, down, e1, e2, e3⟩ := normShift_spec p num den
    (fun up down => (⟨nearestEven (num * 2 ^ up) (den * 2 ^ down) * 2 ^ down, 2 ^ up⟩ : Frac))
    hp hn hd
  have hD : 0 < den * 2 ^ down := by positivity
  obtain ⟨n1, n2, n3, n4, n5⟩ := nearestEven_spec (num * 2 ^ up) (den * 2 ^ down) hD
  refine ⟨nearestEven (num * 2 ^ up) (den * 2 ^ down), up, down, ?_, e2, e3, n1, n2, n3, ?_, ?_⟩
  · simp only [roundNE, seqNat_eq, h0, cond_false, e1]
  · exact le_trans ((Nat.le_div_iff_mul_le hD).2 e2) n4
  · have : num * 2 ^ up / (den * 2 ^ down) < 2 ^ p := (Nat.div_lt_iff_lt_mul hD).2 e3
    omega
/-- `nearestEvenSqrt num den` is an integer nearest to the square root of `num / den`, and the
even one on a tie: `(m - 1/2) ^ 2 ≤ num / den ≤ (m + 1/2) ^ 2`, multiplied out. -/
theorem nearestEvenSqrt_spec (num den : Nat) (hd : 0 < den) :
    (2 * nearestEvenSqrt num den - 1) ^ 2 * den ≤ 4 * num ∧
      4 * num ≤ (2 * nearestEvenSqrt num den + 1) ^ 2 * den ∧
      (((2 * nearestEvenSqrt num den - 1) ^ 2 * den = 4 * num ∧ 0 < nearestEvenSqrt num den) ∨
        4 * num = (2 * nearestEvenSqrt num den + 1) ^ 2 * den →
          nearestEvenSqrt num den % 2 = 0) ∧
      Nat.sqrt (num / den) ≤ nearestEvenSqrt num den ∧
      nearestEvenSqrt num den ≤ Nat.sqrt (num / den) + 1 := by
  have l1 : Nat.sqrt (num / den) * Nat.sqrt (num / den) * den ≤ num :=
    (Nat.le_div_iff_mul_le hd).1 (Nat.sqrt_le _)
  have l2 : num < (Nat.sqrt (num / den) + 1) * (Nat.sqrt (num / den) + 1) * den :=
    (Nat.div_lt_iff_lt_mul hd).1 (Nat.lt_succ_sqrt _)
  simp only [nearestEvenSqrt, seqNat_eq, isqrt_eq]
  generalize Nat.sqrt (num / den) = q at l1 l2
  have m1 : (2 * q - 1) ^ 2 * den ≤ 4 * num := by
    calc (2 * q - 1) ^ 2 * den ≤ (2 * q) ^ 2 * den :=
          Nat.mul_le_mul_right _ (Nat.pow_le_pow_left (by omega) 2)
      _ = 4 * (q * q * den) := by ring
      _ ≤ 4 * num := by omega
  have m2 : 4 * num ≤ (2 * (q + 1) + 1) ^ 2 * den := by
    calc 4 * num ≤ 4 * ((q + 1) * (q + 1) * den) := by omega
      _ = (2 * (q + 1)) ^ 2 * den := by ring
      _ ≤ (2 * (q + 1) + 1) ^ 2 * den :=
          Nat.mul_le_mul_right _ (Nat.pow_le_pow_left (by omega) 2)
  have m3 : 4 * num < (2 * (q + 1) + 1) ^ 2 * den := by
    calc 4 * num < 4 * ((q + 1) * (q + 1) * den) := by omega
      _ = (2 * (q + 1)) ^ 2 * den := by ring
      _ ≤ (2 * (q + 1) + 1) ^ 2 * den :=
          Nat.mul_le_mul_right _ (Nat.pow_le_pow_left (by omega) 2)
  have m4 : 0 < q → (2 * q - 1) ^ 2 * den < 4 * num := by
    intro hq
    have : (2 * q - 1) ^ 2 < (2 * q) ^ 2 := Nat.pow_lt_pow_left (by omega) (by norm_num)
    calc (2 * q - 1) ^ 2 * den < (2 * q) ^ 2 * den := Nat.mul_lt_mul_of_pos_right this hd
      _ = 4 * (q * q * den) := by ring
      _ ≤ 4 * num := by omega
  have e1 : (2 * q + 1) * (2 * q + 1) * den = (2 * q + 1) ^ 2 * den := by ring
  have e2 : 2 * (q + 1) - 1 = 2 * q + 1 := by omega
  rw [e1]
  by_cases h1 : 4 * num < (2 * q + 1) ^ 2 * den
  · have : Nat.blt (4 * num) ((2 * q + 1) ^ 2 * den) = true := by simpa using h1
    rw [this]
    simp only [cond_true]
    refine ⟨m1, le_of_lt h1, ?_, le_rfl, by omega⟩
    rintro (⟨h, hq⟩ | h)
    · exact absurd h (ne_of_lt (m4 hq))
    · omega
  · have : Nat.blt (4 * num) ((2 * q + 1) ^ 2 * den) = false := by
      rw [Bool.eq_false_iff]; intro h; exact h1 (by simpa using h)
    rw [this]
    simp only [cond_false]
    by_cases h2 : (2 * q + 1) ^ 2 * den < 4 * num
    · have : Nat.blt ((2 * q + 1) ^ 2 * den) (4 * num) = true := by simpa using h2
      rw [this]
      simp only [cond_true]
      rw [e2]
      refine ⟨le_of_lt h2, m2, ?_, by omega, le_rfl⟩
      rintro (⟨h, _⟩ | h)
      · omega
      · omega
    · have : Nat.blt ((2 * q + 1) ^ 2 * den) (4 * num) = false := by
        rw [Bool.eq_false_iff]; intro h; exact h2 (by simpa using h)
      rw [this]
      simp only [cond_false]
      by_cases h3 : q % 2 = 0
      · have : Nat.beq (q % 2) 0 = true := by simp [h3]
        rw [this]
        simp only [cond_true]
        exact ⟨m1, by omega, fun _ => h3, le_rfl, by omega⟩
      · have : Nat.beq (q % 2) 0 = false := by
          rw [Bool.eq_false_iff]; intro h; exact h3 (Nat.eq_of_beq_eq_true h)
        rw [this]
        simp only [cond_false]
        rw [e2]
        exact ⟨by omega, m2, fun _ => by omega, by omega, le_rfl⟩

/-- `sqrtShift` calls its continuation with a scaling that brings the square root of
`num / den` into `[2 ^ (p - 1), 2 ^ p)`. -/
theorem sqrtShift_spec (p num den : Nat) (k : Nat → Nat → Frac) (hp : 0 < p) (hn : 0 < num)
    (hd : 0 < den) :
    ∃ up down, sqrtShift p num den k = k up down ∧
      4 ^ (p - 1) * (den * 4 ^ down) ≤ num * 4 ^ up ∧
      num * 4 ^ up < 4 ^ p * (den * 4 ^ down) := by
  simp only [sqrtShift, seqNat_eq, log2_eq]
  have hpp : 4 ^ p = 4 * 4 ^ (p - 1) := by
    rw [← pow_succ']; congr 1; omega
  have h42 : ∀ n : Nat, (4 : Nat) ^ n = 2 ^ (2 * n) := by
    intro n; rw [pow_mul]; norm_num
  by_cases h1 : den ≤ num
  · have : Nat.ble den num = true := by simpa using h1
    rw [this]
    simp only [cond_true]
    have hq : num / den ≠ 0 := by
      have := Nat.div_pos h1 hd
      omega
    have l1 : 2 ^ (num / den).log2 * den ≤ num :=
      (Nat.le_div_iff_mul_le hd).1 (Nat.log2_self_le hq)
    have l2 : num < 2 ^ ((num / den).log2 + 1) * den :=
      (Nat.div_lt_iff_lt_mul hd).1 Nat.lt_log2_self
    generalize (num / den).log2 = L at l1 l2
    have l3 : 4 ^ (L / 2) * den ≤ num := by
      calc 4 ^ (L / 2) * den ≤ 2 ^ L * den := by
            rw [h42]
            exact Nat.mul_le_mul_right _ (Nat.pow_le_pow_right (by norm_num) (by omega))
        _ ≤ num := l1
    have l4 : num < 4 ^ (L / 2 + 1) * den := by
      calc num < 2 ^ (L + 1) * den := l2
        _ ≤ 4 ^ (L / 2 + 1) * den := by
            rw [h42]
            exact Nat.mul_le_mul_right _ (Nat.pow_le_pow_right (by norm_num) (by omega))
    generalize L / 2 = e at l3 l4
    by_cases h2 : e ≤ p - 1
    · have : Nat.ble e (p - 1) = true := by simpa using h2
      rw [this]
      simp only [cond_true]
      refine ⟨p - 1 - e, 0, rfl, ?_, ?_⟩
      · have e3 : 4 ^ (p - 1) = 4 ^ e * 4 ^ (p - 1 - e) := by
          rw [← pow_add]; congr 1; omega
        rw [e3]
        calc 4 ^ e * 4 ^ (p - 1 - e) * (den * 4 ^ 0) = (4 ^ e * den) * 4 ^ (p - 1 - e) := by ring
          _ ≤ num * 4 ^ (p - 1 - e) := Nat.mul_le_mul_right _ l3
      · have e3 : 4 ^ p = 4 ^ (e + 1) * 4 ^ (p - 1 - e) := by
          rw [← pow_add]; congr 1; omega
        rw [e3]
        calc num * 4 ^ (p - 1 - e) < (4 ^ (e + 1) * den) * 4 ^ (p - 1 - e) :=
              Nat.mul_lt_mul_of_pos_right l4 (by positivity)
          _ = 4 ^ (e + 1) * 4 ^ (p - 1 - e) * (den * 4 ^ 0) := by ring
    · have : Nat.ble e (p - 1) = false := by
        rw [Bool.eq_false_iff]; intro h; exact h2 (by simpa using h)
      rw [this]
      simp only [cond_false]
      refine ⟨0, e - (p - 1), rfl, ?_, ?_⟩
      · have e3 : 4 ^ e = 4 ^ (p - 1) * 4 ^ (e - (p - 1)) := by
          rw [← pow_add]; congr 1; omega
        calc 4 ^ (p - 1) * (den * 4 ^ (e - (p - 1))) = 4 ^ e * den := by rw [e3]; ring
          _ ≤ num := l3
          _ = num * 4 ^ 0 := by simp
      · have e3 : 4 ^ (e + 1) = 4 ^ p * 4 ^ (e - (p - 1)) := by
          rw [← pow_add]; congr 1; omega
        calc num * 4 ^ 0 = num := by simp
          _ < 4 ^ (e + 1) * den := l4
          _ = 4 ^ p * (den * 4 ^ (e - (p - 1))) := by rw [e3]; ring
  · have : Nat.ble den num = false := by
      rw [Bool.eq_false_iff]; intro h; exact h1 (by simpa using h)
    rw [this]
    simp only [cond_false]
    have hq : (den - 1) / num ≠ 0 := by
      have := Nat.div_pos (show num ≤ den - 1 by omega) hn
      omega
    have l1 : 2 ^ ((den - 1) / num).log2 * num ≤ den - 1 :=
      (Nat.le_div_iff_mul_le hn).1 (Nat.log2_self_le hq)
    have l2 : den - 1 < 2 ^ (((den - 1) / num).log2 + 1) * num :=
      (Nat.div_lt_iff_lt_mul hn).1 Nat.lt_log2_self
    generalize ((den - 1) / num).log2 = c at l1 l2
    obtain ⟨d, hd2⟩ : ∃ d, (c + 2) / 2 = d + 1 := ⟨(c + 2) / 2 - 1, by omega⟩
    rw [hd2]
    have l3 : den ≤ 4 ^ (d + 1) * num := by
      calc den ≤ 2 ^ (c + 1) * num := by omega
        _ ≤ 4 ^ (d + 1) * num := by
            rw [h42]
            exact Nat.mul_le_mul_right _ (Nat.pow_le_pow_right (by norm_num) (by omega))
    have l4 : 4 ^ d * num < den := by
      calc 4 ^ d * num ≤ 2 ^ c * num := by
            rw [h42]
            exact Nat.mul_le_mul_right _ (Nat.pow_le_pow_right (by norm_num) (by omega))
        _ < den := by omega
    refine ⟨p - 1 + (d + 1), 0, rfl, ?_, ?_⟩
    · calc 4 ^ (p - 1) * (den * 4 ^ 0) = 4 ^ (p - 1) * den := by simp
        _ ≤ 4 ^ (p - 1) * (4 ^ (d + 1) * num) := Nat.mul_le_mul_left _ l3
        _ = num * 4 ^ (p - 1 + (d + 1)) := by rw [pow_add]; ring
    · calc num * 4 ^ (p - 1 + (d + 1)) = 4 * 4 ^ (p - 1) * (4 ^ d * num) := by
            rw [pow_add, pow_succ]; ring
        _ < 4 * 4 ^ (p - 1) * den := Nat.mul_lt_mul_of_pos_left l4 (by positivity)
        _ = 4 ^ p * (den * 4 ^ 0) := by rw [hpp]; simp

/-- `roundSqrt p` of a positive fraction `num / den`: some power of four scales the fraction
into `[4 ^ (p - 1), 4 ^ p)`, so that its square root lies in `[2 ^ (p - 1), 2 ^ p)`; the result
is `m` scaled back by the square root of that power, where the integer `m` is nearest to the
square root of the scaled fraction, and even when two integers are equally near. -/
theorem roundSqrt_spec (p num den : Nat) (hp : 0 < p) (hn : 0 < num) (hd : 0 < den) :
    ∃ m up down, roundSqrt p ⟨num, den⟩ = ⟨m * 2 ^ down, 2 ^ up⟩ ∧
      4 ^ (p - 1) * (den * 4 ^ down) ≤ num * 4 ^ up ∧
      num * 4 ^ up < 4 ^ p * (den * 4 ^ down) ∧
      (2 * m - 1) ^ 2 * (den * 4 ^ down) ≤ 4 * (num * 4 ^ up) ∧
      4 * (num * 4 ^ up) ≤ (2 * m + 1) ^ 2 * (den * 4 ^ down) ∧
      (((2 * m - 1) ^ 2 * (den * 4 ^ down) = 4 * (num * 4 ^ up) ∧ 0 < m) ∨
        4 * (num * 4 ^ up) = (2 * m + 1) ^ 2 * (den * 4 ^ down) → m % 2 = 0) ∧
      2 ^ (p - 1) ≤ m ∧ m ≤ 2 ^ p := by
  have h0 : Nat.beq num 0 = false := by
    rw [Bool.eq_false_iff]; intro h; exact absurd (Nat.eq_of_beq_eq_true h) (by omega)
  obtain ⟨up, down, e1, e2, e3⟩ := sqrtShift_spec p num den
    (fun up down => (⟨nearestEvenSqrt (num * 4 ^ up) (den * 4 ^ down) * 2 ^ down, 2 ^ up⟩ : Frac))
    hp hn hd
  have hD : 0 < den * 4 ^ down := by positivity
  obtain ⟨n1, n2, n3, n4, n5⟩ := nearestEvenSqrt_spec (num * 4 ^ up) (den * 4 ^ down) hD
  refine ⟨nearestEvenSqrt (num * 4 ^ up) (den * 4 ^ down), up, down, ?_, e2, e3, n1, n2, n3,
    ?_, ?_⟩
  · simp only [roundSqrt, seqNat_eq, h0, cond_false, e1]
  · refine le_trans ?_ n4
    have h4 : (4 : Nat) ^ (p - 1) = 2 ^ (p - 1) * 2 ^ (p - 1) := by
      rw [← mul_pow]; norm_num
    have : 2 ^ (p - 1) * 2 ^ (p - 1) ≤ num * 4 ^ up / (den * 4 ^ down) := by
      rw [← h4]; exact (Nat.le_div_iff_mul_le hD).2 e2
    exact Nat.le_sqrt.2 this
  · have h4 : (4 : Nat) ^ p = 2 ^ p * 2 ^ p := by
      rw [← mul_pow]; norm_num
    have : num * 4 ^ up / (den * 4 ^ down) < 2 ^ p * 2 ^ p := by
      rw [← h4]; exact (Nat.div_lt_iff_lt_mul hD).2 e3
    have := Nat.sqrt_lt.2 this
    omega

/-! ### The table of all durations -/

theorem checkFrom_spec (f : Nat → Bool) (lo n : Nat) (h : checkFrom f lo n = true) (i : Nat)
    (h1 : lo ≤ i) (h2 : i < lo + n) : f i = true := by
  induction n with
  | zero => omega
  | succ n ih =>
    simp only [checkFrom, Bool.and_eq_true] at h
    by_cases hi : i = lo + n
    · rw [hi]; exact h.1
    · exact ih h.2 (by omega)

theorem tableOK_from_0 : checkFrom tableOK 0 500 = true := by decide!
theorem tableOK_from_500 : checkFrom tableOK 500 500 = true := by decide!
theorem tableOK_from_1000 : checkFrom tableOK 1000 500 = true := by decide!
theorem tableOK_from_1500 : checkFrom tableOK 1500 500 = true := by decide!
theorem tableOK_from_2000 : checkFrom tableOK 2000 500 = true := by decide!
theorem tableOK_from_2500 : checkFrom tableOK 2500 500 = true := by decide!
theorem tableOK_from_3000 : checkFrom tableOK 3000 500 = true := by decide!
theorem tableOK_from_3500 : checkFrom tableOK 3500 500 = true := by decide!
theorem tableOK_from_4000 : checkFrom tableOK 4000 500 = true := by decide!
theorem tableOK_from_4500 : checkFrom tableOK 4500 500 = true := by decide!
theorem tableOK_from_5000 : checkFrom tableOK 5000 500 = true := by decide!
theorem tableOK_from_5500 : checkFrom tableOK 5500 500 = true := by decide!
theorem tableOK_from_6000 : checkFrom tableOK 6000 500 = true := by decide!
theorem tableOK_from_6500 : checkFrom tableOK 6500 500 = true := by decide!
theorem tableOK_from_7000 : checkFrom tableOK 7000 451 = true := by decide!

/-- Every duration from 0 to 7450 passes the check. -/
theorem tableOK_all (ms : Nat) (h : ms ≤ 7450) : tableOK ms = true := by
  by_cases h0 : ms < 500
  · exact checkFrom_spec tableOK 0 500 tableOK_from_0 ms (by omega) (by omega)
  by_cases h1 : ms < 1000
  · exact checkFrom_spec tableOK 500 500 tableOK_from_500 ms (by omega) (by omega)
  by_cases h2 : ms < 1500
  · exact checkFrom_spec tableOK 1000 500 tableOK_from_1000 ms (by omega) (by omega)
  by_cases h3 : ms < 2000
  · exact checkFrom_spec tableOK 1500 500 tableOK_from_1500 ms (by omega) (by omega)
  by_cases h4 : ms < 2500
  · exact checkFrom_spec tableOK 2000 500 tableOK_from_2000 ms (by omega) (by omega)
  by_cases h5 : ms < 3000
  · exact checkFrom_spec tableOK 2500 500 tableOK_from_2500 ms (by omega) (by omega)
  by_cases h6 : ms < 3500
  · exact checkFrom_spec tableOK 3000 500 tableOK_from_3000 ms (by omega) (by omega)
  by_cases h7 : ms < 4000
  · exact checkFrom_spec tableOK 3500 500 tableOK_from_3500 ms (by omega) (by omega)
  by_cases h8 : ms < 4500
  · exact checkFrom_spec tableOK 4000 500 tableOK_from_4000 ms (by omega) (by omega)
  by_cases h9 : ms < 5000
  · exact checkFrom_spec tableOK 4500 500 tableOK_from_4500 ms (by omega) (by omega)
  by_cases h10 : ms < 5500
  · exact checkFrom_spec tableOK 5000 500 tableOK_from_5000 ms (by omega) (by omega)
  by_cases h11 : ms < 6000
  · exact checkFrom_spec tableOK 5500 500 tableOK_from_5500 ms (by omega) (by omega)
  by_cases h12 : ms < 6500
  · exact checkFrom_spec tableOK 6000 500 tableOK_from_6000 ms (by omega) (by omega)
  by_cases h13 : ms < 7000
  · exact checkFrom_spec tableOK 6500 500 tableOK_from_6500 ms (by omega) (by omega)
  exact checkFrom_spec tableOK 7000 451 tableOK_from_7000 ms (by omega) (by omega)

theorem tableOK_spec (ms : Nat) (h : ms ≤ 7450) :
    (debounceValue ms).trunc = refByte ms ∧ refByte ms ≤ 255 ∧ refByte ms ≤ refByte (ms + 1) := by
  have h1 := tableOK_all ms h
  simp only [tableOK, seqNat_eq, Bool.and_eq_true, Nat.ble_eq] at h1
  exact ⟨Nat.eq_of_beq_eq_true h1.1.1, h1.1.2, h1.2⟩

theorem refByte_mono (a b : Nat) (hab : a ≤ b) (hb : b ≤ 7450) : refByte a ≤ refByte b := by
  induction b, hab using Nat.le_induction with
  | base => exact le_rfl
  | succ n hn ih =>
    exact le_trans (ih (by omega)) (tableOK_spec n (by omega)).2.2

/-- The reference conversion in the words of the specification. -/
theorem refByte_real (ms : Nat) :
    ((refByte ms : Nat) : ℝ) =
      if Real.sqrt ((ms : ℝ) / 0.115) > (⌊Real.sqrt ((ms : ℝ) / 0.115)⌋ : ℝ) + 0.49999999 then
        (⌊Real.sqrt ((ms : ℝ) / 0.115)⌋ : ℝ) + 1
      else (⌊Real.sqrt ((ms : ℝ) / 0.115)⌋ : ℝ) := by
  set k := Nat.sqrt (200 * ms / 23) with hk
  have hx : (ms : ℝ) / 0.115 = (200 * ms : ℝ) / 23 := by norm_num; ring
  have hx0 : (0 : ℝ) ≤ (200 * ms : ℝ) / 23 := by positivity
  have hn1 : ((200 * ms / 23 : Nat) : ℝ) ≤ (200 * ms : ℝ) / 23 := by
    rw [le_div_iff₀ (by norm_num)]
    have := Nat.div_mul_le_self (200 * ms) 23
    exact_mod_cast this
  have hn2 : (200 * ms : ℝ) / 23 < ((200 * ms / 23 : Nat) : ℝ) + 1 := by
    rw [div_lt_iff₀ (by norm_num)]
    have := Nat.lt_div_mul_add (a := 200 * ms) (b := 23) (by norm_num)
    have h' : 200 * ms < (200 * ms / 23 + 1) * 23 := by omega
    exact_mod_cast h'
  have hk1 : k * k ≤ 200 * ms / 23 := Nat.sqrt_le _
  have hk2 : 200 * ms / 23 < (k + 1) * (k + 1) := Nat.lt_succ_sqrt _
  have hfloor : ⌊Real.sqrt ((ms : ℝ) / 0.115)⌋ = (k : Int) := by
    rw [hx, Int.floor_eq_iff]
    constructor
    · apply Real.le_sqrt_of_sq_le
      have : ((k * k : Nat) : ℝ) ≤ ((200 * ms / 23 : Nat) : ℝ) := by exact_mod_cast hk1
      push_cast at this ⊢
      nlinarith
    · rw [Real.sqrt_lt' (by positivity)]
      have : ((200 * ms / 23 : Nat) : ℝ) + 1 ≤ (((k + 1) * (k + 1) : Nat) : ℝ) := by
        exact_mod_cast hk2
      push_cast at this ⊢
      nlinarith
  rw [hfloor]
  simp only [refByte, seqNat_eq, isqrt_eq, ← hk]
  have hcmp : (Real.sqrt ((ms : ℝ) / 0.115) > ((k : Int) : ℝ) + 0.49999999) ↔
      23 * (100000000 * k + 49999999) ^ 2 < 200 * ms * 10 ^ 16 := by
    rw [hx, gt_iff_lt, Real.lt_sqrt (by positivity)]
    have e1 : (((k : Int) : ℝ) + 0.49999999) ^ 2 =
        ((100000000 * k + 49999999 : Nat) : ℝ) ^ 2 / 10 ^ 16 := by
      push_cast; norm_num; ring
    rw [e1, div_lt_div_iff₀ (by positivity) (by norm_num)]
    constructor
    · intro h
      have : ((23 * (100000000 * k + 49999999) ^ 2 : Nat) : ℝ) < ((200 * ms * 10 ^ 16 : Nat) : ℝ) := by
        push_cast at h ⊢; linarith
      exact_mod_cast this
    · intro h
      have : ((23 * (100000000 * k + 49999999) ^ 2 : Nat) : ℝ) < ((200 * ms * 10 ^ 16 : Nat) : ℝ) := by
        exact_mod_cast h
      push_cast at this ⊢; linarith
  by_cases hc : 23 * (100000000 * k + 49999999) ^ 2 < 200 * ms * 10 ^ 16
  · rw [if_pos (hcmp.2 hc)]
    have : Nat.blt (23 * (100000000 * k + 49999999) ^ 2) (200 * ms * 10 ^ 16) = true := by
      simpa using hc
    rw [this]; simp
  · rw [if_neg (fun h => hc (hcmp.1 h))]
    have : Nat.blt (23 * (100000000 * k + 49999999) ^ 2) (200 * ms * 10 ^ 16) = false := by
      rw [Bool.eq_false_iff]
      intro h
      exact hc (by simpa using h)
    rw [this]; simp

/-! ### Writing a report -/

@[simp] theorem setOut_CurrDev (s : State) (i : Fin 4) (k v : Nat) :
    (s.setOut i k v).CurrDev = s.CurrDev := rfl

@[simp] theorem setOut_connected_device (s : State) (i : Fin 4) (k v : Nat) :
    (s.setOut i k v).connected_device = s.connected_device := rfl

@[simp] theorem setOut_calls (s : State) (i : Fin 4) (k v : Nat) :
    (s.setOut i k v).calls = s.calls := rfl

@[simp] theorem setOut_data_out (s : State) (i : Fin 4) (k v : Nat) :
    ((s.setOut i k v).k8055d i).data_out = (s.k8055d i).data_out.set k v := by
  simp [State.setOut, State.setDev]

@[simp] theorem setOut_DevNo (s : State) (i : Fin 4) (k v : Nat) :
    ((s.setOut i k v).k8055d i).DevNo = (s.k8055d i).DevNo := by
  simp [State.setOut, State.setDev]

/-- The assembled packet, byte by byte. -/
theorem vPacket_eq (cmd : Nat) (data_out : List Nat) :
    vPacket cmd data_out = [1, cmd, byteAt data_out 1, byteAt data_out 2, byteAt data_out 3,
      byteAt data_out 4, byteAt data_out 5, byteAt data_out 6, byteAt data_out 7] := by
  simp [vPacket, List.replicate]

theorem byteAt_set_ne (l : List Nat) (j k v : Nat) (h : j ≠ k) :
    byteAt (l.set j v) k = byteAt l k := by
  simp [byteAt, List.getD, List.getElem?_set_ne h]

theorem byteAt_set_eq (l : List Nat) (k v : Nat) (h : k < l.length) :
    byteAt (l.set k v) k = v := by
  simp [byteAt, List.getD, List.getElem?_set_self, h]

/-- What `WriteK8055Data` does on an open session: it stores `cmd` in `data_out[0]`, hands one
report to `hid_write` on `connected_device`, and returns 0 exactly when `res` is 9. -/
theorem WriteK8055Data_open (s : State) (i : Fin 4) (cmd : Nat) (res : Int)
    (hcur : s.CurrDev = some i) (hopen : (s.k8055d i).DevNo ≠ -1) :
    ∃ s1 r, WriteK8055Data s cmd res = some (s1, r) ∧
      s1.calls = s.calls ++ [HidCall.hid_write s.connected_device
        [1, cmd, byteAt (s.k8055d i).data_out 1, byteAt (s.k8055d i).data_out 2,
          byteAt (s.k8055d i).data_out 3, byteAt (s.k8055d i).data_out 4,
          byteAt (s.k8055d i).data_out 5, byteAt (s.k8055d i).data_out 6,
          byteAt (s.k8055d i).data_out 7]] ∧
      (s1.k8055d i).data_out = (s.k8055d i).data_out.set 0 cmd ∧
      (r = 0 ↔ res = 9) ∧ (r = 0 ∨ r = K8055_ERROR) := by
  simp only [WriteK8055Data, hcur, if_neg hopen, PACKET_LEN]
  have e9 : ((8 : Nat) : Int) + 1 = 9 := by norm_num
  rw [e9]
  by_cases h9 : res = 9
  · rw [if_neg (not_not.2 h9)]
    refine ⟨_, 0, rfl, ?_, ?_, by simp [h9], Or.inl rfl⟩
    · simp [State.log, State.setDev, vPacket_eq, byteAt_set_ne]
    · simp [State.log, State.setDev]
  · rw [if_pos h9]
    refine ⟨_, K8055_ERROR, rfl, ?_, ?_, by simp [h9, K8055_ERROR], Or.inr rfl⟩
    · simp [State.log, State.setDev, vPacket_eq, byteAt_set_ne]
    · simp [State.log, State.setDev]

/-- On a closed session `WriteK8055Data` returns the error value and changes nothing. -/
theorem WriteK8055Data_closed (s : State) (i : Fin 4) (cmd : Nat) (res : Int)
    (hcur : s.CurrDev = some i) (hclosed : (s.k8055d i).DevNo = -1) :
    WriteK8055Data s cmd res = some (s, K8055_ERROR) := by
  simp [WriteK8055Data, hcur, hclosed]
/-- The report written on an open session, in terms of the register after the call. -/
theorem WriteK8055Data_report (s : State) (i : Fin 4) (cmd : Nat) (res : Int)
    (hcur : s.CurrDev = some i) (hopen : (s.k8055d i).DevNo ≠ -1) :
    ∃ s1 r, WriteK8055Data s cmd res = some (s1, r) ∧
      s1.calls = s.calls ++ [HidCall.hid_write s.connected_device
        [1, cmd, byteAt (s1.k8055d i).data_out 1, byteAt (s1.k8055d i).data_out 2,
          byteAt (s1.k8055d i).data_out 3, byteAt (s1.k8055d i).data_out 4,
          byteAt (s1.k8055d i).data_out 5, byteAt (s1.k8055d i).data_out 6,
          byteAt (s1.k8055d i).data_out 7]] ∧
      (s1.k8055d i).data_out = (s.k8055d i).data_out.set 0 cmd ∧
      (r = 0 ↔ res = 9) ∧ (r = 0 ∨ r = K8055_ERROR) := by
  obtain ⟨s1, r, h1, h2, h3, h4, h5⟩ := WriteK8055Data_open s i cmd res hcur hopen
  refine ⟨s1, r, h1, ?_, h3, h4, h5⟩
  rw [h2, h3]
  simp [byteAt_set_ne]

/-- Every output operation with a valid index, on an open session, hands exactly one report to
`hid_write`: the marker 1, the command code, and bytes 1 to 7 of `data_out` as the operation
leaves it. -/
theorem OutputOp_run_open (s : State) (i : Fin 4) (op : OutputOp) (res : Int)
    (hcur : s.CurrDev = some i) (hopen : (s.k8055d i).DevNo ≠ -1)
    (hlen : (s.k8055d i).data_out.length = 9) (hvalid : op.valid) :
    ∃ (s1 : State) (r : Int) (cmd : Nat), op.run s res = some (s1, r) ∧
      (cmd : Int) = op.command ∧
      s1.calls = s.calls ++ [HidCall.hid_write s.connected_device
        [1, cmd, byteAt (s1.k8055d i).data_out 1, byteAt (s1.k8055d i).data_out 2,
          byteAt (s1.k8055d i).data_out 3, byteAt (s1.k8055d i).data_out 4,
          byteAt (s1.k8055d i).data_out 5, byteAt (s1.k8055d i).data_out 6,
          byteAt (s1.k8055d i).data_out 7]] ∧
      (r = 0 ↔ res = 9) ∧ (r = 0 ∨ r = K8055_ERROR) := by
  have key : ∀ (s0 : State) (cmd : Nat), s0.CurrDev = some i → (s0.k8055d i).DevNo ≠ -1 →
      s0.calls = s.calls → s0.connected_device = s.connected_device →
      ∃ s1 r, WriteK8055Data s0 cmd res = some (s1, r) ∧
        s1.calls = s.calls ++ [HidCall.hid_write s.connected_device
          [1, cmd, byteAt (s1.k8055d i).data_out 1, byteAt (s1.k8055d i).data_out 2,
            byteAt (s1.k8055d i).data_out 3, byteAt (s1.k8055d i).data_out 4,
            byteAt (s1.k8055d i).data_out 5, byteAt (s1.k8055d i).data_out 6,
            byteAt (s1.k8055d i).data_out 7]] ∧
        (r = 0 ↔ res = 9) ∧ (r = 0 ∨ r = K8055_ERROR) := by
    intro s0 cmd h1 h2 h3 h4
    obtain ⟨s1, r, e1, e2, _, e4, e5⟩ := WriteK8055Data_report s0 i cmd res h1 h2
    exact ⟨s1, r, e1, by rw [e2, h3, h4], e4, e5⟩
  cases op with
  | WriteAllDigital data =>
    obtain ⟨s1, r, e1, e2, e3⟩ := key (s.setOut i 1 (toUChar data)) 5 (by simpa) (by simpa) rfl rfl
    exact ⟨s1, r, 5, by simp [OutputOp.run, WriteAllDigital, hcur, CMD_SET_ANALOG_DIGITAL, e1],
      rfl, e2, e3⟩
  | ClearDigitalChannel Channel =>
    obtain ⟨s1, r, e1, e2, e3⟩ := key (s.setOut i 1 (toUChar
      ((byteAt (s.k8055d i).data_out 1 &&& not32 (1 <<< (Channel - 1).toNat)) % 256 : Nat))) 5
      (by simpa) (by simpa) rfl rfl
    refine ⟨s1, r, 5, ?_, rfl, e2, e3⟩
    simp only [OutputOp.valid] at hvalid
    simp only [OutputOp.run, ClearDigitalChannel, if_pos hvalid, hcur, WriteAllDigital,
      CMD_SET_ANALOG_DIGITAL, e1]
  | ClearAllDigital =>
    obtain ⟨s1, r, e1, e2, e3⟩ := key (s.setOut i 1 (toUChar 0x00)) 5 (by simpa) (by simpa) rfl rfl
    exact ⟨s1, r, 5, by simp only [OutputOp.run, ClearAllDigital, WriteAllDigital, hcur,
      CMD_SET_ANALOG_DIGITAL, e1], rfl, e2, e3⟩
  | SetDigitalChannel Channel =>
    obtain ⟨s1, r, e1, e2, e3⟩ := key (s.setOut i 1 (toUChar
      ((byteAt (s.k8055d i).data_out 1 ||| (1 <<< (Channel - 1).toNat)) % 256 : Nat))) 5
      (by simpa) (by simpa) rfl rfl
    refine ⟨s1, r, 5, ?_, rfl, e2, e3⟩
    simp only [OutputOp.valid] at hvalid
    simp only [OutputOp.run, SetDigitalChannel, if_pos hvalid, hcur, WriteAllDigital,
      CMD_SET_ANALOG_DIGITAL, e1]
  | SetAllDigital =>
    obtain ⟨s1, r, e1, e2, e3⟩ := key (s.setOut i 1 (toUChar 0xff)) 5 (by simpa) (by simpa) rfl rfl
    exact ⟨s1, r, 5, by simp only [OutputOp.run, SetAllDigital, WriteAllDigital, hcur,
      CMD_SET_ANALOG_DIGITAL, e1], rfl, e2, e3⟩
  | OutputAnalogChannel Channel data =>
    simp only [OutputOp.valid] at hvalid
    by_cases h2 : Channel = 2
    · obtain ⟨s1, r, e1, e2, e3⟩ := key (s.setOut i ANALOG_2_OFFSET (toUChar data)) 5
        (by simpa) (by simpa) rfl rfl
      exact ⟨s1, r, 5, by simp only [OutputOp.run, OutputAnalogChannel, if_pos hvalid, hcur,
        if_pos h2, CMD_SET_ANALOG_DIGITAL, e1], rfl, e2, e3⟩
    · obtain ⟨s1, r, e1, e2, e3⟩ := key (s.setOut i ANALOG_1_OFFSET (toUChar data)) 5
        (by simpa) (by simpa) rfl rfl
      exact ⟨s1, r, 5, by simp only [OutputOp.run, OutputAnalogChannel, if_pos hvalid, hcur,
        if_neg h2, CMD_SET_ANALOG_DIGITAL, e1], rfl, e2, e3⟩
  | OutputAllAnalog data1 data2 =>
    obtain ⟨s1, r, e1, e2, e3⟩ := key ((s.setOut i 2 (toUChar data1)).setOut i 3 (toUChar data2)) 5
      (by simpa) (by simpa) rfl rfl
    exact ⟨s1, r, 5, by simp only [OutputOp.run, OutputAllAnalog, hcur,
      CMD_SET_ANALOG_DIGITAL, e1], rfl, e2, e3⟩
  | ClearAllAnalog =>
    obtain ⟨s1, r, e1, e2, e3⟩ := key ((s.setOut i 2 (toUChar 0)).setOut i 3 (toUChar 0)) 5
      (by simpa) (by simpa) rfl rfl
    exact ⟨s1, r, 5, by simp only [OutputOp.run, ClearAllAnalog, OutputAllAnalog, hcur,
      CMD_SET_ANALOG_DIGITAL, e1], rfl, e2, e3⟩
  | ClearAnalogChannel Channel =>
    simp only [OutputOp.valid] at hvalid
    by_cases h2 : Channel = 2
    · obtain ⟨s1, r, e1, e2, e3⟩ := key (s.setOut i ANALOG_2_OFFSET (toUChar 0)) 5
        (by simpa) (by simpa) rfl rfl
      exact ⟨s1, r, 5, by simp [OutputOp.run, ClearAnalogChannel, OutputAnalogChannel, hcur,
        h2, CMD_SET_ANALOG_DIGITAL, e1], rfl, e2, e3⟩
    · obtain ⟨s1, r, e1, e2, e3⟩ := key (s.setOut i ANALOG_1_OFFSET (toUChar 0)) 5
        (by simpa) (by simpa) rfl rfl
      have h1 : Channel = 1 := hvalid.resolve_right h2
      subst h1
      exact ⟨s1, r, 5, by simp [OutputOp.run, ClearAnalogChannel, OutputAnalogChannel, hcur,
        CMD_SET_ANALOG_DIGITAL, e1], rfl, e2, e3⟩
  | SetAnalogChannel Channel =>
    simp only [OutputOp.valid] at hvalid
    by_cases h2 : Channel = 2
    · obtain ⟨s1, r, e1, e2, e3⟩ := key (s.setOut i ANALOG_2_OFFSET (toUChar 0xff)) 5
        (by simpa) (by simpa) rfl rfl
      exact ⟨s1, r, 5, by simp [OutputOp.run, SetAnalogChannel, OutputAnalogChannel, hcur,
        h2, CMD_SET_ANALOG_DIGITAL, e1], rfl, e2, e3⟩
    · obtain ⟨s1, r, e1, e2, e3⟩ := key (s.setOut i ANALOG_1_OFFSET (toUChar 0xff)) 5
        (by simpa) (by simpa) rfl rfl
      have h1 : Channel = 1 := hvalid.resolve_right h2
      subst h1
      exact ⟨s1, r, 5, by simp [OutputOp.run, SetAnalogChannel, OutputAnalogChannel, hcur,
        CMD_SET_ANALOG_DIGITAL, e1], rfl, e2, e3⟩
  | SetAllAnalog =>
    obtain ⟨s1, r, e1, e2, e3⟩ := key ((s.setOut i 2 (toUChar 0xff)).setOut i 3 (toUChar 0xff)) 5
      (by simpa) (by simpa) rfl rfl
    exact ⟨s1, r, 5, by simp only [OutputOp.run, SetAllAnalog, OutputAllAnalog, hcur,
      CMD_SET_ANALOG_DIGITAL, e1], rfl, e2, e3⟩
  | SetAllValues DigitalData AdData1 AdData2 =>
    obtain ⟨s1, r, e1, e2, e3⟩ := key (((s.setOut i 1 (toUChar DigitalData)).setOut i 2
      (toUChar AdData1)).setOut i 3 (toUChar AdData2)) 5 (by simpa) (by simpa) rfl rfl
    exact ⟨s1, r, 5, by simp only [OutputOp.run, SetAllValues, hcur,
      CMD_SET_ANALOG_DIGITAL, e1], rfl, e2, e3⟩
  | ResetCounter CounterNo =>
    simp only [OutputOp.valid] at hvalid
    obtain ⟨s1, r, e1, e2, e3⟩ := key ((s.setOut i 0 ((0x02 + toUChar CounterNo) % 256)).setOut i
      (3 + CounterNo).toNat 0x00) (byteAt (((s.setOut i 0 ((0x02 + toUChar CounterNo) % 256)).setOut
        i (3 + CounterNo).toNat 0x00).k8055d i).data_out 0) (by simp [hcur]) (by simpa) rfl rfl
    refine ⟨s1, r, _, by simp only [OutputOp.run, ResetCounter, if_pos hvalid, hcur, e1], ?_,
      e2, e3⟩
    rcases hvalid with h | h <;> subst h <;>
      simp [OutputOp.command, byteAt_set_ne, byteAt_set_eq, hlen, toUChar]
  | SetCounterDebounceTime CounterNo DebounceTime undef =>
    simp only [OutputOp.valid] at hvalid
    obtain ⟨s1, r, e1, e2, e3⟩ := key ((s.setOut i 0 (toUChar CounterNo)).setOut i
      (5 + CounterNo).toNat (debounceByte DebounceTime undef))
      (byteAt (((s.setOut i 0 (toUChar CounterNo)).setOut i
        (5 + CounterNo).toNat (debounceByte DebounceTime undef)).k8055d i).data_out 0)
      (by simp [hcur]) (by simpa) rfl rfl
    refine ⟨s1, r, _, by simp only [OutputOp.run, SetCounterDebounceTime, if_pos hvalid, hcur,
      e1], ?_, e2, e3⟩
    rcases hvalid with h | h <;> subst h <;>
      simp [OutputOp.command, byteAt_set_ne, byteAt_set_eq, hlen, toUChar]

/-- An output operation on a closed session, or with an index out of range, hands nothing to
the transport and returns the error value. -/
theorem OutputOp_run_no_report (s : State) (i : Fin 4) (op : OutputOp) (res : Int)
    (hcur : s.CurrDev = some i) (h : ¬ op.valid ∨ (s.k8055d i).DevNo = -1) :
    ∃ s1, op.run s res = some (s1, K8055_ERROR) ∧ s1.calls = s.calls := by
  have key : ∀ (s0 : State) (cmd : Nat), s0.CurrDev = some i → (s0.k8055d i).DevNo = -1 →
      s0.calls = s.calls →
      ∃ s1, WriteK8055Data s0 cmd res = some (s1, K8055_ERROR) ∧ s1.calls = s.calls :=
    fun s0 cmd h1 h2 h3 => ⟨s0, WriteK8055Data_closed s0 i cmd res h1 h2, h3⟩
  by_cases hv : op.valid
  · have hclosed : (s.k8055d i).DevNo = -1 := h.resolve_left (not_not.2 hv)
    cases op with
    | WriteAllDigital data =>
      (simp [OutputOp.run, WriteAllDigital, hcur]; exact key _ _ (by simp [hcur]) (by simpa) rfl)
    | ClearDigitalChannel Channel =>
      simp only [OutputOp.valid] at hv
      (simp [OutputOp.run, ClearDigitalChannel, WriteAllDigital, hcur, hv]; exact key _ _ (by simp [hcur]) (by simpa) rfl)
    | ClearAllDigital =>
      (simp [OutputOp.run, ClearAllDigital, WriteAllDigital, hcur]; exact key _ _ (by simp [hcur]) (by simpa) rfl)
    | SetDigitalChannel Channel =>
      simp only [OutputOp.valid] at hv
      (simp [OutputOp.run, SetDigitalChannel, WriteAllDigital, hcur, hv]; exact key _ _ (by simp [hcur]) (by simpa) rfl)
    | SetAllDigital =>
      (simp [OutputOp.run, SetAllDigital, WriteAllDigital, hcur]; exact key _ _ (by simp [hcur]) (by simpa) rfl)
    | OutputAnalogChannel Channel data =>
      simp only [OutputOp.valid] at hv
      rcases hv with h1 | h1 <;> subst h1 <;>
        (simp [OutputOp.run, OutputAnalogChannel, hcur]; exact key _ _ (by simp [hcur]) (by simpa) rfl)
    | OutputAllAnalog data1 data2 =>
      (simp [OutputOp.run, OutputAllAnalog, hcur]; exact key _ _ (by simp [hcur]) (by simpa) rfl)
    | ClearAllAnalog =>
      (simp [OutputOp.run, ClearAllAnalog, OutputAllAnalog, hcur]; exact key _ _ (by simp [hcur]) (by simpa) rfl)
    | ClearAnalogChannel Channel =>
      simp only [OutputOp.valid] at hv
      rcases hv with h1 | h1 <;> subst h1 <;>
        (simp [OutputOp.run, ClearAnalogChannel, OutputAnalogChannel, hcur]; exact key _ _ (by simp [hcur]) (by simpa) rfl)
    | SetAnalogChannel Channel =>
      simp only [OutputOp.valid] at hv
      rcases hv with h1 | h1 <;> subst h1 <;>
        (simp [OutputOp.run, SetAnalogChannel, OutputAnalogChannel, hcur]; exact key _ _ (by simp [hcur]) (by simpa) rfl)
    | SetAllAnalog =>
      (simp [OutputOp.run, SetAllAnalog, OutputAllAnalog, hcur]; exact key _ _ (by simp [hcur]) (by simpa) rfl)
    | SetAllValues DigitalData AdData1 AdData2 =>
      (simp [OutputOp.run, SetAllValues, hcur]; exact key _ _ (by simp [hcur]) (by simpa) rfl)
    | ResetCounter CounterNo =>
      simp only [OutputOp.valid] at hv
      (simp [OutputOp.run, ResetCounter, hcur, hv]; exact key _ _ (by simp [hcur]) (by simpa) rfl)
    | SetCounterDebounceTime CounterNo DebounceTime undef =>
      simp only [OutputOp.valid] at hv
      (simp [OutputOp.run, SetCounterDebounceTime, hcur, hv]; exact key _ _ (by simp [hcur]) (by simpa) rfl)
  · cases op with
    | WriteAllDigital data => exact absurd trivial hv
    | ClearAllDigital => exact absurd trivial hv
    | SetAllDigital => exact absurd trivial hv
    | OutputAllAnalog data1 data2 => exact absurd trivial hv
    | ClearAllAnalog => exact absurd trivial hv
    | SetAllAnalog => exact absurd trivial hv
    | SetAllValues DigitalData AdData1 AdData2 => exact absurd trivial hv
    | ClearDigitalChannel Channel =>
      simp only [OutputOp.valid] at hv
      exact ⟨s, by simp only [OutputOp.run, ClearDigitalChannel, if_neg hv], rfl⟩
    | SetDigitalChannel Channel =>
      simp only [OutputOp.valid] at hv
      exact ⟨s, by simp only [OutputOp.run, SetDigitalChannel, if_neg hv], rfl⟩
    | OutputAnalogChannel Channel data =>
      simp only [OutputOp.valid] at hv
      exact ⟨s, by simp only [OutputOp.run, OutputAnalogChannel, if_neg hv], rfl⟩
    | ClearAnalogChannel Channel =>
      simp only [OutputOp.valid] at hv
      exact ⟨s, by simp only [OutputOp.run, ClearAnalogChannel, if_neg hv], rfl⟩
    | SetAnalogChannel Channel =>
      simp only [OutputOp.valid] at hv
      exact ⟨s, by simp only [OutputOp.run, SetAnalogChannel, if_neg hv], rfl⟩
    | ResetCounter CounterNo =>
      simp only [OutputOp.valid] at hv
      exact ⟨s, by simp only [OutputOp.run, ResetCounter, if_neg hv], rfl⟩
    | SetCounterDebounceTime CounterNo DebounceTime undef =>
      simp only [OutputOp.valid] at hv
      exact ⟨s, by simp only [OutputOp.run, SetCounterDebounceTime, if_neg hv], rfl⟩

theorem set_byteAt_self (l : List Nat) (k : Nat) : l.set k (byteAt l k) = l := by
  by_cases h : k < l.length
  · apply List.ext_getElem (by simp)
    intro j h1 h2
    by_cases hj : k = j
    · subst hj; simp [byteAt, List.getD, h]
    · simp [List.getElem_set_ne hj]
  · simp [List.set_eq_of_length_le (not_lt.1 h)]

/-- `WriteK8055Data` called with the command already in `data_out[0]` leaves `data_out` as it
is, on an open and on a closed session. -/
theorem WriteK8055Data_same_cmd (s : State) (i : Fin 4) (res : Int) (hcur : s.CurrDev = some i) :
    ∃ s1 r, WriteK8055Data s (byteAt (s.k8055d i).data_out 0) res = some (s1, r) ∧
      (s1.k8055d i).data_out = (s.k8055d i).data_out := by
  by_cases hopen : (s.k8055d i).DevNo = -1
  · exact ⟨s, K8055_ERROR, WriteK8055Data_closed s i _ res hcur hopen, rfl⟩
  · obtain ⟨s1, r, h1, _, h3, _⟩ := WriteK8055Data_open s i _ res hcur hopen
    exact ⟨s1, r, h1, by rw [h3, set_byteAt_self]⟩

/-- The register after `SetCounterDebounceTime(n, ms)`: the command in byte 0 and the debounce
byte in byte `5 + n`. -/
theorem SetCounterDebounceTime_register (s : State) (i : Fin 4) (n ms : Int) (undef : Nat)
    (res : Int) (hcur : s.CurrDev = some i) (hn : n = 1 ∨ n = 2) :
    ∃ s1 r, SetCounterDebounceTime s n ms undef res = some (s1, r) ∧
      (s1.k8055d i).data_out = ((s.k8055d i).data_out.set 0 (toUChar n)).set (5 + n).toNat
        (debounceByte ms undef) := by
  obtain ⟨s1, r, h1, h2⟩ := WriteK8055Data_same_cmd ((s.setOut i 0 (toUChar n)).setOut i
    (5 + n).toNat (debounceByte ms undef)) i res (by simp [hcur])
  refine ⟨s1, r, ?_, ?_⟩
  · simp only [SetCounterDebounceTime, if_pos hn, hcur, h1]
  · rw [h2]; simp

/-- The register after `ResetCounter(n)`: the command in byte 0 and zero in byte `3 + n`. -/
theorem ResetCounter_register (s : State) (i : Fin 4) (n : Int) (res : Int)
    (hcur : s.CurrDev = some i) (hn : n = 1 ∨ n = 2) :
    ∃ s1 r, ResetCounter s n res = some (s1, r) ∧
      (s1.k8055d i).data_out = ((s.k8055d i).data_out.set 0 ((0x02 + toUChar n) % 256)).set
        (3 + n).toNat 0 := by
  obtain ⟨s1, r, h1, h2⟩ := WriteK8055Data_same_cmd ((s.setOut i 0 ((0x02 + toUChar n) % 256)).setOut
    i (3 + n).toNat 0x00) i res (by simp [hcur])
  refine ⟨s1, r, ?_, ?_⟩
  · simp only [ResetCounter, if_pos hn, hcur, h1]
  · rw [h2]; simp

/-- C6, as stated, fails: on the board open at address 1, after `SetAllValues(0xff, 0x80, 0x40)`
the report of `ResetCounter(1)` carries `0xff, 0x80, 0x40` in bytes 2 to 4, and after
`SetCounterDebounceTime(1, 1000)` the report of `SetAllDigital` carries the debounce byte 93 in
byte 7. -/
theorem C6_unassigned_bytes_not_zero :
    (ResetCounter exAfterSetAll 1 9).map (fun p => p.1.reports.getLast?) =
        some (some [1, 3, 0xff, 0x80, 0x40, 0, 0, 0, 0]) ∧
      (SetAllDigital exAfterDebounce 9).map (fun p => p.1.reports.getLast?) =
        some (some [1, 5, 0xff, 0, 0, 0, 0, 93, 0]) := by
  decide!

/-- C6, amended: on an open session, the report of every output operation carries in each
payload byte `j` (2 to 8) byte `j - 1` of `data_out` as the operation leaves it, whatever the
command; the report of `ResetCounter(n)` carries 0 in byte `4 + n`. -/
theorem C6_payload_is_register (s : State) (i : Fin 4) (op : OutputOp) (res : Int)
    (hcur : s.CurrDev = some i) (hopen : (s.k8055d i).DevNo ≠ -1)
    (hlen : (s.k8055d i).data_out.length = 9) (hvalid : op.valid) :
    ∃ s1 r report, op.run s res = some (s1, r) ∧
      s1.calls = s.calls ++ [HidCall.hid_write s.connected_device report] ∧
      (∀ j, 2 ≤ j → j ≤ 8 → byteAt report j = byteAt (s1.k8055d i).data_out (j - 1)) ∧
      (∀ n, op = OutputOp.ResetCounter n → byteAt report (4 + n).toNat = 0) := by
  obtain ⟨s1, r, cmd, h1, h2, h3, _⟩ := OutputOp_run_open s i op res hcur hopen hlen hvalid
  have hbytes : ∀ j, 2 ≤ j → j ≤ 8 →
      byteAt [1, cmd, byteAt (s1.k8055d i).data_out 1, byteAt (s1.k8055d i).data_out 2,
        byteAt (s1.k8055d i).data_out 3, byteAt (s1.k8055d i).data_out 4,
        byteAt (s1.k8055d i).data_out 5, byteAt (s1.k8055d i).data_out 6,
        byteAt (s1.k8055d i).data_out 7] j = byteAt (s1.k8055d i).data_out (j - 1) := by
    intro j hj1 hj2
    interval_cases j <;> simp [byteAt]
  refine ⟨s1, r, _, h1, h3, hbytes, ?_⟩
  intro n hop
  subst hop
  simp only [OutputOp.valid] at hvalid
  obtain ⟨s1', r', e1, e2⟩ := ResetCounter_register s i n res hcur hvalid
  have e3 : s1' = s1 := by
    simp only [OutputOp.run, e1, Option.some.injEq, Prod.mk.injEq] at h1
    exact h1.1
  subst e3
  rcases hvalid with h | h <;> subst h
  · have e5 : ((4 : Int) + 1).toNat = 5 := by decide
    have e4 : ((3 : Int) + 1).toNat = 4 := by decide
    rw [e5, hbytes 5 (by norm_num) (by norm_num), e2, e4]
    exact byteAt_set_eq _ 4 0 (by simp [hlen])
  · have e6 : ((4 : Int) + 2).toNat = 6 := by decide
    have e5 : ((3 : Int) + 2).toNat = 5 := by decide
    rw [e6, hbytes 6 (by norm_num) (by norm_num), e2, e5]
    exact byteAt_set_eq _ 5 0 (by simp [hlen])

/-- Witness for C6: `ResetCounter(1)` after `SetAllValues(0xff, 0x80, 0x40)`. -/
theorem C6_payload_is_register_witness :
    exAfterSetAll.CurrDev = some 1 ∧ (exAfterSetAll.k8055d 1).DevNo ≠ -1 ∧
      (exAfterSetAll.k8055d 1).data_out.length = 9 ∧ (OutputOp.ResetCounter 1).valid ∧
      ∃ s1 r report, (OutputOp.ResetCounter 1).run exAfterSetAll 9 = some (s1, r) ∧
        s1.calls = exAfterSetAll.calls ++
          [HidCall.hid_write exAfterSetAll.connected_device report] ∧
        (∀ j, 2 ≤ j → j ≤ 8 → byteAt report j = byteAt (s1.k8055d 1).data_out (j - 1)) ∧
        (∀ n, OutputOp.ResetCounter 1 = OutputOp.ResetCounter n →
          byteAt report (4 + n).toNat = 0) :=
  ⟨rfl, by decide, rfl, Or.inl rfl,
    C6_payload_is_register exAfterSetAll 1 (OutputOp.ResetCounter 1) 9 rfl (by decide) rfl
      (Or.inl rfl)⟩

/-- C7, as stated, fails: on the board open at address 1 the debounce byte for 1000 ms is 93;
the report of `SetCounterDebounceTime(1, 1000)` carries 0 in byte 6 and 93 in byte 7, and the
report of `SetCounterDebounceTime(2, 1000)` carries 0 in byte 7 and 93 in byte 8. -/
theorem C7_debounce_byte_not_at_6_and_7 :
    debounceByte 1000 0 = 93 ∧
      (SetCounterDebounceTime exOpen 1 1000 0 9).map (fun p => p.1.reports.getLast?) =
        some (some [1, 1, 0, 0, 0, 0, 0, 93, 0]) ∧
      (SetCounterDebounceTime exOpen 2 1000 0 9).map (fun p => p.1.reports.getLast?) =
        some (some [1, 2, 0, 0, 0, 0, 0, 0, 93]) := by
  decide!

/-- C7, amended: on an open session, for every `ms`, the report of
`SetCounterDebounceTime(1, ms)` carries the computed debounce byte in byte 7 of the nine bytes,
and the report of `SetCounterDebounceTime(2, ms)` carries it in byte 8 (byte 0 the `0x01`
marker, byte 1 the command). -/
theorem C7_debounce_byte_position (s : State) (i : Fin 4) (n ms : Int) (undef : Nat) (res : Int)
    (hcur : s.CurrDev = some i) (hopen : (s.k8055d i).DevNo ≠ -1)
    (hlen : (s.k8055d i).data_out.length = 9) (hn : n = 1 ∨ n = 2) :
    ∃ s1 r report, SetCounterDebounceTime s n ms undef res = some (s1, r) ∧
      s1.calls = s.calls ++ [HidCall.hid_write s.connected_device report] ∧
      report.length = 9 ∧ byteAt report 0 = 0x01 ∧ (byteAt report 1 : Int) = n ∧
      (n = 1 → byteAt report 7 = debounceByte ms undef) ∧
      (n = 2 → byteAt report 8 = debounceByte ms undef) := by
  obtain ⟨s1, r, cmd, h1, h2, h3, _⟩ := OutputOp_run_open s i
    (OutputOp.SetCounterDebounceTime n ms undef) res hcur hopen hlen hn
  obtain ⟨s1', r', e1, e2⟩ := SetCounterDebounceTime_register s i n ms undef res hcur hn
  have e3 : s1' = s1 := by
    simp only [OutputOp.run, e1, Option.some.injEq, Prod.mk.injEq] at h1
    exact h1.1
  subst e3
  refine ⟨s1', r, _, h1, h3, rfl, rfl, by simpa [byteAt, OutputOp.command] using h2, ?_, ?_⟩
  · intro h
    subst h
    have e6 : ((5 : Int) + 1).toNat = 6 := by decide
    rw [e2, e6]
    simpa [byteAt] using byteAt_set_eq _ 6 (debounceByte ms undef) (by simp [hlen])
  · intro h
    subst h
    have e7 : ((5 : Int) + 2).toNat = 7 := by decide
    rw [e2, e7]
    simpa [byteAt] using byteAt_set_eq _ 7 (debounceByte ms undef) (by simp [hlen])

/-- Witness for C7: `SetCounterDebounceTime(1, 1000)` on the board open at address 1. -/
theorem C7_debounce_byte_position_witness :
    exOpen.CurrDev = some 1 ∧ (exOpen.k8055d 1).DevNo ≠ -1 ∧
      (exOpen.k8055d 1).data_out.length = 9 ∧ ((1 : Int) = 1 ∨ (1 : Int) = 2) ∧
      ∃ s1 r report, SetCounterDebounceTime exOpen 1 1000 0 9 = some (s1, r) ∧
        s1.calls = exOpen.calls ++ [HidCall.hid_write exOpen.connected_device report] ∧
        report.length = 9 ∧ byteAt report 0 = 0x01 ∧ (byteAt report 1 : Int) = 1 ∧
        ((1 : Int) = 1 → byteAt report 7 = debounceByte 1000 0) ∧
        ((1 : Int) = 2 → byteAt report 8 = debounceByte 1000 0) :=
  ⟨rfl, by decide, rfl, Or.inl rfl,
    C7_debounce_byte_position exOpen 1 1 1000 0 9 rfl (by decide) rfl (Or.inl rfl)⟩

/-! ### Digital channels -/

/-- The bit arithmetic of `SetDigitalChannel` and `ClearDigitalChannel` on a byte `old` and a
bit position `k < 8`, checked for all 2048 pairs. -/
theorem digital_bits :
    ∀ old, old < 256 → ∀ k, k < 8 →
      (old ||| (1 <<< k)) % 256 = old ||| (1 <<< k) ∧
      (old &&& not32 (1 <<< k)) % 256 = old &&& (0xFF ^^^ (1 <<< k)) ∧
      (old ||| (1 <<< k)) < 256 ∧ (old &&& (0xFF ^^^ (1 <<< k))) < 256 ∧
      (old ||| (1 <<< k)).testBit k = true ∧ (old &&& (0xFF ^^^ (1 <<< k))).testBit k = false ∧
      ∀ j, j < 8 → (j = k ∨
        ((old ||| (1 <<< k)).testBit j = old.testBit j ∧
        (old &&& (0xFF ^^^ (1 <<< k))).testBit j = old.testBit j)) := by
  decide!

theorem toUChar_natCast (x : Nat) (h : x < 256) : toUChar (x : Int) = x := by
  simp only [toUChar]
  omega

theorem testBit_eq_of_lt_256 (a b : Nat) (ha : a < 256) (hb : b < 256) (k : Nat)
    (h : ∀ j, j < 8 → j ≠ k → a.testBit j = b.testBit j) (j : Nat) (hj : j ≠ k) :
    a.testBit j = b.testBit j := by
  by_cases h8 : j < 8
  · exact h j h8 hj
  · have hp : (256 : Nat) ≤ 2 ^ j := by
      calc (256 : Nat) = 2 ^ 8 := by norm_num
        _ ≤ 2 ^ j := Nat.pow_le_pow_right (by norm_num) (by omega)
    rw [Nat.testBit_eq_false_of_lt (lt_of_lt_of_le ha hp),
      Nat.testBit_eq_false_of_lt (lt_of_lt_of_le hb hp)]

/-- The register after `WriteAllDigital(data)`: `(unsigned char)data` in byte 1. -/
theorem WriteAllDigital_register (s : State) (i : Fin 4) (data res : Int)
    (hcur : s.CurrDev = some i) :
    ∃ s1 r, WriteAllDigital s data res = some (s1, r) ∧
      byteAt (s1.k8055d i).data_out 1 = byteAt ((s.k8055d i).data_out.set 1 (toUChar data)) 1 ∧
      ((s.k8055d i).DevNo ≠ -1 →
        ∃ report, s1.calls = s.calls ++ [HidCall.hid_write s.connected_device report] ∧
          byteAt report 2 = byteAt (s1.k8055d i).data_out 1) := by
  by_cases hopen : (s.k8055d i).DevNo = -1
  · refine ⟨s.setOut i 1 (toUChar data), K8055_ERROR, ?_, by simp, fun h => absurd hopen h⟩
    simp only [WriteAllDigital, hcur]
    exact WriteK8055Data_closed _ i _ res (by simp [hcur]) (by simpa)
  · obtain ⟨s1, r, h1, h2, h3, _⟩ := WriteK8055Data_report (s.setOut i 1 (toUChar data)) i
      CMD_SET_ANALOG_DIGITAL res (by simp [hcur]) (by simpa)
    refine ⟨s1, r, by simp only [WriteAllDigital, hcur, h1], ?_, fun _ => ⟨_, h2, ?_⟩⟩
    · rw [h3]; simp [byteAt_set_ne]
    · simp [byteAt]
/-- C8: for `n` in [1,8], `SetDigitalChannel(n)` makes the digital mask
`old | (1 << (n-1))` and `ClearDigitalChannel(n)` makes it `old & ~(1 << (n-1))` (in eight
bits, `old & (0xFF ^ (1 << (n-1)))`): bit `n - 1` is set, respectively cleared, every other bit
is as before, and on an open session the report written carries the new mask in byte 2.  From
the all-zero register, `SetDigitalChannel(3)` then `ClearDigitalChannel(5)` writes a report
whose digital byte is `0b00000100`. -/
theorem C8_digital_channel_mask (s : State) (i : Fin 4) (n res : Int)
    (hcur : s.CurrDev = some i) (hlen : (s.k8055d i).data_out.length = 9)
    (hbyte : byteAt (s.k8055d i).data_out 1 < 256) (hn : 1 ≤ n ∧ n ≤ 8) :
    (∃ s1 r, SetDigitalChannel s n res = some (s1, r) ∧
      byteAt (s1.k8055d i).data_out 1 =
        byteAt (s.k8055d i).data_out 1 ||| (1 <<< (n - 1).toNat) ∧
      (byteAt (s1.k8055d i).data_out 1).testBit (n - 1).toNat = true ∧
      (∀ j, j ≠ (n - 1).toNat →
        (byteAt (s1.k8055d i).data_out 1).testBit j =
          (byteAt (s.k8055d i).data_out 1).testBit j) ∧
      ((s.k8055d i).DevNo ≠ -1 →
        ∃ report, s1.calls = s.calls ++ [HidCall.hid_write s.connected_device report] ∧
          byteAt report 2 = byteAt (s1.k8055d i).data_out 1)) ∧
    (∃ s1 r, ClearDigitalChannel s n res = some (s1, r) ∧
      byteAt (s1.k8055d i).data_out 1 =
        byteAt (s.k8055d i).data_out 1 &&& (0xFF ^^^ (1 <<< (n - 1).toNat)) ∧
      (byteAt (s1.k8055d i).data_out 1).testBit (n - 1).toNat = false ∧
      (∀ j, j ≠ (n - 1).toNat →
        (byteAt (s1.k8055d i).data_out 1).testBit j =
          (byteAt (s.k8055d i).data_out 1).testBit j) ∧
      ((s.k8055d i).DevNo ≠ -1 →
        ∃ report, s1.calls = s.calls ++ [HidCall.hid_write s.connected_device report] ∧
          byteAt report 2 = byteAt (s1.k8055d i).data_out 1)) ∧
    ((exOpen.k8055d 1).data_out = [0, 0, 0, 0, 0, 0, 0, 0, 0] ∧
      (SetDigitalChannel exOpen 3 9).map Prod.snd = some 0 ∧
      (ClearDigitalChannel exAfterSet3 5 9).map (fun p => p.1.reports.getLast?) =
        some (some [1, 5, 0b00000100, 0, 0, 0, 0, 0, 0])) := by
  have hk : (n - 1).toNat < 8 := by omega
  have hch : 0 < n ∧ n < 9 := by omega
  obtain ⟨b1, b2, b3, b4, b5, b6, b7⟩ :=
    digital_bits (byteAt (s.k8055d i).data_out 1) hbyte (n - 1).toNat hk
  refine ⟨?_, ?_, ?_⟩
  · obtain ⟨s1, r, h1, h2, h3⟩ := WriteAllDigital_register s i
      (((byteAt (s.k8055d i).data_out 1 ||| (1 <<< (n - 1).toNat)) % 256 : Nat) : Int) res hcur
    have hnew : byteAt (s1.k8055d i).data_out 1 =
        byteAt (s.k8055d i).data_out 1 ||| (1 <<< (n - 1).toNat) := by
      rw [h2, byteAt_set_eq _ _ _ (by simp [hlen]), b1, toUChar_natCast _ b3]
    refine ⟨s1, r, ?_, hnew, by rw [hnew]; exact b5, ?_, h3⟩
    · simp only [SetDigitalChannel, if_pos hch, hcur, h1]
    · rw [hnew]
      exact testBit_eq_of_lt_256 _ _ b3 hbyte _ fun j hj hjk =>
        ((b7 j hj).resolve_left hjk).1
  · obtain ⟨s1, r, h1, h2, h3⟩ := WriteAllDigital_register s i
      (((byteAt (s.k8055d i).data_out 1 &&& not32 (1 <<< (n - 1).toNat)) % 256 : Nat) : Int)
      res hcur
    have hnew : byteAt (s1.k8055d i).data_out 1 =
        byteAt (s.k8055d i).data_out 1 &&& (0xFF ^^^ (1 <<< (n - 1).toNat)) := by
      rw [h2, byteAt_set_eq _ _ _ (by simp [hlen]), b2, toUChar_natCast _ b4]
    refine ⟨s1, r, ?_, hnew, by rw [hnew]; exact b6, ?_, h3⟩
    · simp only [ClearDigitalChannel, if_pos hch, hcur, h1]
    · rw [hnew]
      exact testBit_eq_of_lt_256 _ _ b4 hbyte _ fun j hj hjk =>
        ((b7 j hj).resolve_left hjk).2
  · decide

/-- Witness for C8: channel 3 on the board open at address 1. -/
theorem C8_digital_channel_mask_witness :
    exOpen.CurrDev = some 1 ∧ (exOpen.k8055d 1).data_out.length = 9 ∧
      byteAt (exOpen.k8055d 1).data_out 1 < 256 ∧ ((1 : Int) ≤ 3 ∧ (3 : Int) ≤ 8) ∧
      (∃ s1 r, SetDigitalChannel exOpen 3 9 = some (s1, r) ∧
        byteAt (s1.k8055d 1).data_out 1 =
          byteAt (exOpen.k8055d 1).data_out 1 ||| (1 <<< ((3 : Int) - 1).toNat)) :=
  ⟨rfl, rfl, by decide, by decide,
    let ⟨s1, r, h1, h2, _⟩ :=
      (C8_digital_channel_mask exOpen 1 3 9 rfl rfl (by decide) (by decide)).1
    ⟨s1, r, h1, h2⟩⟩

/-! ### Debounce time -/

/-- For a duration that is not negative, the byte is the truncated `value` of the clamped
duration, and the conversion to `unsigned char` does not wrap. -/
theorem debounceByte_eq_refByte (ms : Int) (undef : Nat) (h : 0 ≤ ms) :
    debounceByte ms undef = refByte (min ms 7450).toNat ∧ debounceByte ms undef ≤ 255 := by
  have hclamp : (if ms > 7450 then 7450 else ms) = min ms 7450 := by
    split_ifs with h1
    · exact (min_eq_right (le_of_lt h1)).symm
    · exact (min_eq_left (not_lt.1 h1)).symm
  have hnn : ¬ (min ms 7450 < 0) := by
    simp only [not_lt]
    exact le_min h (by norm_num)
  have hle : (min ms 7450).toNat ≤ 7450 := by
    have : min ms 7450 ≤ 7450 := min_le_right _ _
    omega
  obtain ⟨t1, t2, _⟩ := tableOK_spec (min ms 7450).toNat hle
  simp only [debounceByte, hclamp, if_neg hnn, t1]
  rw [Nat.mod_eq_of_lt (by omega)]
  exact ⟨rfl, t2⟩

/-- C9: for every duration `ms ≥ 0`, the byte `SetCounterDebounceTime(n, ms)` stores in
`data_out[5 + n]` is the reference value: with `v = sqrt (min ms 7450 / 0.115)` it is
`floor v + 1` if `v > floor v + 0.49999999` and `floor v` otherwise; it is at most 255, it is
0 for `ms = 0`, and every `ms > 7450` gives the byte of 7450. -/
theorem C9_debounce_byte_is_reference (s : State) (i : Fin 4) (n ms : Int) (undef : Nat)
    (res : Int) (hcur : s.CurrDev = some i) (hlen : (s.k8055d i).data_out.length = 9)
    (hn : n = 1 ∨ n = 2) (hms : 0 ≤ ms) :
    (∃ s1 r, SetCounterDebounceTime s n ms undef res = some (s1, r) ∧
      byteAt (s1.k8055d i).data_out (5 + n).toNat = debounceByte ms undef) ∧
    ((debounceByte ms undef : Nat) : ℝ) =
      (if Real.sqrt (((min ms 7450 : Int) : ℝ) / 0.115) >
          (⌊Real.sqrt (((min ms 7450 : Int) : ℝ) / 0.115)⌋ : ℝ) + 0.49999999 then
        (⌊Real.sqrt (((min ms 7450 : Int) : ℝ) / 0.115)⌋ : ℝ) + 1
      else (⌊Real.sqrt (((min ms 7450 : Int) : ℝ) / 0.115)⌋ : ℝ)) ∧
    debounceByte ms undef ≤ 255 ∧ debounceByte 0 undef = 0 ∧
    (7450 < ms → debounceByte ms undef = debounceByte 7450 undef) := by
  obtain ⟨e1, e2⟩ := debounceByte_eq_refByte ms undef hms
  have hm0 : 0 ≤ min ms 7450 := le_min hms (by norm_num)
  have hcast : ((min ms 7450 : Int) : ℝ) = (((min ms 7450).toNat : Nat) : ℝ) := by
    have : ((min ms 7450).toNat : Int) = min ms 7450 := Int.toNat_of_nonneg hm0
    exact_mod_cast this.symm
  refine ⟨?_, ?_, e2, ?_, ?_⟩
  · obtain ⟨s1, r, h1, h2⟩ := SetCounterDebounceTime_register s i n ms undef res hcur hn
    refine ⟨s1, r, h1, ?_⟩
    rw [h2]
    exact byteAt_set_eq _ _ _ (by rcases hn with h | h <;> subst h <;> simp [hlen])
  · rw [e1, hcast]
    exact refByte_real _
  · rw [(debounceByte_eq_refByte 0 undef le_rfl).1]
    decide!
  · intro hgt
    rw [e1, (debounceByte_eq_refByte 7450 undef (by norm_num)).1,
      min_eq_right (le_of_lt hgt), min_self]

/-- Witness for C9: 1000 ms for counter 1 on the board open at address 1. -/
theorem C9_debounce_byte_is_reference_witness :
    exOpen.CurrDev = some 1 ∧ (exOpen.k8055d 1).data_out.length = 9 ∧
      ((1 : Int) = 1 ∨ (1 : Int) = 2) ∧ (0 : Int) ≤ 1000 ∧
      (∃ s1 r, SetCounterDebounceTime exOpen 1 1000 0 9 = some (s1, r) ∧
        byteAt (s1.k8055d 1).data_out ((5 : Int) + 1).toNat = debounceByte 1000 0) ∧
      ((debounceByte 1000 0 : Nat) : ℝ) =
        (if Real.sqrt (((min 1000 7450 : Int) : ℝ) / 0.115) >
            (⌊Real.sqrt (((min 1000 7450 : Int) : ℝ) / 0.115)⌋ : ℝ) + 0.49999999 then
          (⌊Real.sqrt (((min 1000 7450 : Int) : ℝ) / 0.115)⌋ : ℝ) + 1
        else (⌊Real.sqrt (((min 1000 7450 : Int) : ℝ) / 0.115)⌋ : ℝ)) ∧
      debounceByte 1000 0 ≤ 255 ∧ debounceByte 0 0 = 0 ∧
      ((7450 : Int) < 1000 → debounceByte 1000 0 = debounceByte 7450 0) :=
  ⟨rfl, rfl, Or.inl rfl, by decide,
    C9_debounce_byte_is_reference exOpen 1 1 1000 0 9 rfl rfl (Or.inl rfl) (by decide)⟩

/-- C10: the debounce conversion does not decrease: for integers `0 ≤ a ≤ b ≤ 7450` the byte
computed for `a` is at most the byte computed for `b`. -/
theorem C10_debounce_monotone (a b : Int) (undef : Nat) (ha : 0 ≤ a) (hab : a ≤ b)
    (hb : b ≤ 7450) : debounceByte a undef ≤ debounceByte b undef := by
  rw [(debounceByte_eq_refByte a undef ha).1, (debounceByte_eq_refByte b undef (le_trans ha hab)).1,
    min_eq_left (le_trans hab hb), min_eq_left hb]
  exact refByte_mono _ _ (Int.toNat_le_toNat hab) (by omega)

/-- Witness for C10: the byte for 1000 ms is at most the byte for 7450 ms. -/
theorem C10_debounce_monotone_witness :
    (0 : Int) ≤ 1000 ∧ (1000 : Int) ≤ 7450 ∧ (7450 : Int) ≤ 7450 ∧
      debounceByte 1000 0 ≤ debounceByte 7450 0 :=
  ⟨by decide, by decide, by decide,
    C10_debounce_monotone 1000 7450 0 (by decide) (by decide) (by decide)⟩

/-! ### Index and range errors -/

/-- C11: on the board open at address 1, `SetCounterDebounceTime(1, -5)` does not fail: for
whatever byte `undef` the conversion of the NaN yields, it returns 0 when the write returns 9,
hands the report `[1, 1, 0, 0, 0, 0, 0, undef % 256, 0]` to the transport and stores that byte
in `data_out[6]`. -/
theorem C11_negative_debounce_is_written :
    ∀ undef : Nat,
      debounceByte (-5) undef = undef % 256 ∧
      ∃ s1, SetCounterDebounceTime exOpen 1 (-5) undef 9 = some (s1, 0) ∧
        s1.reports = [[1, 1, 0, 0, 0, 0, 0, undef % 256, 0]] ∧
        (exOpen.k8055d 1).data_out = [0, 0, 0, 0, 0, 0, 0, 0, 0] ∧
        (s1.k8055d 1).data_out = [1, 0, 0, 0, 0, 0, undef % 256, 0, 0] := by
  intro undef
  have hb : debounceByte (-5) undef = undef % 256 := by
    simp [debounceByte]
  refine ⟨hb, ?_⟩
  obtain ⟨s1, r, cmd, h1, h2, h3, h4, _⟩ := OutputOp_run_open exOpen 1
    (OutputOp.SetCounterDebounceTime 1 (-5) undef) 9 rfl (by decide) rfl (Or.inl rfl)
  obtain ⟨s1', r', e1, e2⟩ := SetCounterDebounceTime_register exOpen 1 1 (-5) undef 9 rfl
    (Or.inl rfl)
  simp only [OutputOp.run] at h1
  have e3 : s1' = s1 := by
    rw [e1] at h1
    simp only [Option.some.injEq, Prod.mk.injEq] at h1
    exact h1.1
  subst e3
  have hr : r = 0 := h4.2 rfl
  subst hr
  have hcmd : cmd = 1 := by
    simp only [OutputOp.command] at h2
    exact_mod_cast h2
  subst hcmd
  have hout : (s1'.k8055d 1).data_out = [1, 0, 0, 0, 0, 0, undef % 256, 0, 0] := by
    rw [e2, hb]
    rfl
  refine ⟨s1', h1, ?_, rfl, hout⟩
  simp only [State.reports, h3, hout]
  rfl

/-- C12: an operation called with an index outside its range returns the error value, makes
no call on the transport other than the one-time `hid_init` of `OpenDevice`, and leaves the
four device records (output register, input buffer, handle, `DevNo`) and `CurrDev` as they
were: for every operation but `OpenDevice` the whole state is unchanged. -/
theorem C12_index_out_of_range (s : State) (a c c5 ch n data ms res : Int) (undef : Nat)
    (rd : HidRead) (devices : List hid_device_info) (hid_open_path : Nat → Option Nat)
    (ha : ¬ (0 ≤ a ∧ a ≤ 3)) (hc : ¬ (1 ≤ c ∧ c ≤ 8)) (hc5 : ¬ (1 ≤ c5 ∧ c5 ≤ 5))
    (hch : ¬ (ch = 1 ∨ ch = 2)) (hn : ¬ (n = 1 ∨ n = 2)) :
    ((OpenDevice s a devices hid_open_path).2 = K8055_ERROR ∧
      (OpenDevice s a devices hid_open_path).1.k8055d = s.k8055d ∧
      (OpenDevice s a devices hid_open_path).1.CurrDev = s.CurrDev ∧
      (OpenDevice s a devices hid_open_path).1.connected_device = s.connected_device ∧
      (OpenDevice s a devices hid_open_path).1.calls =
        (if s.Done then s.calls else s.calls ++ [HidCall.hid_init])) ∧
    SetDigitalChannel s c res = some (s, K8055_ERROR) ∧
    ClearDigitalChannel s c res = some (s, K8055_ERROR) ∧
    ReadDigitalChannel s c5 rd = some (s, K8055_ERROR) ∧
    ReadAnalogChannel s ch rd = some (s, K8055_ERROR) ∧
    OutputAnalogChannel s ch data res = some (s, K8055_ERROR) ∧
    SetAnalogChannel s ch res = some (s, K8055_ERROR) ∧
    ClearAnalogChannel s ch res = some (s, K8055_ERROR) ∧
    ResetCounter s n res = some (s, K8055_ERROR) ∧
    ReadCounter s n rd = some (s, K8055_ERROR) ∧
    SetCounterDebounceTime s n ms undef res = some (s, K8055_ERROR) := by
  have ha' : ¬ (0 ≤ a ∧ a < (K8055_MAX_DEV : Int)) := by
    simp only [K8055_MAX_DEV]; omega
  have hc' : ¬ (0 < c ∧ c < 9) := by omega
  have hc5' : ¬ (0 < c5 ∧ c5 < 6) := by omega
  refine ⟨?_, ?_, ?_, ?_, ?_, ?_, ?_, ?_, ?_, ?_, ?_⟩
  · have hO : OpenDevice s a devices hid_open_path = (init_usb s, K8055_ERROR) := by
      simp only [OpenDevice, dif_neg ha']
    rw [hO]
    refine ⟨rfl, ?_, ?_, ?_, ?_⟩ <;>
      (simp only [init_usb]; split_ifs <;> simp_all [State.log])
  · simp only [SetDigitalChannel, if_neg hc']
  · simp only [ClearDigitalChannel, if_neg hc']
  · simp only [ReadDigitalChannel, if_neg hc5']
  · simp only [ReadAnalogChannel, if_neg hch]
  · simp only [OutputAnalogChannel, if_neg hch]
  · simp only [SetAnalogChannel, if_neg hch]
  · simp only [ClearAnalogChannel, if_neg hch]
  · simp only [ResetCounter, if_neg hn]
  · simp only [ReadCounter, if_neg hn]
  · simp only [SetCounterDebounceTime, if_neg hn]

/-- Witness for C12: address 4, digital channel 9, input channel 6, analog channel 3 and
counter 0 on the board open at address 1. -/
theorem C12_index_out_of_range_witness :
    ¬ ((0 : Int) ≤ 4 ∧ (4 : Int) ≤ 3) ∧ ¬ ((1 : Int) ≤ 9 ∧ (9 : Int) ≤ 8) ∧
      ¬ ((1 : Int) ≤ 6 ∧ (6 : Int) ≤ 5) ∧ ¬ ((3 : Int) = 1 ∨ (3 : Int) = 2) ∧
      ¬ ((0 : Int) = 1 ∨ (0 : Int) = 2) ∧
      (OpenDevice exOpen 4 exDevices exOpenPath).2 = K8055_ERROR ∧
      (OpenDevice exOpen 4 exDevices exOpenPath).1.calls = exOpen.calls ∧
      SetDigitalChannel exOpen 9 9 = some (exOpen, K8055_ERROR) ∧
      ReadDigitalChannel exOpen 6 exRead = some (exOpen, K8055_ERROR) ∧
      OutputAnalogChannel exOpen 3 255 9 = some (exOpen, K8055_ERROR) ∧
      ResetCounter exOpen 0 9 = some (exOpen, K8055_ERROR) :=
  have h := C12_index_out_of_range exOpen 4 9 6 3 0 255 1000 9 0 exRead exDevices exOpenPath
    (by decide) (by decide) (by decide) (by decide) (by decide)
  ⟨by decide, by decide, by decide, by decide, by decide, h.1.1, h.1.2.2.2.2,
    h.2.1, h.2.2.2.1, h.2.2.2.2.2.1, h.2.2.2.2.2.2.2.2.1⟩

/-! ### The device table -/

theorem init_usb_k8055d (s : State) : (init_usb s).k8055d = s.k8055d := by
  simp only [init_usb]; split_ifs <;> rfl

/-- `OpenDevice` for a valid address when the loop finds a device with the product id: the
slot becomes current and open with the handle the transport returns, `connected_device` is that
handle, and nothing else in the device records changes. -/
theorem OpenDevice_found (s : State) (a : Int) (i : Fin 4) (devices : List hid_device_info)
    (hid_open_path : Nat → Option Nat) (dev : hid_device_info) (hai : ((i : Nat) : Int) = a)
    (hf : findBoard a devices = some dev) :
    ∃ s1, OpenDevice s a devices hid_open_path = (s1, 0) ∧ s1.CurrDev = some i ∧
      s1.connected_device = hid_open_path dev.path ∧
      (s1.k8055d i).DevNo = a ∧ (s1.k8055d i).device_handle = hid_open_path dev.path ∧
      (s1.k8055d i).data_out = (s.k8055d i).data_out ∧
      (s1.k8055d i).data_in = (s.k8055d i).data_in ∧
      (∀ j, j ≠ i → s1.k8055d j = s.k8055d j) ∧
      s1.calls = (init_usb s).calls ++ [HidCall.hid_enumerate,
        HidCall.hid_open_path dev.path, HidCall.hid_set_nonblocking (hid_open_path dev.path)] := by
  have hr : 0 ≤ a ∧ a < (K8055_MAX_DEV : Int) := by
    have := i.isLt
    simp only [K8055_MAX_DEV]; omega
  have hi : (⟨a.toNat, by have := i.isLt; omega⟩ : Fin 4) = i := by
    apply Fin.ext; simp only; omega
  simp only [OpenDevice, dif_pos hr, hf, hi]
  refine ⟨_, rfl, rfl, rfl, ?_, ?_, ?_, ?_, ?_, ?_⟩
  · simp [State.setDev, State.log]
  · simp [State.setDev, State.log]
  · simp [State.setDev, State.log, init_usb_k8055d]
  · simp [State.setDev, State.log, init_usb_k8055d]
  · intro j hj
    simp [State.setDev, State.log, init_usb_k8055d, hj]
  · simp [State.setDev, State.log]

/-- `OpenDevice` for a valid address when no enumerated device has the product id: it returns
the error value and leaves the slot current and closed. -/
theorem OpenDevice_not_found (s : State) (a : Int) (i : Fin 4) (devices : List hid_device_info)
    (hid_open_path : Nat → Option Nat) (hai : ((i : Nat) : Int) = a)
    (hf : findBoard a devices = none) :
    ∃ s1, OpenDevice s a devices hid_open_path = (s1, K8055_ERROR) ∧ s1.CurrDev = some i ∧
      s1.connected_device = s.connected_device ∧
      (s1.k8055d i).DevNo = -1 ∧ (s1.k8055d i).device_handle = (s.k8055d i).device_handle ∧
      (s1.k8055d i).data_out = (s.k8055d i).data_out ∧
      (s1.k8055d i).data_in = (s.k8055d i).data_in ∧
      (∀ j, j ≠ i → s1.k8055d j = s.k8055d j) ∧
      s1.calls = (init_usb s).calls ++ [HidCall.hid_enumerate] := by
  have hr : 0 ≤ a ∧ a < (K8055_MAX_DEV : Int) := by
    have := i.isLt
    simp only [K8055_MAX_DEV]; omega
  have hi : (⟨a.toNat, by have := i.isLt; omega⟩ : Fin 4) = i := by
    apply Fin.ext; simp only; omega
  have hc : (init_usb s).connected_device = s.connected_device := by
    simp only [init_usb]; split_ifs <;> rfl
  simp only [OpenDevice, dif_pos hr, hf, hi]
  refine ⟨_, rfl, rfl, ?_, ?_, ?_, ?_, ?_, ?_, ?_⟩
  · simp [State.setDev, State.log, hc]
  · simp [State.setDev, State.log]
  · simp [State.setDev, State.log, init_usb_k8055d]
  · simp [State.setDev, State.log, init_usb_k8055d]
  · simp [State.setDev, State.log, init_usb_k8055d]
  · intro j hj
    simp [State.setDev, State.log, init_usb_k8055d, hj]
  · simp [State.setDev, State.log]

/-- C13, as stated, fails: on the board open at address 1 (handle 107), with the device
still enumerated, a second `OpenDevice(1)` returns 0, not the error value; it opens the path
again without closing the first handle, and the slot holds the new handle 207. -/
theorem C13_second_open_succeeds :
    (exOpen.k8055d 1).DevNo = 1 ∧ (exOpen.k8055d 1).device_handle = some 107 ∧
      (OpenDevice exOpen 1 exDevices exOpenPath2).2 = 0 ∧
      ((OpenDevice exOpen 1 exDevices exOpenPath2).1.k8055d 1).device_handle = some 207 ∧
      (OpenDevice exOpen 1 exDevices exOpenPath2).1.calls =
        [HidCall.hid_init, HidCall.hid_enumerate, HidCall.hid_open_path 7,
          HidCall.hid_set_nonblocking (some 107), HidCall.hid_enumerate,
          HidCall.hid_open_path 7, HidCall.hid_set_nonblocking (some 207)] := by
  decide

/-- C13, amended: for an address `a` in [0,3] whose slot is already open, a second
`OpenDevice(a)` does not fail while a device with product id `0x5500 + a` is enumerated.  It
returns 0; its transport calls are `hid_enumerate`, `hid_open_path` on the first such device
and `hid_set_nonblocking` on the handle returned (after the one-time `hid_init`, if that has
not run); the slot is the current device and stays open at address `a`, its handle and
`connected_device` are the handle the transport returns for this open, and the output register,
the input buffer and the other slots are unchanged. -/
theorem C13_second_open_reopens (s : State) (a : Int) (i : Fin 4)
    (devices : List hid_device_info) (hid_open_path : Nat → Option Nat) (dev : hid_device_info)
    (hai : ((i : Nat) : Int) = a) (hopen : (s.k8055d i).DevNo = a)
    (hf : findBoard a devices = some dev) :
    (OpenDevice s a devices hid_open_path).2 = 0 ∧
      (OpenDevice s a devices hid_open_path).1.calls =
        (if s.Done then s.calls else s.calls ++ [HidCall.hid_init]) ++
          [HidCall.hid_enumerate, HidCall.hid_open_path dev.path,
            HidCall.hid_set_nonblocking (hid_open_path dev.path)] ∧
      (OpenDevice s a devices hid_open_path).1.CurrDev = some i ∧
      ((OpenDevice s a devices hid_open_path).1.k8055d i).DevNo = (s.k8055d i).DevNo ∧
      ((OpenDevice s a devices hid_open_path).1.k8055d i).device_handle =
        hid_open_path dev.path ∧
      (OpenDevice s a devices hid_open_path).1.connected_device = hid_open_path dev.path ∧
      ((OpenDevice s a devices hid_open_path).1.k8055d i).data_out = (s.k8055d i).data_out ∧
      ((OpenDevice s a devices hid_open_path).1.k8055d i).data_in = (s.k8055d i).data_in ∧
      (∀ j, j ≠ i → (OpenDevice s a devices hid_open_path).1.k8055d j = s.k8055d j) := by
  obtain ⟨s1, h1, h2, h3, h4, h5, h6, h7, h8, h9⟩ :=
    OpenDevice_found s a i devices hid_open_path dev hai hf
  have hcalls : (init_usb s).calls =
      (if s.Done then s.calls else s.calls ++ [HidCall.hid_init]) := by
    simp only [init_usb]
    split_ifs <;> simp [State.log]
  rw [h1]
  exact ⟨rfl, by rw [← hcalls]; exact h9, h2, by rw [hopen]; exact h4, h5, h3, h6, h7, h8⟩

/-- Witness for C13: the second `OpenDevice(1)` on the board open at address 1. -/
theorem C13_second_open_reopens_witness :
    (((1 : Fin 4) : Nat) : Int) = 1 ∧ (exOpen.k8055d 1).DevNo = 1 ∧
      findBoard 1 exDevices = some { path := 7, vendor_id := 0x10cf, product_id := 0x5501 } ∧
      (OpenDevice exOpen 1 exDevices exOpenPath2).2 = 0 ∧
      (OpenDevice exOpen 1 exDevices exOpenPath2).1.calls =
        (if exOpen.Done then exOpen.calls else exOpen.calls ++ [HidCall.hid_init]) ++
          [HidCall.hid_enumerate, HidCall.hid_open_path 7,
            HidCall.hid_set_nonblocking (exOpenPath2 7)] ∧
      (OpenDevice exOpen 1 exDevices exOpenPath2).1.CurrDev = some 1 ∧
      ((OpenDevice exOpen 1 exDevices exOpenPath2).1.k8055d 1).DevNo = (exOpen.k8055d 1).DevNo ∧
      ((OpenDevice exOpen 1 exDevices exOpenPath2).1.k8055d 1).device_handle =
        exOpenPath2 7 ∧
      (OpenDevice exOpen 1 exDevices exOpenPath2).1.connected_device = exOpenPath2 7 ∧
      ((OpenDevice exOpen 1 exDevices exOpenPath2).1.k8055d 1).data_out =
        (exOpen.k8055d 1).data_out ∧
      ((OpenDevice exOpen 1 exDevices exOpenPath2).1.k8055d 1).data_in =
        (exOpen.k8055d 1).data_in ∧
      (∀ j, j ≠ 1 → (OpenDevice exOpen 1 exDevices exOpenPath2).1.k8055d j = exOpen.k8055d j) :=
  ⟨rfl, rfl, rfl,
    C13_second_open_reopens exOpen 1 1 exDevices exOpenPath2
      { path := 7, vendor_id := 0x10cf, product_id := 0x5501 } rfl rfl rfl⟩

/-- C14: `CloseDevice` on an open current session hands the handle of the session to
`hid_close` once, marks the slot closed (`DevNo = -1`, null handle) and returns 0; a second
`CloseDevice` returns 0 and leaves the whole state, the list of transport calls included, as it
is. -/
theorem C14_CloseDevice_idempotent (s : State) (i : Fin 4) (hcur : s.CurrDev = some i)
    (hopen : (s.k8055d i).DevNo ≠ -1) :
    ∃ s1, CloseDevice s = some (s1, 0) ∧
      s1.calls = s.calls ++ [HidCall.hid_close (s.k8055d i).device_handle] ∧
      (s1.k8055d i).DevNo = -1 ∧ (s1.k8055d i).device_handle = none ∧
      (s1.k8055d i).data_out = (s.k8055d i).data_out ∧
      (s1.k8055d i).data_in = (s.k8055d i).data_in ∧
      (∀ j, j ≠ i → s1.k8055d j = s.k8055d j) ∧
      CloseDevice s1 = some (s1, 0) := by
  simp only [CloseDevice, hcur, if_neg hopen]
  refine ⟨_, rfl, ?_, ?_, ?_, ?_, ?_, ?_, ?_⟩
  · simp [State.setDev, State.log]
  · simp [State.setDev, State.log]
  · simp [State.setDev, State.log]
  · simp [State.setDev, State.log]
  · simp [State.setDev, State.log]
  · intro j hj
    simp [State.setDev, State.log, hj]
  · simp [State.setDev, State.log, hcur]

/-- Witness for C14: closing the board open at address 1 twice. -/
theorem C14_CloseDevice_idempotent_witness :
    exOpen.CurrDev = some 1 ∧ (exOpen.k8055d 1).DevNo ≠ -1 ∧
      (exClose exOpen).calls = exOpen.calls ++ [HidCall.hid_close (some 107)] ∧
      ∃ s1, CloseDevice exOpen = some (s1, 0) ∧
        s1.calls = exOpen.calls ++ [HidCall.hid_close (exOpen.k8055d 1).device_handle] ∧
        (s1.k8055d 1).DevNo = -1 ∧ (s1.k8055d 1).device_handle = none ∧
        (s1.k8055d 1).data_out = (exOpen.k8055d 1).data_out ∧
        (s1.k8055d 1).data_in = (exOpen.k8055d 1).data_in ∧
        (∀ j, j ≠ 1 → s1.k8055d j = exOpen.k8055d j) ∧
        CloseDevice s1 = some (s1, 0) :=
  ⟨rfl, by decide, by decide, C14_CloseDevice_idempotent exOpen 1 rfl (by decide)⟩

/-- C15, as stated, fails: board 1 is opened, `SetAllValues(0xff, 0x80, 0x40)` is written,
the board is closed and opened again; the second `OpenDevice(1)` returns 0 and the output
register still holds `0xff, 0x80, 0x40`.  In the same way the input buffer of `exAfterRead`
survives `CloseDevice` and `OpenDevice`. -/
theorem C15_register_survives_reopen :
    ((exClose exAfterSetAll).k8055d 1).DevNo = -1 ∧
      (OpenDevice (exClose exAfterSetAll) 1 exDevices exOpenPath).2 = 0 ∧
      (exReopened.k8055d 1).data_out = [5, 0xff, 0x80, 0x40, 0, 0, 0, 0, 0] ∧
      (OpenDevice (exClose exAfterRead) 1 exDevices exOpenPath).2 = 0 ∧
      ((OpenDevice (exClose exAfterRead) 1 exDevices exOpenPath).1.k8055d 1).data_in =
        [0x11, 2, 30, 40, 0x34, 0x12, 0xff, 0xff, 0] := by
  decide

/-- C15, amended: after every successful `OpenDevice(a)` the output register and the input
buffer of the slot are what they were before the call, since `OpenDevice` stores nothing in
them; they are all zero at program start, so they are all zero after a successful open only if
nothing was stored in the slot before. -/
theorem C15_open_keeps_buffers (s : State) (a : Int) (devices : List hid_device_info)
    (hid_open_path : Nat → Option Nat)
    (hok : (OpenDevice s a devices hid_open_path).2 = 0) :
    ∃ i : Fin 4, ((i : Nat) : Int) = a ∧
      (OpenDevice s a devices hid_open_path).1.CurrDev = some i ∧
      ((OpenDevice s a devices hid_open_path).1.k8055d i).DevNo = a ∧
      ((OpenDevice s a devices hid_open_path).1.k8055d i).data_out = (s.k8055d i).data_out ∧
      ((OpenDevice s a devices hid_open_path).1.k8055d i).data_in = (s.k8055d i).data_in ∧
      (State.initial.k8055d i).data_out = [0, 0, 0, 0, 0, 0, 0, 0, 0] ∧
      (State.initial.k8055d i).data_in = [0, 0, 0, 0, 0, 0, 0, 0, 0] := by
  by_cases hr : 0 ≤ a ∧ a < (K8055_MAX_DEV : Int)
  · have hlt : a.toNat < 4 := by
      simp only [K8055_MAX_DEV] at hr; omega
    have hai : (((⟨a.toNat, hlt⟩ : Fin 4) : Nat) : Int) = a := by
      simp only; omega
    cases hf : findBoard a devices with
    | none =>
      obtain ⟨s1, h1, _⟩ := OpenDevice_not_found s a ⟨a.toNat, hlt⟩ devices hid_open_path hai hf
      rw [h1] at hok
      exact absurd hok (by simp [K8055_ERROR])
    | some dev =>
      obtain ⟨s1, h1, h2, _, h4, _, h6, h7, _⟩ :=
        OpenDevice_found s a ⟨a.toNat, hlt⟩ devices hid_open_path dev hai hf
      rw [h1]
      exact ⟨⟨a.toNat, hlt⟩, hai, h2, h4, h6, h7, rfl, rfl⟩
  · have hO : OpenDevice s a devices hid_open_path = (init_usb s, K8055_ERROR) := by
      simp only [OpenDevice, dif_neg hr]
    rw [hO] at hok
    exact absurd hok (by simp [K8055_ERROR])

/-- Witness for C15: the second `OpenDevice(1)` after `SetAllValues` and `CloseDevice`. -/
theorem C15_open_keeps_buffers_witness :
    (OpenDevice (exClose exAfterSetAll) 1 exDevices exOpenPath).2 = 0 ∧
      ∃ i : Fin 4, ((i : Nat) : Int) = 1 ∧
        (OpenDevice (exClose exAfterSetAll) 1 exDevices exOpenPath).1.CurrDev = some i ∧
        ((OpenDevice (exClose exAfterSetAll) 1 exDevices exOpenPath).1.k8055d i).DevNo = 1 ∧
        ((OpenDevice (exClose exAfterSetAll) 1 exDevices exOpenPath).1.k8055d i).data_out =
          ((exClose exAfterSetAll).k8055d i).data_out ∧
        ((OpenDevice (exClose exAfterSetAll) 1 exDevices exOpenPath).1.k8055d i).data_in =
          ((exClose exAfterSetAll).k8055d i).data_in ∧
        (State.initial.k8055d i).data_out = [0, 0, 0, 0, 0, 0, 0, 0, 0] ∧
        (State.initial.k8055d i).data_in = [0, 0, 0, 0, 0, 0, 0, 0, 0] :=
  ⟨by decide, C15_open_keeps_buffers (exClose exAfterSetAll) 1 exDevices exOpenPath (by decide)⟩

/-- C16: `OpenDevice(1)` binds to a device of another vendor.  With only a device of vendor
`0x1234` and product id `0x5501` enumerated it returns 0 and opens that device; with that
device listed ahead of the Velleman board (vendor `0x10cf`) it opens the other vendor's path 3
and not the board's path 7. -/
theorem C16_vendor_id_not_checked :
    (OpenDevice State.initial 1 exDevicesOther exOpenPath).2 = 0 ∧
      (OpenDevice State.initial 1 exDevicesOther exOpenPath).1.calls =
        [HidCall.hid_init, HidCall.hid_enumerate, HidCall.hid_open_path 3,
          HidCall.hid_set_nonblocking (some 103)] ∧
      (OpenDevice State.initial 1 exDevicesMixed exOpenPath).2 = 0 ∧
      ((OpenDevice State.initial 1 exDevicesMixed exOpenPath).1.k8055d 1).device_handle =
        some 103 ∧
      (OpenDevice State.initial 1 exDevicesMixed exOpenPath).1.calls =
        [HidCall.hid_init, HidCall.hid_enumerate, HidCall.hid_open_path 3,
          HidCall.hid_set_nonblocking (some 103)] := by
  decide

/-- C19: `SetCurrentDevice` tests `DevNo != 0`, while an open board has `DevNo` equal to its
address and a closed slot has `DevNo = -1`.  With board 0 open, `SetCurrentDevice(0)` returns
the error value; with board 1 closed and board 2 current, `SetCurrentDevice(1)` returns 1 and
makes the closed slot current.  For a slot never opened (`DevNo = 0`) it returns the error
value. -/
theorem C19_SetCurrentDevice_tests_zero :
    (exOpen0.k8055d 0).DevNo = 0 ∧ (exOpen0.k8055d 0).device_handle = some 105 ∧
      (SetCurrentDevice exOpen0 0).2 = K8055_ERROR ∧
      (exClosed1Open2.k8055d 1).DevNo = -1 ∧ exClosed1Open2.CurrDev = some 2 ∧
      (SetCurrentDevice exClosed1Open2 1).2 = 1 ∧
      (SetCurrentDevice exClosed1Open2 1).1.CurrDev = some 1 ∧
      (exClosed1Open2.k8055d 3).DevNo = 0 ∧
      (SetCurrentDevice exClosed1Open2 3).2 = K8055_ERROR := by
  decide

/-! ### Reading all values, write results, and what an operation leaves alone -/

/-- On an open session `ReadK8055Data` makes one `hid_read` call, on the handle of the
session. -/
theorem ReadK8055Data_open (s : State) (i : Fin 4) (rd : HidRead) (hcur : s.CurrDev = some i)
    (hopen : (s.k8055d i).DevNo ≠ -1) :
    ∃ s1 r, ReadK8055Data s rd = some (s1, r) ∧
      s1.calls = s.calls ++ [HidCall.hid_read (s.k8055d i).device_handle] ∧
      s1.CurrDev = some i ∧ (r = 0 ∨ r = K8055_ERROR) := by
  simp only [ReadK8055Data, hcur, if_neg hopen]
  split_ifs
  · exact ⟨_, _, rfl, by simp [State.setDev, State.log], by simp [State.setDev, State.log, hcur],
      Or.inl rfl⟩
  · exact ⟨_, _, rfl, by simp [State.setDev, State.log], by simp [State.setDev, State.log, hcur],
      Or.inl rfl⟩
  · exact ⟨_, _, rfl, by simp [State.setDev, State.log], by simp [State.setDev, State.log, hcur],
      Or.inr rfl⟩
  · exact ⟨_, _, rfl, by simp [State.log], by simp [State.log, hcur], Or.inl rfl⟩
  · exact ⟨_, _, rfl, by simp [State.log], by simp [State.log, hcur], Or.inr rfl⟩

/-- C17: on an open session `ReadAllValues` makes exactly one `hid_read` call.  When the read
succeeds, the five values it stores come from the input buffer as that read leaves it: the
digital value by the decode expression on byte 0, analog 1 from byte 2, analog 2 from byte 3,
counter 1 from bytes 4 and 5, counter 2 from bytes 6 and 7; they are the values `ReadAllDigital`,
`ReadAnalogChannel(1)`, `ReadAnalogChannel(2)`, `ReadCounter(1)` and `ReadCounter(2)` return on
the same read.  When the read fails nothing is stored.  On a closed session it fails without a
read and stores nothing. -/
theorem C17_ReadAllValues_one_buffer (s : State) (i : Fin 4) (rd : HidRead)
    (hcur : s.CurrDev = some i) :
    ((s.k8055d i).DevNo ≠ -1 →
      ∃ s1 r out, ReadAllValues s rd = some (s1, r, out) ∧
        s1.calls = s.calls ++ [HidCall.hid_read (s.k8055d i).device_handle] ∧
        ReadK8055Data s rd = some (s1, r) ∧
        (r = 0 →
          out = some
            (((((byteAt (s1.k8055d i).data_in 0 >>> 4) &&& 0x03)
              ||| ((byteAt (s1.k8055d i).data_in 0 <<< 2) &&& 0x04)
              ||| ((byteAt (s1.k8055d i).data_in 0 >>> 3) &&& 0x18) : Nat) : Int),
             (byteAt (s1.k8055d i).data_in 2 : Int), (byteAt (s1.k8055d i).data_in 3 : Int),
             readShort (s1.k8055d i).data_in 4, readShort (s1.k8055d i).data_in 6) ∧
          ∃ d a1 a2 c1 c2, out = some (d, a1, a2, c1, c2) ∧
            ReadAllDigital s rd = some (s1, d) ∧
            ReadAnalogChannel s 1 rd = some (s1, a1) ∧
            ReadAnalogChannel s 2 rd = some (s1, a2) ∧
            ReadCounter s 1 rd = some (s1, c1) ∧
            ReadCounter s 2 rd = some (s1, c2)) ∧
        (r ≠ 0 → r = K8055_ERROR ∧ out = none)) ∧
    ((s.k8055d i).DevNo = -1 → ReadAllValues s rd = some (s, K8055_ERROR, none)) := by
  constructor
  · intro hopen
    obtain ⟨s1, r, h1, h2, h3, h4⟩ := ReadK8055Data_open s i rd hcur hopen
    by_cases hr : r = 0
    · subst hr
      refine ⟨s1, 0, some ((decodeDigital (byteAt (s1.k8055d i).data_in 0) : Int),
        (byteAt (s1.k8055d i).data_in ANALOG_1_OFFSET : Int),
        (byteAt (s1.k8055d i).data_in ANALOG_2_OFFSET : Int),
        readShort (s1.k8055d i).data_in COUNTER_1_OFFSET,
        readShort (s1.k8055d i).data_in COUNTER_2_OFFSET),
        by simp only [ReadAllValues, h1, h3, if_true], h2, h1, ?_, ?_⟩
      · intro _
        refine ⟨by simp [decodeDigital, ANALOG_1_OFFSET, ANALOG_2_OFFSET, COUNTER_1_OFFSET,
          COUNTER_2_OFFSET], _, _, _, _, _, rfl, ?_, ?_, ?_, ?_, ?_⟩
        · simp [ReadAllDigital, h1, h3]
        · simp [ReadAnalogChannel, h1, h3]
        · simp [ReadAnalogChannel, h1, h3]
        · simp [ReadCounter, h1, h3]
        · simp [ReadCounter, h1, h3]
      · intro h; exact absurd rfl h
    · have hre : r = K8055_ERROR := h4.resolve_left hr
      have hv : ReadAllValues s rd = some (s1, r, none) := by
        simp only [ReadAllValues, h1, if_neg hr]
        rw [hre]
      refine ⟨s1, r, none, hv, h2, h1, ?_, ?_⟩
      · intro h; exact absurd h hr
      · intro _; exact ⟨hre, rfl⟩
  · intro hclosed
    simp [ReadAllValues, ReadK8055Data, hcur, hclosed, K8055_ERROR]

/-- Witness for C17: the read `exRead` on the board open at address 1. -/
theorem C17_ReadAllValues_one_buffer_witness :
    exOpen.CurrDev = some 1 ∧ (exOpen.k8055d 1).DevNo ≠ -1 ∧
      (ReadAllValues exOpen exRead).map (fun p => p.2) =
        some (0, some (0b00000101, 30, 40, 0x1234, -1)) ∧
      ∃ s1 r out, ReadAllValues exOpen exRead = some (s1, r, out) ∧
        s1.calls = exOpen.calls ++ [HidCall.hid_read (exOpen.k8055d 1).device_handle] ∧
        ReadK8055Data exOpen exRead = some (s1, r) :=
  ⟨rfl, by decide, rfl,
    let ⟨s1, r, out, h1, h2, h3, _⟩ :=
      (C17_ReadAllValues_one_buffer exOpen 1 exRead rfl).1 (by decide)
    ⟨s1, r, out, h1, h2, h3⟩⟩

/-- C18: on an open session, an output operation with a valid index returns 0 if and only if
`hid_write` returns 9, and the error value for every other result of the write. -/
theorem C18_success_iff_nine_written (s : State) (i : Fin 4) (op : OutputOp) (res : Int)
    (hcur : s.CurrDev = some i) (hopen : (s.k8055d i).DevNo ≠ -1)
    (hlen : (s.k8055d i).data_out.length = 9) (hvalid : op.valid) :
    ∃ s1 r, op.run s res = some (s1, r) ∧ (r = 0 ↔ res = 9) ∧
      (res ≠ 9 → r = K8055_ERROR) := by
  obtain ⟨s1, r, _, h1, _, _, h4, h5⟩ := OutputOp_run_open s i op res hcur hopen hlen hvalid
  exact ⟨s1, r, h1, h4, fun h => h5.resolve_left fun h0 => h (h4.1 h0)⟩

/-- Witness for C18: `SetAllDigital` on the board open at address 1 with a short write of 8
bytes. -/
theorem C18_success_iff_nine_written_witness :
    exOpen.CurrDev = some 1 ∧ (exOpen.k8055d 1).DevNo ≠ -1 ∧
      (exOpen.k8055d 1).data_out.length = 9 ∧ OutputOp.SetAllDigital.valid ∧
      (SetAllDigital exOpen 8).map Prod.snd = some K8055_ERROR ∧
      (SetAllDigital exOpen 9).map Prod.snd = some 0 ∧
      (SetAllDigital exOpen (-1)).map Prod.snd = some K8055_ERROR ∧
      ∃ s1 r, OutputOp.SetAllDigital.run exOpen 8 = some (s1, r) ∧ (r = 0 ↔ (8 : Int) = 9) ∧
        ((8 : Int) ≠ 9 → r = K8055_ERROR) :=
  ⟨rfl, by decide, rfl, trivial, by decide, by decide, by decide,
    C18_success_iff_nine_written exOpen 1 OutputOp.SetAllDigital 8 rfl (by decide) rfl trivial⟩

@[simp] theorem setOut_data_in (s : State) (i : Fin 4) (k v : Nat) :
    ((s.setOut i k v).k8055d i).data_in = (s.k8055d i).data_in := by
  simp [State.setOut, State.setDev]

theorem setOut_other (s : State) (i j : Fin 4) (k v : Nat) (h : j ≠ i) :
    (s.setOut i k v).k8055d j = s.k8055d j := by
  simp [State.setOut, State.setDev, h]

/-- `WriteK8055Data` changes nothing but `data_out[0]` of the current slot and the list of
transport calls. -/
theorem WriteK8055Data_frame (s : State) (i : Fin 4) (cmd : Nat) (res : Int)
    (hcur : s.CurrDev = some i) :
    ∃ s1 r, WriteK8055Data s cmd res = some (s1, r) ∧
      (∀ k, k ≠ 0 → byteAt (s1.k8055d i).data_out k = byteAt (s.k8055d i).data_out k) ∧
      (s1.k8055d i).data_in = (s.k8055d i).data_in ∧
      (∀ j, j ≠ i → s1.k8055d j = s.k8055d j) := by
  by_cases hopen : (s.k8055d i).DevNo = -1
  · exact ⟨s, K8055_ERROR, WriteK8055Data_closed s i cmd res hcur hopen, fun _ _ => rfl, rfl,
      fun _ _ => rfl⟩
  · simp only [WriteK8055Data, hcur, if_neg hopen]
    split_ifs
    · refine ⟨_, _, rfl, ?_, ?_, ?_⟩
      · intro k hk
        simp [State.setDev, State.log, byteAt_set_ne _ 0 k cmd (Ne.symm hk)]
      · simp [State.setDev, State.log]
      · intro j hj
        simp [State.setDev, State.log, hj]
    · refine ⟨_, _, rfl, ?_, ?_, ?_⟩
      · intro k hk
        simp [State.setDev, State.log, byteAt_set_ne _ 0 k cmd (Ne.symm hk)]
      · simp [State.setDev, State.log]
      · intro j hj
        simp [State.setDev, State.log, hj]

/-- C20: `ResetCounter(n)` leaves the digital mask, both analog values and both debounce
bytes of the register as they are; `SetCounterDebounceTime(n, ms)` stores the debounce byte of
counter `n` and leaves the digital mask, both analog values and the debounce byte of the other
counter as they are; `OutputAnalogChannel(ch, v)` stores analog value `ch` and leaves the
digital mask, the other analog value and both debounce bytes as they are.  None of them changes
the input buffer or another slot.  (Register bytes: digital mask `data_out[1]`, analog 1 and 2
`data_out[2]` and `data_out[3]`, debounce 1 and 2 `data_out[6]` and `data_out[7]`.) -/
theorem C20_frame (s : State) (i : Fin 4) (n ch ms v res : Int) (undef : Nat)
    (hcur : s.CurrDev = some i) (hlen : (s.k8055d i).data_out.length = 9)
    (hn : n = 1 ∨ n = 2) (hch : ch = 1 ∨ ch = 2) :
    (∃ s1 r, ResetCounter s n res = some (s1, r) ∧
      byteAt (s1.k8055d i).data_out 1 = byteAt (s.k8055d i).data_out 1 ∧
      byteAt (s1.k8055d i).data_out 2 = byteAt (s.k8055d i).data_out 2 ∧
      byteAt (s1.k8055d i).data_out 3 = byteAt (s.k8055d i).data_out 3 ∧
      byteAt (s1.k8055d i).data_out 6 = byteAt (s.k8055d i).data_out 6 ∧
      byteAt (s1.k8055d i).data_out 7 = byteAt (s.k8055d i).data_out 7 ∧
      (s1.k8055d i).data_in = (s.k8055d i).data_in ∧
      (∀ j, j ≠ i → s1.k8055d j = s.k8055d j)) ∧
    (∃ s1 r, SetCounterDebounceTime s n ms undef res = some (s1, r) ∧
      byteAt (s1.k8055d i).data_out (5 + n).toNat = debounceByte ms undef ∧
      byteAt (s1.k8055d i).data_out 1 = byteAt (s.k8055d i).data_out 1 ∧
      byteAt (s1.k8055d i).data_out 2 = byteAt (s.k8055d i).data_out 2 ∧
      byteAt (s1.k8055d i).data_out 3 = byteAt (s.k8055d i).data_out 3 ∧
      byteAt (s1.k8055d i).data_out (8 - n).toNat = byteAt (s.k8055d i).data_out (8 - n).toNat ∧
      (s1.k8055d i).data_in = (s.k8055d i).data_in ∧
      (∀ j, j ≠ i → s1.k8055d j = s.k8055d j)) ∧
    (∃ s1 r, OutputAnalogChannel s ch v res = some (s1, r) ∧
      byteAt (s1.k8055d i).data_out (1 + ch).toNat = toUChar v ∧
      byteAt (s1.k8055d i).data_out 1 = byteAt (s.k8055d i).data_out 1 ∧
      byteAt (s1.k8055d i).data_out (4 - ch).toNat = byteAt (s.k8055d i).data_out (4 - ch).toNat ∧
      byteAt (s1.k8055d i).data_out 6 = byteAt (s.k8055d i).data_out 6 ∧
      byteAt (s1.k8055d i).data_out 7 = byteAt (s.k8055d i).data_out 7 ∧
      (s1.k8055d i).data_in = (s.k8055d i).data_in ∧
      (∀ j, j ≠ i → s1.k8055d j = s.k8055d j)) := by
  refine ⟨?_, ?_, ?_⟩
  · obtain ⟨s1, r, h1, h2, h3, h4⟩ := WriteK8055Data_frame
      ((s.setOut i 0 ((0x02 + toUChar n) % 256)).setOut i (3 + n).toNat 0x00) i
      (byteAt (((s.setOut i 0 ((0x02 + toUChar n) % 256)).setOut i (3 + n).toNat 0x00).k8055d
        i).data_out 0) res (by simp [hcur])
    refine ⟨s1, r, by simp only [ResetCounter, if_pos hn, hcur, h1], ?_, ?_, ?_, ?_, ?_, ?_, ?_⟩
    · rw [h2 1 (by norm_num)]
      rcases hn with h | h <;> subst h <;> simp [byteAt_set_ne]
    · rw [h2 2 (by norm_num)]
      rcases hn with h | h <;> subst h <;> simp [byteAt_set_ne]
    · rw [h2 3 (by norm_num)]
      rcases hn with h | h <;> subst h <;> simp [byteAt_set_ne]
    · rw [h2 6 (by norm_num)]
      rcases hn with h | h <;> subst h <;> simp [byteAt_set_ne]
    · rw [h2 7 (by norm_num)]
      rcases hn with h | h <;> subst h <;> simp [byteAt_set_ne]
    · rw [h3]; simp
    · intro j hj
      rw [h4 j hj, setOut_other _ _ _ _ _ hj, setOut_other _ _ _ _ _ hj]
  · obtain ⟨s1, r, h1, h2, h3, h4⟩ := WriteK8055Data_frame
      ((s.setOut i 0 (toUChar n)).setOut i (5 + n).toNat (debounceByte ms undef)) i
      (byteAt (((s.setOut i 0 (toUChar n)).setOut i (5 + n).toNat
        (debounceByte ms undef)).k8055d i).data_out 0) res (by simp [hcur])
    refine ⟨s1, r, by simp only [SetCounterDebounceTime, if_pos hn, hcur, h1],
      ?_, ?_, ?_, ?_, ?_, ?_, ?_⟩
    · rcases hn with h | h <;> subst h
      · rw [show ((5 : Int) + 1).toNat = 6 by decide] at h2 ⊢
        rw [h2 6 (by norm_num)]
        simp [byteAt_set_eq, hlen]
      · rw [show ((5 : Int) + 2).toNat = 7 by decide] at h2 ⊢
        rw [h2 7 (by norm_num)]
        simp [byteAt_set_eq, hlen]
    · rw [h2 1 (by norm_num)]
      rcases hn with h | h <;> subst h <;> simp [byteAt_set_ne]
    · rw [h2 2 (by norm_num)]
      rcases hn with h | h <;> subst h <;> simp [byteAt_set_ne]
    · rw [h2 3 (by norm_num)]
      rcases hn with h | h <;> subst h <;> simp [byteAt_set_ne]
    · rcases hn with h | h <;> subst h
      · rw [show ((8 : Int) - 1).toNat = 7 by decide, h2 7 (by norm_num)]
        simp [byteAt_set_ne]
      · rw [show ((8 : Int) - 2).toNat = 6 by decide, h2 6 (by norm_num)]
        simp [byteAt_set_ne]
    · rw [h3]; simp
    · intro j hj
      rw [h4 j hj, setOut_other _ _ _ _ _ hj, setOut_other _ _ _ _ _ hj]
  · rcases hch with h | h <;> subst h
    · obtain ⟨s1, r, h1, h2, h3, h4⟩ := WriteK8055Data_frame
        (s.setOut i ANALOG_1_OFFSET (toUChar v)) i CMD_SET_ANALOG_DIGITAL res (by simp [hcur])
      refine ⟨s1, r, by simp [OutputAnalogChannel, hcur, h1], ?_, ?_, ?_, ?_, ?_, ?_, ?_⟩
      · rw [show ((1 : Int) + 1).toNat = 2 by decide, h2 2 (by norm_num)]
        simp [ANALOG_1_OFFSET, byteAt_set_eq, hlen]
      · rw [h2 1 (by norm_num)]; simp [ANALOG_1_OFFSET, byteAt_set_ne]
      · rw [show ((4 : Int) - 1).toNat = 3 by decide, h2 3 (by norm_num)]
        simp [ANALOG_1_OFFSET, byteAt_set_ne]
      · rw [h2 6 (by norm_num)]; simp [ANALOG_1_OFFSET, byteAt_set_ne]
      · rw [h2 7 (by norm_num)]; simp [ANALOG_1_OFFSET, byteAt_set_ne]
      · rw [h3]; simp
      · intro j hj
        rw [h4 j hj, setOut_other _ _ _ _ _ hj]
    · obtain ⟨s1, r, h1, h2, h3, h4⟩ := WriteK8055Data_frame
        (s.setOut i ANALOG_2_OFFSET (toUChar v)) i CMD_SET_ANALOG_DIGITAL res (by simp [hcur])
      refine ⟨s1, r, by simp [OutputAnalogChannel, hcur, h1], ?_, ?_, ?_, ?_, ?_, ?_, ?_⟩
      · rw [show ((1 : Int) + 2).toNat = 3 by decide, h2 3 (by norm_num)]
        simp [ANALOG_2_OFFSET, byteAt_set_eq, hlen]
      · rw [h2 1 (by norm_num)]; simp [ANALOG_2_OFFSET, byteAt_set_ne]
      · rw [show ((4 : Int) - 2).toNat = 2 by decide, h2 2 (by norm_num)]
        simp [ANALOG_2_OFFSET, byteAt_set_ne]
      · rw [h2 6 (by norm_num)]; simp [ANALOG_2_OFFSET, byteAt_set_ne]
      · rw [h2 7 (by norm_num)]; simp [ANALOG_2_OFFSET, byteAt_set_ne]
      · rw [h3]; simp
      · intro j hj
        rw [h4 j hj, setOut_other _ _ _ _ _ hj]

theorem C20_frame_witness :
    exAfterSetAll.CurrDev = some 1 ∧ (exAfterSetAll.k8055d 1).data_out.length = 9 ∧
    (exAfterSetAll.k8055d 1).data_out = [5, 0xff, 0x80, 0x40, 0, 0, 0, 0, 0] ∧
    (ResetCounter exAfterSetAll 2 9).map (fun p => (p.1.k8055d 1).data_out) =
      some [4, 0xff, 0x80, 0x40, 0, 0, 0, 0, 0] ∧
    (SetCounterDebounceTime exAfterSetAll 2 1000 0 9).map (fun p => (p.1.k8055d 1).data_out) =
      some [2, 0xff, 0x80, 0x40, 0, 0, 0, 93, 0] ∧
    (OutputAnalogChannel exAfterSetAll 2 77 9).map (fun p => (p.1.k8055d 1).data_out) =
      some [5, 0xff, 0x80, 77, 0, 0, 0, 0, 0] ∧
    (∃ s1 r, ResetCounter exAfterSetAll 2 9 = some (s1, r) ∧
      byteAt (s1.k8055d 1).data_out 1 = byteAt (exAfterSetAll.k8055d 1).data_out 1) ∧
    (∃ s1 r, SetCounterDebounceTime exAfterSetAll 2 1000 0 9 = some (s1, r) ∧
      byteAt (s1.k8055d 1).data_out ((5 : Int) + 2).toNat = debounceByte 1000 0) ∧
    (∃ s1 r, OutputAnalogChannel exAfterSetAll 2 77 9 = some (s1, r) ∧
      byteAt (s1.k8055d 1).data_out ((1 : Int) + 2).toNat = toUChar 77) :=
  ⟨rfl, rfl, rfl, rfl, by decide!, rfl,
    let ⟨s1, r, h1, h2, _⟩ :=
      (C20_frame exAfterSetAll 1 2 2 1000 77 9 0 rfl rfl (Or.inr rfl) (Or.inr rfl)).1
    ⟨s1, r, h1, h2⟩,
    let ⟨s1, r, h1, h2, _⟩ :=
      (C20_frame exAfterSetAll 1 2 2 1000 77 9 0 rfl rfl (Or.inr rfl) (Or.inr rfl)).2.1
    ⟨s1, r, h1, h2⟩,
    let ⟨s1, r, h1, h2, _⟩ :=
      (C20_frame exAfterSetAll 1 2 2 1000 77 9 0 rfl rfl (Or.inr rfl) (Or.inr rfl)).2.2
    ⟨s1, r, h1, h2⟩⟩

/-! ### The digital input bits -/

/-- The decoded digital value is below 32, whatever the wire byte. -/
theorem decodeDigital_lt (b0 : Nat) : decodeDigital b0 < 32 := by
  have h1 : (b0 >>> 4) &&& 0x03 < 2 ^ 5 := lt_of_le_of_lt Nat.and_le_right (by norm_num)
  have h2 : (b0 <<< 2) &&& 0x04 < 2 ^ 5 := lt_of_le_of_lt Nat.and_le_right (by norm_num)
  have h3 : (b0 >>> 3) &&& 0x18 < 2 ^ 5 := lt_of_le_of_lt Nat.and_le_right (by norm_num)
  exact Nat.or_lt_two_pow (Nat.or_lt_two_pow h1 h2) h3

/-- The five bits of the decoded digital value, in terms of the bits of the wire byte. -/
theorem decodeDigital_testBit (b0 : Nat) :
    (decodeDigital b0).testBit 0 = b0.testBit 4 ∧
    (decodeDigital b0).testBit 1 = b0.testBit 5 ∧
    (decodeDigital b0).testBit 2 = b0.testBit 0 ∧
    (decodeDigital b0).testBit 3 = b0.testBit 6 ∧
    (decodeDigital b0).testBit 4 = b0.testBit 7 := by
  have c3 : Nat.testBit 3 0 = true ∧ Nat.testBit 3 1 = true ∧ Nat.testBit 3 2 = false ∧
      Nat.testBit 3 3 = false ∧ Nat.testBit 3 4 = false := by decide
  have c4 : Nat.testBit 4 0 = false ∧ Nat.testBit 4 1 = false ∧ Nat.testBit 4 2 = true ∧
      Nat.testBit 4 3 = false ∧ Nat.testBit 4 4 = false := by decide
  have c18 : Nat.testBit 0x18 0 = false ∧ Nat.testBit 0x18 1 = false ∧
      Nat.testBit 0x18 2 = false ∧ Nat.testBit 0x18 3 = true ∧ Nat.testBit 0x18 4 = true := by
    decide
  obtain ⟨a0, a1, a2, a3, a4⟩ := c3
  obtain ⟨e0, e1, e2, e3, e4⟩ := c4
  obtain ⟨d0, d1, d2, d3, d4⟩ := c18
  simp only [decodeDigital, Nat.testBit_or, Nat.testBit_and, Nat.testBit_shiftRight,
    Nat.testBit_shiftLeft]
  simp [a0, a1, a2, a3, a4, e0, e1, e2, e3, e4, d0, d1, d2, d3, d4]

/-- Two wire bytes that agree in bits 0, 4, 5, 6 and 7 decode to the same value. -/
theorem decodeDigital_congr (a b : Nat) (h0 : a.testBit 0 = b.testBit 0)
    (h4 : a.testBit 4 = b.testBit 4) (h5 : a.testBit 5 = b.testBit 5)
    (h6 : a.testBit 6 = b.testBit 6) (h7 : a.testBit 7 = b.testBit 7) :
    decodeDigital a = decodeDigital b := by
  apply Nat.eq_of_testBit_eq
  intro j
  obtain ⟨a0, a1, a2, a3, a4⟩ := decodeDigital_testBit a
  obtain ⟨b0, b1, b2, b3, b4⟩ := decodeDigital_testBit b
  by_cases hj : j < 5
  · interval_cases j
    · rw [a0, b0, h4]
    · rw [a1, b1, h5]
    · rw [a2, b2, h0]
    · rw [a3, b3, h6]
    · rw [a4, b4, h7]
  · have hp : (32 : Nat) ≤ 2 ^ j := by
      calc (32 : Nat) = 2 ^ 5 := by norm_num
        _ ≤ 2 ^ j := Nat.pow_le_pow_right (by norm_num) (by omega)
    rw [Nat.testBit_eq_false_of_lt (lt_of_lt_of_le (decodeDigital_lt a) hp),
      Nat.testBit_eq_false_of_lt (lt_of_lt_of_le (decodeDigital_lt b) hp)]

/-- What `ReadAllDigital` returns when the read succeeds. -/
theorem ReadAllDigital_ok (s s1 : State) (rd : HidRead) (i : Fin 4)
    (hcur : s.CurrDev = some i) (hread : ReadK8055Data s rd = some (s1, 0)) :
    ReadAllDigital s rd = some (s1, (decodeDigital (byteAt (s1.k8055d i).data_in 0) : Int)) := by
  have hc1 : s1.CurrDev = some i := (ReadK8055Data_CurrDev s s1 rd 0 hread).trans hcur
  simp [ReadAllDigital, hread, hc1]

/-- The test `(rval & (1 << k)) > 0` of `ReadDigitalChannel` is the test of bit `k`. -/
theorem and_shiftLeft_pos (d k : Nat) : 0 < (d &&& (1 <<< k)) ↔ d.testBit k = true := by
  rw [Nat.one_shiftLeft, Nat.and_two_pow]
  cases h : d.testBit k
  · simp
  · simp [Nat.two_pow_pos]

/-- C21, as stated, fails in its bit 3 part: wire byte `0x08` has bit 3 set and decodes to 0,
and wire byte `0x40` has bit 3 clear and decodes to 8, which has bit 3 set.  On the board open
at address 1, `ReadAllDigital` returns 0 for a report whose byte 0 is `0x08` and 8 for a report
whose byte 0 is `0x40`. -/
theorem C21_wire_bit3_is_ignored :
    Nat.testBit 0x08 3 = true ∧ decodeDigital 0x08 = 0 ∧
      (decodeDigital 0x08).testBit 3 = false ∧
      Nat.testBit 0x40 3 = false ∧ decodeDigital 0x40 = 8 ∧
      (decodeDigital 0x40).testBit 3 = true ∧
      (ReadAllDigital exOpen { read_status := 8, bytes := [0x08, 2, 0, 0, 0, 0, 0, 0] }).map
        (fun p => p.2) = some 0 ∧
      (ReadAllDigital exOpen { read_status := 8, bytes := [0x40, 2, 0, 0, 0, 0, 0, 0] }).map
        (fun p => p.2) = some 8 :=
  ⟨by decide, by decide, by decide, by decide, by decide, by decide, rfl, rfl⟩

/-- C21, amended: when the read succeeds, bit 3 of the value `ReadAllDigital` returns is wire
bit 6 of byte 0 of the input buffer (not wire bit 3), bit 0 is wire bit 4, bit 1 is wire bit 5
and bit 2 is wire bit 0; wire bit 3 has no effect: a byte and the byte with bit 3 flipped decode
to the same value. -/
theorem C21_decoded_bit3_is_wire_bit6 (s s1 : State) (rd : HidRead) (i : Fin 4)
    (hcur : s.CurrDev = some i) (hread : ReadK8055Data s rd = some (s1, 0)) :
    ∃ d : Nat, ReadAllDigital s rd = some (s1, (d : Int)) ∧
      d.testBit 3 = (byteAt (s1.k8055d i).data_in 0).testBit 6 ∧
      d.testBit 0 = (byteAt (s1.k8055d i).data_in 0).testBit 4 ∧
      d.testBit 1 = (byteAt (s1.k8055d i).data_in 0).testBit 5 ∧
      d.testBit 2 = (byteAt (s1.k8055d i).data_in 0).testBit 0 ∧
      ∀ byte0 : Nat, decodeDigital (byte0 ^^^ 0x08) = decodeDigital byte0 := by
  obtain ⟨h0, h1, h2, h3, _⟩ := decodeDigital_testBit (byteAt (s1.k8055d i).data_in 0)
  refine ⟨_, ReadAllDigital_ok s s1 rd i hcur hread, h3, h0, h1, h2, ?_⟩
  intro byte0
  have c8 : Nat.testBit 8 0 = false ∧ Nat.testBit 8 4 = false ∧ Nat.testBit 8 5 = false ∧
      Nat.testBit 8 6 = false ∧ Nat.testBit 8 7 = false := by decide
  obtain ⟨e0, e4, e5, e6, e7⟩ := c8
  apply decodeDigital_congr
  · rw [Nat.testBit_xor, e0, Bool.xor_false]
  · rw [Nat.testBit_xor, e4, Bool.xor_false]
  · rw [Nat.testBit_xor, e5, Bool.xor_false]
  · rw [Nat.testBit_xor, e6, Bool.xor_false]
  · rw [Nat.testBit_xor, e7, Bool.xor_false]

/-- Witness for C21: the board open at address 1 reads wire byte `0b00010001`, which decodes
to `0b00000101`. -/
theorem C21_decoded_bit3_is_wire_bit6_witness :
    exOpen.CurrDev = some 1 ∧ ReadK8055Data exOpen exRead = some (exAfterRead, 0) ∧
      byteAt (exAfterRead.k8055d 1).data_in 0 = 0b00010001 ∧
      ∃ d : Nat, ReadAllDigital exOpen exRead = some (exAfterRead, (d : Int)) ∧
        d.testBit 3 = (byteAt (exAfterRead.k8055d 1).data_in 0).testBit 6 ∧
        d.testBit 0 = (byteAt (exAfterRead.k8055d 1).data_in 0).testBit 4 ∧
        d.testBit 1 = (byteAt (exAfterRead.k8055d 1).data_in 0).testBit 5 ∧
        d.testBit 2 = (byteAt (exAfterRead.k8055d 1).data_in 0).testBit 0 ∧
        ∀ byte0 : Nat, decodeDigital (byte0 ^^^ 0x08) = decodeDigital byte0 :=
  ⟨rfl, rfl, rfl, C21_decoded_bit3_is_wire_bit6 exOpen exAfterRead exRead 1 rfl rfl⟩

/-- C24: for every wire byte the decoded digital value lies in [0, 31]; its bits 0 to 4 are
wire bits 4, 5, 0, 6 and 7, so two bytes that agree in these five bits (that differ only in
wire bits 1, 2 or 3) decode to the same value.  When the read succeeds, `ReadAllDigital` returns
that value, which is not the error value -1, and `ReadDigitalChannel(c)` for `c` in [1, 5]
returns 1 if bit `c - 1` of that value is set and 0 otherwise. -/
theorem C24_decoded_value_range (s s1 : State) (rd : HidRead) (i : Fin 4) (c : Int)
    (hcur : s.CurrDev = some i) (hread : ReadK8055Data s rd = some (s1, 0))
    (hc : 1 ≤ c ∧ c ≤ 5) :
    (∀ byte0 : Nat, decodeDigital byte0 ≤ 31 ∧
      (decodeDigital byte0).testBit 0 = byte0.testBit 4 ∧
      (decodeDigital byte0).testBit 1 = byte0.testBit 5 ∧
      (decodeDigital byte0).testBit 2 = byte0.testBit 0 ∧
      (decodeDigital byte0).testBit 3 = byte0.testBit 6 ∧
      (decodeDigital byte0).testBit 4 = byte0.testBit 7) ∧
    (∀ a b : Nat, a.testBit 0 = b.testBit 0 → a.testBit 4 = b.testBit 4 →
      a.testBit 5 = b.testBit 5 → a.testBit 6 = b.testBit 6 → a.testBit 7 = b.testBit 7 →
      decodeDigital a = decodeDigital b) ∧
    (∃ d : Nat, d = decodeDigital (byteAt (s1.k8055d i).data_in 0) ∧
      ReadAllDigital s rd = some (s1, (d : Int)) ∧ d ≤ 31 ∧ (d : Int) ≠ K8055_ERROR ∧
      ∃ r, ReadDigitalChannel s c rd = some (s1, r) ∧ (r = 0 ∨ r = 1) ∧
        (r = 1 ↔ d.testBit (c - 1).toNat = true)) := by
  refine ⟨fun byte0 => ⟨Nat.le_of_lt_succ (decodeDigital_lt byte0), decodeDigital_testBit byte0⟩,
    decodeDigital_congr, _, rfl, ReadAllDigital_ok s s1 rd i hcur hread,
    Nat.le_of_lt_succ (decodeDigital_lt _), ?_, ?_⟩
  · simp only [K8055_ERROR]; omega
  · have hc6 : 0 < c ∧ c < 6 := by omega
    have hne : ¬ ((decodeDigital (byteAt (s1.k8055d i).data_in 0) : Int) = K8055_ERROR) := by
      simp only [K8055_ERROR]; omega
    simp only [ReadDigitalChannel, if_pos hc6, ReadAllDigital_ok s s1 rd i hcur hread,
      if_neg hne, Int.toNat_ofNat, and_shiftLeft_pos]
    cases hb : (decodeDigital (byteAt (s1.k8055d i).data_in 0)).testBit (c - 1).toNat
    · exact ⟨0, by simp, Or.inl rfl, by simp⟩
    · exact ⟨1, by simp, Or.inr rfl, by simp⟩

/-- Witness for C24: the board open at address 1 reads wire byte `0b00010001`, which decodes
to `0b00000101`; `ReadDigitalChannel(3)` returns 1 and `ReadDigitalChannel(2)` returns 0. -/
theorem C24_decoded_value_range_witness :
    exOpen.CurrDev = some 1 ∧ ReadK8055Data exOpen exRead = some (exAfterRead, 0) ∧
      ((1 : Int) ≤ 3 ∧ (3 : Int) ≤ 5) ∧
      ReadDigitalChannel exOpen 3 exRead = some (exAfterRead, 1) ∧
      ReadDigitalChannel exOpen 2 exRead = some (exAfterRead, 0) ∧
      ∃ d : Nat, d = decodeDigital (byteAt (exAfterRead.k8055d 1).data_in 0) ∧
        ReadAllDigital exOpen exRead = some (exAfterRead, (d : Int)) ∧ d ≤ 31 ∧
        (d : Int) ≠ K8055_ERROR ∧
        ∃ r, ReadDigitalChannel exOpen 3 exRead = some (exAfterRead, r) ∧ (r = 0 ∨ r = 1) ∧
          (r = 1 ↔ d.testBit ((3 : Int) - 1).toNat = true) :=
  ⟨rfl, rfl, by decide, rfl, rfl,
    (C24_decoded_value_range exOpen exAfterRead exRead 1 3 rfl rfl (by decide)).2.2⟩

/-! ### The report as a function of the register, and the handle it is written to -/

/-- C22: the report `WriteK8055Data` hands to the transport on an open session is
`[1, cmd, data_out[1], .., data_out[7]]`: nine bytes that depend on the command and the register
alone (not on the handle, the input buffer, the board address or the result of the write).  For
the same command, two registers that agree in bytes 1 to 7 give the same report, and two
registers that differ in the digital mask (byte 1), analog 1 (byte 2), analog 2 (byte 3),
debounce byte 1 (byte 6) or debounce byte 2 (byte 7) give different reports. -/
theorem C22_report_injective (s t : State) (i j : Fin 4) (cmd : Nat) (res res2 : Int)
    (hs : s.CurrDev = some i) (hso : (s.k8055d i).DevNo ≠ -1)
    (ht : t.CurrDev = some j) (hto : (t.k8055d j).DevNo ≠ -1) :
    ∃ s1 r1 t1 r2 rep1 rep2,
      WriteK8055Data s cmd res = some (s1, r1) ∧
      s1.calls = s.calls ++ [HidCall.hid_write s.connected_device rep1] ∧
      WriteK8055Data t cmd res2 = some (t1, r2) ∧
      t1.calls = t.calls ++ [HidCall.hid_write t.connected_device rep2] ∧
      rep1 = vPacket cmd (s.k8055d i).data_out ∧ rep2 = vPacket cmd (t.k8055d j).data_out ∧
      rep1.length = 9 ∧ rep2.length = 9 ∧
      ((∀ k, 1 ≤ k → k ≤ 7 →
        byteAt (s.k8055d i).data_out k = byteAt (t.k8055d j).data_out k) → rep1 = rep2) ∧
      (∀ k, k = 1 ∨ k = 2 ∨ k = 3 ∨ k = 6 ∨ k = 7 →
        byteAt (s.k8055d i).data_out k ≠ byteAt (t.k8055d j).data_out k → rep1 ≠ rep2) := by
  obtain ⟨s1, r1, h1, h2, _⟩ := WriteK8055Data_open s i cmd res hs hso
  obtain ⟨t1, r2, h3, h4, _⟩ := WriteK8055Data_open t j cmd res2 ht hto
  refine ⟨s1, r1, t1, r2, _, _, h1, h2, h3, h4, (vPacket_eq _ _).symm, (vPacket_eq _ _).symm,
    rfl, rfl, ?_, ?_⟩
  · intro h
    rw [h 1 (by norm_num) (by norm_num), h 2 (by norm_num) (by norm_num),
      h 3 (by norm_num) (by norm_num), h 4 (by norm_num) (by norm_num),
      h 5 (by norm_num) (by norm_num), h 6 (by norm_num) (by norm_num),
      h 7 (by norm_num) (by norm_num)]
  · intro k hk hne heq
    simp only [List.cons.injEq, and_true, true_and] at heq
    obtain ⟨e1, e2, e3, _, _, e6, e7⟩ := heq
    rcases hk with h | h | h | h | h <;> subst h
    · exact hne e1
    · exact hne e2
    · exact hne e3
    · exact hne e6
    · exact hne e7

/-- Witness for C22: command 5 on the register after `SetAllValues(0xff, 0x80, 0x40)` and on
the all-zero register of the freshly opened board. -/
theorem C22_report_injective_witness :
    exAfterSetAll.CurrDev = some 1 ∧ (exAfterSetAll.k8055d 1).DevNo ≠ -1 ∧
      exOpen.CurrDev = some 1 ∧ (exOpen.k8055d 1).DevNo ≠ -1 ∧
      vPacket 5 (exAfterSetAll.k8055d 1).data_out = [1, 5, 0xff, 0x80, 0x40, 0, 0, 0, 0] ∧
      vPacket 5 (exOpen.k8055d 1).data_out = [1, 5, 0, 0, 0, 0, 0, 0, 0] ∧
      ∃ s1 r1 t1 r2 rep1 rep2,
        WriteK8055Data exAfterSetAll 5 9 = some (s1, r1) ∧
        s1.calls = exAfterSetAll.calls ++
          [HidCall.hid_write exAfterSetAll.connected_device rep1] ∧
        WriteK8055Data exOpen 5 9 = some (t1, r2) ∧
        t1.calls = exOpen.calls ++ [HidCall.hid_write exOpen.connected_device rep2] ∧
        rep1 = vPacket 5 (exAfterSetAll.k8055d 1).data_out ∧
        rep2 = vPacket 5 (exOpen.k8055d 1).data_out :=
  ⟨rfl, by decide, rfl, by decide, by decide, by decide,
    let ⟨s1, r1, t1, r2, rep1, rep2, h1, h2, h3, h4, h5, h6, _⟩ :=
      C22_report_injective exAfterSetAll exOpen 1 1 5 9 9 rfl (by decide) rfl (by decide)
    ⟨s1, r1, t1, r2, rep1, rep2, h1, h2, h3, h4, h5, h6⟩⟩

/-- C23: after `OpenDevice(1)`, `OpenDevice(2)` and `SetCurrentDevice(1)` the current device
is board 1, whose handle is 107, and the handle of board 2 is 108.  `SetAllDigital` then hands
the report built from the register of board 1 to `hid_write` on handle 108, the handle of the
board opened last, while `ReadAllDigital` reads from handle 107.  When board 2 has been closed
before `SetCurrentDevice(1)`, `SetAllDigital` returns 0 and its report goes to handle 108 after
`hid_close` on that handle. -/
theorem C23_write_goes_to_last_opened :
    exTwoBoards.CurrDev = some 1 ∧
      (exTwoBoards.k8055d 1).DevNo = 1 ∧ (exTwoBoards.k8055d 1).device_handle = some 107 ∧
      (exTwoBoards.k8055d 2).DevNo = 2 ∧ (exTwoBoards.k8055d 2).device_handle = some 108 ∧
      exTwoBoards.calls = [HidCall.hid_init, HidCall.hid_enumerate, HidCall.hid_open_path 7,
        HidCall.hid_set_nonblocking (some 107), HidCall.hid_enumerate, HidCall.hid_open_path 8,
        HidCall.hid_set_nonblocking (some 108)] ∧
      (SetAllDigital exTwoBoards 9).map (fun p => (p.2, p.1.calls.drop 7,
          (p.1.k8055d 1).data_out, (p.1.k8055d 2).data_out)) =
        some (0, [HidCall.hid_write (some 108) [1, 5, 0xff, 0, 0, 0, 0, 0, 0]],
          [5, 0xff, 0, 0, 0, 0, 0, 0, 0], [0, 0, 0, 0, 0, 0, 0, 0, 0]) ∧
      (ReadAllDigital exTwoBoards exRead).map (fun p => (p.2, p.1.calls.drop 7)) =
        some (5, [HidCall.hid_read (some 107)]) ∧
      exBoard2Closed.CurrDev = some 1 ∧ (exBoard2Closed.k8055d 2).DevNo = -1 ∧
      (exBoard2Closed.k8055d 2).device_handle = none ∧
      (SetAllDigital exBoard2Closed 9).map (fun p => (p.2, p.1.calls.drop 7)) =
        some (0, [HidCall.hid_close (some 108),
          HidCall.hid_write (some 108) [1, 5, 0xff, 0, 0, 0, 0, 0, 0]]) := by
  decide

/-! ### Failed writes -/

/-- A write that fails, on a closed session or with a count other than 9, returns the error
value and leaves the session and bytes 1 to 8 of the register as they are. -/
theorem WriteK8055Data_fail (s : State) (i : Fin 4) (cmd : Nat) (res : Int)
    (hcur : s.CurrDev = some i) (hfail : (s.k8055d i).DevNo = -1 ∨ res ≠ 9) :
    ∃ s1, WriteK8055Data s cmd res = some (s1, K8055_ERROR) ∧ s1.CurrDev = some i ∧
      (s1.k8055d i).DevNo = (s.k8055d i).DevNo ∧
      ∀ k, k ≠ 0 → byteAt (s1.k8055d i).data_out k = byteAt (s.k8055d i).data_out k := by
  by_cases hopen : (s.k8055d i).DevNo = -1
  · exact ⟨s, WriteK8055Data_closed s i cmd res hcur hopen, hcur, rfl, fun _ _ => rfl⟩
  · have h9 : res ≠ 9 := hfail.resolve_left hopen
    have h9' : res ≠ ((PACKET_LEN : Nat) : Int) + 1 := by
      simp only [PACKET_LEN]; exact_mod_cast h9
    simp only [WriteK8055Data, hcur, if_neg hopen, if_pos h9']
    refine ⟨_, rfl, by simp [State.setDev, State.log, hcur], by simp [State.setDev, State.log],
      ?_⟩
    intro k hk
    simp [State.setDev, State.log, byteAt_set_ne _ 0 k cmd (Ne.symm hk)]

/-- C25: when the current session is closed or the write returns a count other than 9,
`WriteAllDigital`, `SetDigitalChannel`, `ClearDigitalChannel`, `OutputAnalogChannel`,
`OutputAllAnalog` and `SetAllValues` return the error value and the register holds the new
value: nothing restores the old one, and the session is as open or closed as it was.  A later
successful write, whatever its command, transmits bytes 1 to 7 of the register as it finds
them, so it transmits that value. -/
theorem C25_no_rollback (s : State) (i : Fin 4) (data c ch v data1 data2 dd a1 a2 res : Int)
    (hcur : s.CurrDev = some i) (hlen : (s.k8055d i).data_out.length = 9)
    (hfail : (s.k8055d i).DevNo = -1 ∨ res ≠ 9)
    (hc : 1 ≤ c ∧ c ≤ 8) (hch : ch = 1 ∨ ch = 2) :
    (∃ s1, WriteAllDigital s data res = some (s1, K8055_ERROR) ∧ s1.CurrDev = some i ∧
      (s1.k8055d i).DevNo = (s.k8055d i).DevNo ∧
      byteAt (s1.k8055d i).data_out 1 = toUChar data) ∧
    (∃ s1, SetDigitalChannel s c res = some (s1, K8055_ERROR) ∧ s1.CurrDev = some i ∧
      (s1.k8055d i).DevNo = (s.k8055d i).DevNo ∧
      byteAt (s1.k8055d i).data_out 1 =
        (byteAt (s.k8055d i).data_out 1 ||| (1 <<< (c - 1).toNat)) % 256) ∧
    (∃ s1, ClearDigitalChannel s c res = some (s1, K8055_ERROR) ∧ s1.CurrDev = some i ∧
      (s1.k8055d i).DevNo = (s.k8055d i).DevNo ∧
      byteAt (s1.k8055d i).data_out 1 =
        (byteAt (s.k8055d i).data_out 1 &&& not32 (1 <<< (c - 1).toNat)) % 256) ∧
    (∃ s1, OutputAnalogChannel s ch v res = some (s1, K8055_ERROR) ∧ s1.CurrDev = some i ∧
      (s1.k8055d i).DevNo = (s.k8055d i).DevNo ∧
      byteAt (s1.k8055d i).data_out (1 + ch).toNat = toUChar v) ∧
    (∃ s1, OutputAllAnalog s data1 data2 res = some (s1, K8055_ERROR) ∧ s1.CurrDev = some i ∧
      (s1.k8055d i).DevNo = (s.k8055d i).DevNo ∧
      byteAt (s1.k8055d i).data_out 2 = toUChar data1 ∧
      byteAt (s1.k8055d i).data_out 3 = toUChar data2) ∧
    (∃ s1, SetAllValues s dd a1 a2 res = some (s1, K8055_ERROR) ∧ s1.CurrDev = some i ∧
      (s1.k8055d i).DevNo = (s.k8055d i).DevNo ∧
      byteAt (s1.k8055d i).data_out 1 = toUChar dd ∧
      byteAt (s1.k8055d i).data_out 2 = toUChar a1 ∧
      byteAt (s1.k8055d i).data_out 3 = toUChar a2) ∧
    (∀ (s2 : State) (cmd : Nat), s2.CurrDev = some i → (s2.k8055d i).DevNo ≠ -1 →
      ∃ s3 report, WriteK8055Data s2 cmd 9 = some (s3, 0) ∧
        s3.calls = s2.calls ++ [HidCall.hid_write s2.connected_device report] ∧
        ∀ k, 1 ≤ k → k ≤ 7 → byteAt report (k + 1) = byteAt (s2.k8055d i).data_out k) := by
  have hc9 : 0 < c ∧ c < 9 := by omega
  have hW : ∀ d : Int, ∃ s1, WriteAllDigital s d res = some (s1, K8055_ERROR) ∧
      s1.CurrDev = some i ∧ (s1.k8055d i).DevNo = (s.k8055d i).DevNo ∧
      byteAt (s1.k8055d i).data_out 1 = toUChar d := by
    intro d
    obtain ⟨s1, h1, h2, h3, h4⟩ := WriteK8055Data_fail (s.setOut i 1 (toUChar d)) i
      CMD_SET_ANALOG_DIGITAL res (by simp [hcur]) (by simpa using hfail)
    refine ⟨s1, by simp only [WriteAllDigital, hcur, h1], h2, by rw [h3]; simp, ?_⟩
    rw [h4 1 (by norm_num)]
    simp [byteAt_set_eq, hlen]
  refine ⟨hW data, ?_, ?_, ?_, ?_, ?_, ?_⟩
  · obtain ⟨s1, h1, h2, h3, h4⟩ :=
      hW (((byteAt (s.k8055d i).data_out 1 ||| (1 <<< (c - 1).toNat)) % 256 : Nat) : Int)
    refine ⟨s1, by simp only [SetDigitalChannel, if_pos hc9, hcur, h1], h2, h3, ?_⟩
    rw [h4, toUChar_natCast _ (Nat.mod_lt _ (by norm_num))]
  · obtain ⟨s1, h1, h2, h3, h4⟩ :=
      hW (((byteAt (s.k8055d i).data_out 1 &&& not32 (1 <<< (c - 1).toNat)) % 256 : Nat) : Int)
    refine ⟨s1, by simp only [ClearDigitalChannel, if_pos hc9, hcur, h1], h2, h3, ?_⟩
    rw [h4, toUChar_natCast _ (Nat.mod_lt _ (by norm_num))]
  · rcases hch with h | h <;> subst h
    · obtain ⟨s1, h1, h2, h3, h4⟩ := WriteK8055Data_fail
        (s.setOut i ANALOG_1_OFFSET (toUChar v)) i CMD_SET_ANALOG_DIGITAL res (by simp [hcur])
        (by simpa using hfail)
      refine ⟨s1, by simp [OutputAnalogChannel, hcur, h1], h2, by rw [h3]; simp, ?_⟩
      rw [show ((1 : Int) + 1).toNat = 2 by decide, h4 2 (by norm_num)]
      simp [ANALOG_1_OFFSET, byteAt_set_eq, hlen]
    · obtain ⟨s1, h1, h2, h3, h4⟩ := WriteK8055Data_fail
        (s.setOut i ANALOG_2_OFFSET (toUChar v)) i CMD_SET_ANALOG_DIGITAL res (by simp [hcur])
        (by simpa using hfail)
      refine ⟨s1, by simp [OutputAnalogChannel, hcur, h1], h2, by rw [h3]; simp, ?_⟩
      rw [show ((1 : Int) + 2).toNat = 3 by decide, h4 3 (by norm_num)]
      simp [ANALOG_2_OFFSET, byteAt_set_eq, hlen]
  · obtain ⟨s1, h1, h2, h3, h4⟩ := WriteK8055Data_fail
      ((s.setOut i 2 (toUChar data1)).setOut i 3 (toUChar data2)) i CMD_SET_ANALOG_DIGITAL res
      (by simp [hcur]) (by simpa using hfail)
    refine ⟨s1, by simp only [OutputAllAnalog, hcur, h1], h2, by rw [h3]; simp, ?_, ?_⟩
    · rw [h4 2 (by norm_num)]
      simp [byteAt_set_ne, byteAt_set_eq, hlen]
    · rw [h4 3 (by norm_num)]
      simp [byteAt_set_eq, hlen]
  · obtain ⟨s1, h1, h2, h3, h4⟩ := WriteK8055Data_fail
      (((s.setOut i 1 (toUChar dd)).setOut i 2 (toUChar a1)).setOut i 3 (toUChar a2)) i
      CMD_SET_ANALOG_DIGITAL res (by simp [hcur]) (by simpa using hfail)
    refine ⟨s1, by simp only [SetAllValues, hcur, h1], h2, by rw [h3]; simp, ?_, ?_, ?_⟩
    · rw [h4 1 (by norm_num)]
      simp [byteAt_set_ne, byteAt_set_eq, hlen]
    · rw [h4 2 (by norm_num)]
      simp [byteAt_set_ne, byteAt_set_eq, hlen]
    · rw [h4 3 (by norm_num)]
      simp [byteAt_set_eq, hlen]
  · intro s2 cmd h2 hopen
    obtain ⟨s3, r, h1, hcalls, _, hr, _⟩ := WriteK8055Data_open s2 i cmd 9 h2 hopen
    have hr0 : r = 0 := hr.2 rfl
    subst hr0
    refine ⟨s3, _, h1, hcalls, ?_⟩
    intro k hk1 hk7
    interval_cases k <;> simp [byteAt]

/-- Witness for C25: on the board open at address 1, `WriteAllDigital(0xAA)` with a short write
of 3 bytes returns -1 and leaves `0xAA` in the register; the report of the following
`ResetCounter(1)` carries `0xAA`.  The same after `WriteAllDigital(0xAA)` on the closed session
and a second `OpenDevice(1)`. -/
theorem C25_no_rollback_witness :
    exOpen.CurrDev = some 1 ∧ (exOpen.k8055d 1).data_out.length = 9 ∧
      ((exOpen.k8055d 1).DevNo = -1 ∨ (3 : Int) ≠ 9) ∧ ((1 : Int) ≤ 3 ∧ (3 : Int) ≤ 8) ∧
      ((2 : Int) = 1 ∨ (2 : Int) = 2) ∧
      (WriteAllDigital exOpen 0xAA 3).map (fun p => (p.2, (p.1.k8055d 1).data_out)) =
        some (-1, [5, 0xAA, 0, 0, 0, 0, 0, 0, 0]) ∧
      (ResetCounter exAfterFailedWrite 1 9).map (fun p => (p.2, p.1.reports)) =
        some (0, [[1, 5, 0xAA, 0, 0, 0, 0, 0, 0], [1, 3, 0xAA, 0, 0, 0, 0, 0, 0]]) ∧
      (WriteAllDigital (exClose exOpen) 0xAA 9).map
          (fun p => (p.2, (p.1.k8055d 1).data_out, p.1.reports)) =
        some (-1, [0, 0xAA, 0, 0, 0, 0, 0, 0, 0], []) ∧
      (ResetCounter exAfterClosedWrite 1 9).map (fun p => (p.2, p.1.reports)) =
        some (0, [[1, 3, 0xAA, 0, 0, 0, 0, 0, 0]]) ∧
      ∃ s1, WriteAllDigital exOpen 0xAA 3 = some (s1, K8055_ERROR) ∧ s1.CurrDev = some 1 ∧
        (s1.k8055d 1).DevNo = (exOpen.k8055d 1).DevNo ∧
        byteAt (s1.k8055d 1).data_out 1 = toUChar 0xAA :=
  ⟨rfl, rfl, Or.inr (by decide), by decide, Or.inr rfl, by decide, by decide, by decide,
    by decide,
    (C25_no_rollback exOpen 1 0xAA 3 2 77 1 2 3 4 5 3 rfl rfl (Or.inr (by decide)) (by decide)
      (Or.inr rfl)).1⟩

/-! ### What an output operation retransmits -/

/-- An output operation with a valid index leaves every byte of `data_out[1..]` it does not
assign as it was, whether or not the write succeeds. -/
theorem OutputOp_run_frame (s : State) (i : Fin 4) (op : OutputOp) (res : Int)
    (hcur : s.CurrDev = some i) (hvalid : op.valid) :
    ∃ s1 r, op.run s res = some (s1, r) ∧
      ∀ k, k ≠ 0 → ¬ op.assigns k →
        byteAt (s1.k8055d i).data_out k = byteAt (s.k8055d i).data_out k := by
  have key : ∀ (s0 : State) (cmd : Nat), s0.CurrDev = some i →
      ∃ s1 r, WriteK8055Data s0 cmd res = some (s1, r) ∧
        ∀ k, k ≠ 0 → byteAt (s1.k8055d i).data_out k = byteAt (s0.k8055d i).data_out k := by
    intro s0 cmd h1
    obtain ⟨s1, r, e1, e2, _⟩ := WriteK8055Data_frame s0 i cmd res h1
    exact ⟨s1, r, e1, e2⟩
  cases op with
  | WriteAllDigital data =>
    obtain ⟨s1, r, e1, e2⟩ := key (s.setOut i 1 (toUChar data)) CMD_SET_ANALOG_DIGITAL
      (by simp [hcur])
    refine ⟨s1, r, by simp only [OutputOp.run, WriteAllDigital, hcur, e1], ?_⟩
    intro k hk0 hka
    simp only [OutputOp.assigns] at hka
    rw [e2 k hk0, setOut_data_out, byteAt_set_ne _ _ _ _ (Ne.symm hka)]
  | ClearDigitalChannel Channel =>
    simp only [OutputOp.valid] at hvalid
    obtain ⟨s1, r, e1, e2⟩ := key (s.setOut i 1 (toUChar
      ((byteAt (s.k8055d i).data_out 1 &&& not32 (1 <<< (Channel - 1).toNat)) % 256 : Nat)))
      CMD_SET_ANALOG_DIGITAL (by simp [hcur])
    refine ⟨s1, r, by simp only [OutputOp.run, ClearDigitalChannel, if_pos hvalid, hcur,
      WriteAllDigital, e1], ?_⟩
    intro k hk0 hka
    simp only [OutputOp.assigns] at hka
    rw [e2 k hk0, setOut_data_out, byteAt_set_ne _ _ _ _ (Ne.symm hka)]
  | ClearAllDigital =>
    obtain ⟨s1, r, e1, e2⟩ := key (s.setOut i 1 (toUChar 0x00)) CMD_SET_ANALOG_DIGITAL
      (by simp [hcur])
    refine ⟨s1, r, by simp only [OutputOp.run, ClearAllDigital, WriteAllDigital, hcur, e1], ?_⟩
    intro k hk0 hka
    simp only [OutputOp.assigns] at hka
    rw [e2 k hk0, setOut_data_out, byteAt_set_ne _ _ _ _ (Ne.symm hka)]
  | SetDigitalChannel Channel =>
    simp only [OutputOp.valid] at hvalid
    obtain ⟨s1, r, e1, e2⟩ := key (s.setOut i 1 (toUChar
      ((byteAt (s.k8055d i).data_out 1 ||| (1 <<< (Channel - 1).toNat)) % 256 : Nat)))
      CMD_SET_ANALOG_DIGITAL (by simp [hcur])
    refine ⟨s1, r, by simp only [OutputOp.run, SetDigitalChannel, if_pos hvalid, hcur,
      WriteAllDigital, e1], ?_⟩
    intro k hk0 hka
    simp only [OutputOp.assigns] at hka
    rw [e2 k hk0, setOut_data_out, byteAt_set_ne _ _ _ _ (Ne.symm hka)]
  | SetAllDigital =>
    obtain ⟨s1, r, e1, e2⟩ := key (s.setOut i 1 (toUChar 0xff)) CMD_SET_ANALOG_DIGITAL
      (by simp [hcur])
    refine ⟨s1, r, by simp only [OutputOp.run, SetAllDigital, WriteAllDigital, hcur, e1], ?_⟩
    intro k hk0 hka
    simp only [OutputOp.assigns] at hka
    rw [e2 k hk0, setOut_data_out, byteAt_set_ne _ _ _ _ (Ne.symm hka)]
  | OutputAnalogChannel Channel data =>
    simp only [OutputOp.valid] at hvalid
    by_cases h2 : Channel = 2
    · obtain ⟨s1, r, e1, e2⟩ := key (s.setOut i ANALOG_2_OFFSET (toUChar data))
        CMD_SET_ANALOG_DIGITAL (by simp [hcur])
      refine ⟨s1, r, by simp only [OutputOp.run, OutputAnalogChannel, if_pos hvalid, hcur,
        if_pos h2, e1], ?_⟩
      intro k hk0 hka
      simp only [OutputOp.assigns, if_pos h2] at hka
      rw [e2 k hk0, setOut_data_out, byteAt_set_ne _ _ _ _ (Ne.symm hka)]
    · obtain ⟨s1, r, e1, e2⟩ := key (s.setOut i ANALOG_1_OFFSET (toUChar data))
        CMD_SET_ANALOG_DIGITAL (by simp [hcur])
      refine ⟨s1, r, by simp only [OutputOp.run, OutputAnalogChannel, if_pos hvalid, hcur,
        if_neg h2, e1], ?_⟩
      intro k hk0 hka
      simp only [OutputOp.assigns, if_neg h2] at hka
      rw [e2 k hk0, setOut_data_out, byteAt_set_ne _ _ _ _ (Ne.symm hka)]
  | OutputAllAnalog data1 data2 =>
    obtain ⟨s1, r, e1, e2⟩ := key ((s.setOut i 2 (toUChar data1)).setOut i 3 (toUChar data2))
      CMD_SET_ANALOG_DIGITAL (by simp [hcur])
    refine ⟨s1, r, by simp only [OutputOp.run, OutputAllAnalog, hcur, e1], ?_⟩
    intro k hk0 hka
    simp only [OutputOp.assigns, not_or] at hka
    rw [e2 k hk0, setOut_data_out, setOut_data_out, byteAt_set_ne _ _ _ _ (Ne.symm hka.2),
      byteAt_set_ne _ _ _ _ (Ne.symm hka.1)]
  | ClearAllAnalog =>
    obtain ⟨s1, r, e1, e2⟩ := key ((s.setOut i 2 (toUChar 0)).setOut i 3 (toUChar 0))
      CMD_SET_ANALOG_DIGITAL (by simp [hcur])
    refine ⟨s1, r, by simp only [OutputOp.run, ClearAllAnalog, OutputAllAnalog, hcur, e1], ?_⟩
    intro k hk0 hka
    simp only [OutputOp.assigns, not_or] at hka
    rw [e2 k hk0, setOut_data_out, setOut_data_out, byteAt_set_ne _ _ _ _ (Ne.symm hka.2),
      byteAt_set_ne _ _ _ _ (Ne.symm hka.1)]
  | ClearAnalogChannel Channel =>
    simp only [OutputOp.valid] at hvalid
    by_cases h2 : Channel = 2
    · obtain ⟨s1, r, e1, e2⟩ := key (s.setOut i ANALOG_2_OFFSET (toUChar 0))
        CMD_SET_ANALOG_DIGITAL (by simp [hcur])
      refine ⟨s1, r, by simp [OutputOp.run, ClearAnalogChannel, OutputAnalogChannel, hcur,
        h2, e1], ?_⟩
      intro k hk0 hka
      simp only [OutputOp.assigns, if_pos h2] at hka
      rw [e2 k hk0, setOut_data_out, byteAt_set_ne _ _ _ _ (Ne.symm hka)]
    · obtain ⟨s1, r, e1, e2⟩ := key (s.setOut i ANALOG_1_OFFSET (toUChar 0))
        CMD_SET_ANALOG_DIGITAL (by simp [hcur])
      have h1 : Channel = 1 := hvalid.resolve_right h2
      subst h1
      refine ⟨s1, r, by simp [OutputOp.run, ClearAnalogChannel, OutputAnalogChannel, hcur,
        e1], ?_⟩
      intro k hk0 hka
      simp only [OutputOp.assigns, if_neg h2] at hka
      rw [e2 k hk0, setOut_data_out, byteAt_set_ne _ _ _ _ (Ne.symm hka)]
  | SetAnalogChannel Channel =>
    simp only [OutputOp.valid] at hvalid
    by_cases h2 : Channel = 2
    · obtain ⟨s1, r, e1, e2⟩ := key (s.setOut i ANALOG_2_OFFSET (toUChar 0xff))
        CMD_SET_ANALOG_DIGITAL (by simp [hcur])
      refine ⟨s1, r, by simp [OutputOp.run, SetAnalogChannel, OutputAnalogChannel, hcur,
        h2, e1], ?_⟩
      intro k hk0 hka
      simp only [OutputOp.assigns, if_pos h2] at hka
      rw [e2 k hk0, setOut_data_out, byteAt_set_ne _ _ _ _ (Ne.symm hka)]
    · obtain ⟨s1, r, e1, e2⟩ := key (s.setOut i ANALOG_1_OFFSET (toUChar 0xff))
        CMD_SET_ANALOG_DIGITAL (by simp [hcur])
      have h1 : Channel = 1 := hvalid.resolve_right h2
      subst h1
      refine ⟨s1, r, by simp [OutputOp.run, SetAnalogChannel, OutputAnalogChannel, hcur,
        e1], ?_⟩
      intro k hk0 hka
      simp only [OutputOp.assigns, if_neg h2] at hka
      rw [e2 k hk0, setOut_data_out, byteAt_set_ne _ _ _ _ (Ne.symm hka)]
  | SetAllAnalog =>
    obtain ⟨s1, r, e1, e2⟩ := key ((s.setOut i 2 (toUChar 0xff)).setOut i 3 (toUChar 0xff))
      CMD_SET_ANALOG_DIGITAL (by simp [hcur])
    refine ⟨s1, r, by simp only [OutputOp.run, SetAllAnalog, OutputAllAnalog, hcur, e1], ?_⟩
    intro k hk0 hka
    simp only [OutputOp.assigns, not_or] at hka
    rw [e2 k hk0, setOut_data_out, setOut_data_out, byteAt_set_ne _ _ _ _ (Ne.symm hka.2),
      byteAt_set_ne _ _ _ _ (Ne.symm hka.1)]
  | SetAllValues DigitalData AdData1 AdData2 =>
    obtain ⟨s1, r, e1, e2⟩ := key (((s.setOut i 1 (toUChar DigitalData)).setOut i 2
      (toUChar AdData1)).setOut i 3 (toUChar AdData2)) CMD_SET_ANALOG_DIGITAL (by simp [hcur])
    refine ⟨s1, r, by simp only [OutputOp.run, SetAllValues, hcur, e1], ?_⟩
    intro k hk0 hka
    simp only [OutputOp.assigns, not_or] at hka
    rw [e2 k hk0, setOut_data_out, setOut_data_out, setOut_data_out,
      byteAt_set_ne _ _ _ _ (Ne.symm hka.2.2), byteAt_set_ne _ _ _ _ (Ne.symm hka.2.1),
      byteAt_set_ne _ _ _ _ (Ne.symm hka.1)]
  | ResetCounter CounterNo =>
    simp only [OutputOp.valid] at hvalid
    obtain ⟨s1, r, e1, e2⟩ := key ((s.setOut i 0 ((0x02 + toUChar CounterNo) % 256)).setOut i
      (3 + CounterNo).toNat 0x00) (byteAt (((s.setOut i 0 ((0x02 + toUChar CounterNo) %
        256)).setOut i (3 + CounterNo).toNat 0x00).k8055d i).data_out 0) (by simp [hcur])
    refine ⟨s1, r, by simp only [OutputOp.run, ResetCounter, if_pos hvalid, hcur, e1], ?_⟩
    intro k hk0 hka
    simp only [OutputOp.assigns] at hka
    rw [e2 k hk0, setOut_data_out, setOut_data_out, byteAt_set_ne _ _ _ _ (Ne.symm hka),
      byteAt_set_ne _ _ _ _ (Ne.symm hk0)]
  | SetCounterDebounceTime CounterNo DebounceTime undef =>
    simp only [OutputOp.valid] at hvalid
    obtain ⟨s1, r, e1, e2⟩ := key ((s.setOut i 0 (toUChar CounterNo)).setOut i
      (5 + CounterNo).toNat (debounceByte DebounceTime undef))
      (byteAt (((s.setOut i 0 (toUChar CounterNo)).setOut i (5 + CounterNo).toNat
        (debounceByte DebounceTime undef)).k8055d i).data_out 0) (by simp [hcur])
    refine ⟨s1, r, by simp only [OutputOp.run, SetCounterDebounceTime, if_pos hvalid, hcur,
      e1], ?_⟩
    intro k hk0 hka
    simp only [OutputOp.assigns] at hka
    rw [e2 k hk0, setOut_data_out, setOut_data_out, byteAt_set_ne _ _ _ _ (Ne.symm hka),
      byteAt_set_ne _ _ _ _ (Ne.symm hk0)]

/-- C5: an output operation hands a report to the transport exactly when its index is valid
and the session is open, and then exactly one.  That report has nine bytes, byte 0 is `0x01`,
byte 1 is the command code of the operation (5 for the digital and analog output operations,
`2 + n` for `ResetCounter(n)`, `n` for `SetCounterDebounceTime(n, ms)`), and for command 5
bytes 2, 3 and 4 are bytes 1, 2 and 3 of `data_out` (digital mask, analog 1, analog 2) as the
operation leaves them.  Every payload byte `k + 1` whose register byte `k` the operation does
not assign is the register byte as it was before the operation, so what earlier operations
stored is sent again. -/
theorem C5_report_layout (s : State) (i : Fin 4) (op : OutputOp) (res : Int)
    (hcur : s.CurrDev = some i) (hlen : (s.k8055d i).data_out.length = 9) :
    ∃ s1 r, op.run s res = some (s1, r) ∧
      ((¬ op.valid ∨ (s.k8055d i).DevNo = -1) → s1.calls = s.calls) ∧
      (op.valid → (s.k8055d i).DevNo ≠ -1 →
        ∃ report, s1.calls = s.calls ++ [HidCall.hid_write s.connected_device report] ∧
          report.length = 9 ∧ byteAt report 0 = 0x01 ∧ (byteAt report 1 : Int) = op.command ∧
          (op.command = 5 →
            byteAt report 2 = byteAt (s1.k8055d i).data_out 1 ∧
            byteAt report 3 = byteAt (s1.k8055d i).data_out 2 ∧
            byteAt report 4 = byteAt (s1.k8055d i).data_out 3) ∧
          (∀ k, 1 ≤ k → k ≤ 7 → ¬ op.assigns k →
            byteAt report (k + 1) = byteAt (s.k8055d i).data_out k)) := by
  by_cases h : op.valid ∧ (s.k8055d i).DevNo ≠ -1
  · obtain ⟨s1, r, cmd, h1, h2, h3, _⟩ := OutputOp_run_open s i op res hcur h.2 hlen h.1
    obtain ⟨s1', r', e1, e2⟩ := OutputOp_run_frame s i op res hcur h.1
    have e3 : s1' = s1 := by
      rw [e1] at h1
      simp only [Option.some.injEq, Prod.mk.injEq] at h1
      exact h1.1
    subst e3
    refine ⟨s1', r, h1, fun hn => ?_, fun _ _ => ⟨_, h3, rfl, rfl, ?_, ?_, ?_⟩⟩
    · rcases hn with hn | hn
      · exact absurd h.1 hn
      · exact absurd hn h.2
    · simpa [byteAt] using h2
    · intro _
      simp [byteAt]
    · intro k hk1 hk7 hka
      rw [← e2 k (by omega) hka]
      interval_cases k <;> simp [byteAt]
  · have h' : ¬ op.valid ∨ (s.k8055d i).DevNo = -1 := by
      by_cases hv : op.valid
      · exact Or.inr (not_not.1 fun hne => h ⟨hv, hne⟩)
      · exact Or.inl hv
    obtain ⟨s1, h1, h2⟩ := OutputOp_run_no_report s i op res hcur h'
    exact ⟨s1, K8055_ERROR, h1, fun _ => h2, fun hv ho => absurd ⟨hv, ho⟩ h⟩

/-- Witness for C5: on the register `0xff, 0x80, 0x40` left by `SetAllValues`,
`WriteAllDigital(0x0f)` hands over the report `[1, 5, 0x0f, 0x80, 0x40, 0, 0, 0, 0]`: the analog
values stored by the earlier operation are sent again. -/
theorem C5_report_layout_witness :
    exAfterSetAll.CurrDev = some 1 ∧ (exAfterSetAll.k8055d 1).data_out.length = 9 ∧
      (OutputOp.WriteAllDigital 0x0f).valid ∧ (exAfterSetAll.k8055d 1).DevNo ≠ -1 ∧
      exAfterSetAll.reports = [[1, 5, 0xff, 0x80, 0x40, 0, 0, 0, 0]] ∧
      ((OutputOp.WriteAllDigital 0x0f).run exAfterSetAll 9).map (fun p => (p.2, p.1.reports)) =
        some (0, [[1, 5, 0xff, 0x80, 0x40, 0, 0, 0, 0], [1, 5, 0x0f, 0x80, 0x40, 0, 0, 0, 0]]) ∧
      ∃ s1 r report, (OutputOp.WriteAllDigital 0x0f).run exAfterSetAll 9 = some (s1, r) ∧
        s1.calls = exAfterSetAll.calls ++
          [HidCall.hid_write exAfterSetAll.connected_device report] ∧
        report.length = 9 ∧ byteAt report 0 = 0x01 ∧
        (byteAt report 1 : Int) = (OutputOp.WriteAllDigital 0x0f).command ∧
        (∀ k, 1 ≤ k → k ≤ 7 → ¬ (OutputOp.WriteAllDigital 0x0f).assigns k →
          byteAt report (k + 1) = byteAt (exAfterSetAll.k8055d 1).data_out k) :=
  ⟨rfl, rfl, trivial, by decide, by decide, by decide,
    let ⟨s1, r, h1, _, h3⟩ :=
      C5_report_layout exAfterSetAll 1 (OutputOp.WriteAllDigital 0x0f) 9 rfl rfl
    let ⟨report, c1, c2, c3, c4, _, c6⟩ := h3 trivial (by decide)
    ⟨s1, r, report, h1, c1, c2, c3, c4, c6⟩⟩

end K8055
